import Mathlib

/-!
# FBXConverter: polygon-to-triangle conversion and Wavefront OBJ export

A shallow embedding of `Common/polymesh.h` (`PolyMesh`, `TriMesh::TriMesh`), of
`FBX/FbxParser.cpp` (`WriteMaterials`, `FbxParser::ExportOBJ`,
`FbxParser::ExtractMaterial`, `FbxParser::ExtractMaterialConnections`,
`FbxParser::ExtractMesh`) and of `FBXConverter.cpp` (`main`).

Conventions of the embedding.

* `uint32_t` values are natural numbers; every `uint32_t` operation of the source is
  written with an explicit `% U32`.
* A C++ array is a list.  An array obtained from `new T[n]` is a list of `n` slots
  of type `Option T`, where `none` is a slot that has not been written yet.
* Reading or writing outside an array (undefined behaviour in C++) makes the
  embedded function return `none`.
* The scalar type of the coordinates (`double` in the source) is a parameter `α`:
  the triangulator only copies coordinates; the `%f` conversion of `printf` and
  the two arithmetic operations of `ExtractMaterial` are parameters as well.
* The geometry file is the concatenation of the texts of its lines, one line per
  `fprintf` of `ExportOBJ`.
* The objects of the FBX SDK are records of what the source reads of them; an
  accessor of the SDK that the source calls is a field of the record.
* A `char` of a `std::string` is a character of a `String`, and the embedding
  counts positions and lengths in characters where the source counts them in
  bytes.  The two agree on strings of single-byte characters (`SingleByte`), which
  the theorems about the base name of a path assume.
-/

namespace FBXConverter

/-! ## Machine integers and loops -/

/-- The modulus of `uint32_t` arithmetic. -/
def U32 : Nat := 4294967296

/-- The value of a `uint32_t` converted to `int` (two's complement). -/
def toInt32 (n : Nat) : Int :=
  if n % U32 < 2147483648 then ((n % U32 : Nat) : Int) else ((n % U32 : Nat) : Int) - 4294967296

/-- The loop `for (i = 0; i < n; ++i) s = body(i, s)`; it fails as soon as one
iteration fails. -/
def forLoop {σ : Type} (n : Nat) (body : Nat → σ → Option σ) (s : σ) : Option σ :=
  match n with
  | 0 => some s
  | m + 1 => (forLoop m body s).bind (body m)

/-- The assignment `a[i] = v` on an array of slots. -/
def store {β : Type} (a : List (Option β)) (i : Nat) (v : β) : Option (List (Option β)) :=
  if i < a.length then some (a.set i (some v)) else none

/-- The value of `a[i]` for an array of slots: the slot must exist and must have
been written. -/
def load {β : Type} (a : List (Option β)) (i : Nat) : Option β :=
  match a[i]? with
  | some (some v) => some v
  | _ => none

/-! ## `polymesh.h` -/

/-- Eigen `Vector3d`: components `[0]`, `[1]`, `[2]`. -/
structure Vector3d (α : Type) where
  x : α
  y : α
  z : α
deriving DecidableEq, Repr

/-- Eigen `Vector2d`: components `[0]`, `[1]`. -/
structure Vector2d (α : Type) where
  u : α
  v : α
deriving DecidableEq, Repr

/-- The class `PolyMesh`. -/
structure PolyMesh (α : Type) where
  name : String
  nVertices : Nat
  nFaces : Nat
  FaceIndices : List Nat
  VertsIndices : List Nat
  Verts : List (Vector3d α)
  Normals : List (Vector3d α)
  UVs : List (Vector2d α)
  UVIndices : List Nat
deriving DecidableEq, Repr

/-- The class `TriMesh` (member variables). -/
structure TriMesh (α : Type) where
  name : String
  matname : String
  numVert : Nat
  numTris : Nat
  numUV : Nat
  P : List (Option (Vector3d α))
  triIndex : List (Option Nat)
  N : List (Option (Vector3d α))
  T : List (Option (Vector2d α))
  UVIndices : List (Option Nat)
  PN : List (Option (Vector3d α))
  UV : List (Option (Vector2d α))
deriving DecidableEq, Repr

/-- The locals `numTris`, `k`, `maxVertIndex`, `maxUVIndex` of the counting loop. -/
structure CountState where
  numTris : Nat
  k : Nat
  maxVertIndex : Nat
  maxUVIndex : Nat
deriving DecidableEq, Repr

/-- Body of the loop over `j` of the counting loop (polymesh.h 69-75). -/
def countCorner {α : Type} (pm : PolyMesh α) (j : Nat) (s : CountState) : Option CountState := do
  let v ← pm.VertsIndices[(s.k + j) % U32]?
  let u ← pm.UVIndices[(s.k + j) % U32]?
  some { s with
    maxVertIndex := if v > s.maxVertIndex then v else s.maxVertIndex
    maxUVIndex := if u > s.maxUVIndex then u else s.maxUVIndex }

/-- Body of the loop over `i` of the counting loop (polymesh.h 67-77). -/
def countFace {α : Type} (pm : PolyMesh α) (i : Nat) (s : CountState) : Option CountState := do
  let f ← pm.FaceIndices[i]?
  let s1 := { s with numTris := (s.numTris + (f + U32 - 2) % U32) % U32 }
  let s2 ← forLoop f (countCorner pm) s1
  some { s2 with k := (s2.k + f) % U32 }

/-- The locals `l`, `k` and the arrays written by the emission loop. -/
structure EmitState (α : Type) where
  l : Nat
  k : Nat
  triIndex : List (Option Nat)
  UVIndices : List (Option Nat)
  N : List (Option (Vector3d α))
  T : List (Option (Vector2d α))
  PN : List (Option (Vector3d α))
  UV : List (Option (Vector2d α))
deriving DecidableEq, Repr

/-- Three assignments `dst[l] = src[k]; dst[l + 1] = src[k + j + 1];
dst[l + 2] = src[k + j + 2]` of the emission loop, `k1`, `k2`, `l1`, `l2`
being the values of the index expressions. -/
def copy3 {β : Type} (src : List β) (dst : List (Option β)) (k0 k1 k2 l0 l1 l2 : Nat) :
    Option (List (Option β)) :=
  (src[k0]?).bind fun a0 => (store dst l0 a0).bind fun d0 =>
  (src[k1]?).bind fun a1 => (store d0 l1 a1).bind fun d1 =>
  (src[k2]?).bind fun a2 => store d1 l2 a2

/-- Three assignments `dst[idx[k]] = src[k]; dst[idx[k + j + 1]] = src[k + j + 1];
dst[idx[k + j + 2]] = src[k + j + 2]` of the emission loop. -/
def scatter3 {β : Type} (idx : List Nat) (src : List β) (dst : List (Option β))
    (k0 k1 k2 : Nat) : Option (List (Option β)) :=
  (idx[k0]?).bind fun i0 => (src[k0]?).bind fun a0 => (store dst i0 a0).bind fun d0 =>
  (idx[k1]?).bind fun i1 => (src[k1]?).bind fun a1 => (store d0 i1 a1).bind fun d1 =>
  (idx[k2]?).bind fun i2 => (src[k2]?).bind fun a2 => store d1 i2 a2

/-- Body of the loop over `j` of the emission loop (polymesh.h 99-117): one
triangle of the fan. -/
def emitTriangle {α : Type} (pm : PolyMesh α) (j : Nat) (s : EmitState α) :
    Option (EmitState α) :=
  let k0 := s.k
  let k1 := (s.k + j + 1) % U32
  let k2 := (s.k + j + 2) % U32
  let l0 := s.l
  let l1 := (s.l + 1) % U32
  let l2 := (s.l + 2) % U32
  (copy3 pm.VertsIndices s.triIndex k0 k1 k2 l0 l1 l2).bind fun tri =>
  (copy3 pm.UVIndices s.UVIndices k0 k1 k2 l0 l1 l2).bind fun uvi =>
  (copy3 pm.Normals s.N k0 k1 k2 l0 l1 l2).bind fun nn =>
  (copy3 pm.UVs s.T k0 k1 k2 l0 l1 l2).bind fun tt =>
  (scatter3 pm.VertsIndices pm.Normals s.PN k0 k1 k2).bind fun pn =>
  (scatter3 pm.UVIndices pm.UVs s.UV k0 k1 k2).bind fun uv =>
  some { l := (s.l + 3) % U32, k := s.k, triIndex := tri, UVIndices := uvi,
         N := nn, T := tt, PN := pn, UV := uv }

/-- Body of the loop over `i` of the emission loop (polymesh.h 97-120). -/
def emitFace {α : Type} (pm : PolyMesh α) (i : Nat) (s : EmitState α) :
    Option (EmitState α) := do
  let f ← pm.FaceIndices[i]?
  let s1 ← forLoop ((f + U32 - 2) % U32) (emitTriangle pm) s
  some { s1 with k := (s1.k + f) % U32 }

/-- Body of the loop copying the vertex positions (polymesh.h 83-85). -/
def copyVert {α : Type} (pm : PolyMesh α) (i : Nat) (P : List (Option (Vector3d α))) :
    Option (List (Option (Vector3d α))) := do
  let v ← pm.Verts[i]?
  store P i v

/-- State of the emission loop on entry (polymesh.h 89-96): `l = 0`, `k = 0` and
the freshly allocated arrays `triIndex`, `UVIndices`, `N`, `T` of `numTris * 3`
slots, `PN` of `maxVertIndex` slots and `UV` of `maxUVIndex` slots. -/
def TriMesh.emitInit (α : Type) (numTris maxVertIndex maxUVIndex : Nat) : EmitState α :=
  { l := 0, k := 0, triIndex := List.replicate ((numTris * 3) % U32) none,
    UVIndices := List.replicate ((numTris * 3) % U32) none,
    N := List.replicate ((numTris * 3) % U32) none,
    T := List.replicate ((numTris * 3) % U32) none,
    PN := List.replicate maxVertIndex none,
    UV := List.replicate maxUVIndex none }

/-- Second half of the constructor (polymesh.h 81-120): the allocations, the copy
of the positions and the emission loop, for the values `numTris`, `maxVertIndex`
and `maxUVIndex` left by the counting loop (the last two already incremented). -/
def TriMesh.allocateAndEmit {α : Type} (pm : PolyMesh α) (numTris maxVertIndex maxUVIndex : Nat) :
    Option (TriMesh α) :=
  (forLoop maxVertIndex (copyVert pm) (List.replicate maxVertIndex none)).bind fun P =>
  (forLoop pm.nFaces (emitFace pm) (TriMesh.emitInit α numTris maxVertIndex maxUVIndex)).bind
    fun e =>
  some { name := pm.name, matname := "", numVert := maxVertIndex, numTris := numTris,
         numUV := maxUVIndex, P := P, triIndex := e.triIndex, N := e.N, T := e.T,
         UVIndices := e.UVIndices, PN := e.PN, UV := e.UV }

/-- The constructor `TriMesh::TriMesh(const PolyMesh*)` (polymesh.h 53-121): the
counting loop, `maxVertIndex += 1; maxUVIndex += 1`, then the rest. -/
def TriMesh.ofPolyMesh {α : Type} (pm : PolyMesh α) : Option (TriMesh α) :=
  (forLoop pm.nFaces (countFace pm)
    { numTris := 0, k := 0, maxVertIndex := 0, maxUVIndex := 0 }).bind fun c =>
  TriMesh.allocateAndEmit pm c.numTris ((c.maxVertIndex + 1) % U32) ((c.maxUVIndex + 1) % U32)

/-! ## `FbxParser.h`, `FbxParser.cpp`: materials -/

/-- The arithmetic on `double` and `float` that `ExtractMaterial` performs, and the
two constants of the default member initialisers of `Material` that can survive
in a stored material. -/
structure ScalarOps (α : Type) where
  /-- The literal `0.f` (default of `Ns`). -/
  zero : α
  /-- The literal `1.0f` (components of the default of `Ks`). -/
  one : α
  /-- The expression `1.0 - x` stored into the `float` member `Tr`. -/
  oneMinus : α → α
  /-- The conversion of a `double` stored into the `float` member `Ns`. -/
  toFloat : α → α

/-- The struct `Material`; `d` has no initialiser and is never assigned. -/
structure Material (α : Type) where
  index : Nat
  materialName : String
  Ka : Vector3d α
  Kd : Vector3d α
  Ks : Vector3d α
  d : Option α
  Tr : α
  illum : Int
  Ns : α
  map_Kd : String
deriving DecidableEq, Repr

/-- Outcome of the two `GetClassId().Is(...)` tests of `ExtractMaterial`, the Phong
test being made first. -/
inductive ShadingClass where
  | phong
  | lambert
  | other
deriving DecidableEq, Repr

/-- What `ExtractMaterial` reads of an `FbxSurfaceMaterial`. -/
structure FbxSurfaceMaterial (α : Type) where
  name : String
  classId : ShadingClass
  Ambient : Vector3d α
  Diffuse : Vector3d α
  Specular : Vector3d α
  Emissive : Vector3d α
  TransparencyFactor : α
  Shininess : α
  ReflectionFactor : α
deriving DecidableEq, Repr

/-- The table `std::map<std::string, Material*> Materials`: the entries in
increasing order of their keys. -/
abbrev MaterialMap (α : Type) := List (String × Material α)

/-- The lookup `Materials.find(name)`. -/
def MaterialMap.find {α : Type} : MaterialMap α → String → Option (Material α)
  | [], _ => none
  | (k, m) :: rest, name => if name = k then some m else MaterialMap.find rest name

/-- The assignment `Materials[name] = m`. -/
def MaterialMap.assign {α : Type} : MaterialMap α → String → Material α → MaterialMap α
  | [], name, m => [(name, m)]
  | (k, v) :: rest, name, m =>
    if name < k then (name, m) :: (k, v) :: rest
    else if name = k then (name, m) :: rest
    else (k, v) :: MaterialMap.assign rest name m

/-- The `Material` that the body of the loop of `ExtractMaterial` builds from the
material number `lCount` of the node (FbxParser.cpp 661-722); `none` when the
`continue` of the unsupported case is taken. -/
def buildMaterial {α : Type} (ops : ScalarOps α) (lCount : Nat) (lMaterial : FbxSurfaceMaterial α) :
    Option (Material α) :=
  match lMaterial.classId with
  | ShadingClass.phong =>
    some { index := lCount, materialName := lMaterial.name,
           Ka := lMaterial.Ambient, Kd := lMaterial.Diffuse, Ks := lMaterial.Specular,
           d := none, Tr := ops.oneMinus lMaterial.TransparencyFactor, illum := 2,
           Ns := ops.toFloat lMaterial.Shininess, map_Kd := "" }
  | ShadingClass.lambert =>
    some { index := lCount, materialName := lMaterial.name,
           Ka := lMaterial.Ambient, Kd := lMaterial.Diffuse,
           Ks := ⟨ops.one, ops.one, ops.one⟩,
           d := none, Tr := ops.oneMinus lMaterial.TransparencyFactor, illum := 2,
           Ns := ops.zero, map_Kd := "" }
  | ShadingClass.other => none

/-- Body of the loop of `ExtractMaterial` (FbxParser.cpp 657-724). -/
def extractOne {α : Type} (ops : ScalarOps α) (Materials : MaterialMap α) (lCount : Nat)
    (lMaterial : FbxSurfaceMaterial α) : MaterialMap α :=
  match Materials.find lMaterial.name with
  | none =>
    match buildMaterial ops lCount lMaterial with
    | some pMaterial => Materials.assign lMaterial.name pMaterial
    | none => Materials
  | some _ => Materials

/-- The loop of `ExtractMaterial` from `lCount` on, over the remaining materials of
the node. -/
def extractFrom {α : Type} (ops : ScalarOps α) :
    List (FbxSurfaceMaterial α) → Nat → MaterialMap α → MaterialMap α
  | [], _, Materials => Materials
  | lMaterial :: rest, lCount, Materials =>
    extractFrom ops rest (lCount + 1) (extractOne ops Materials lCount lMaterial)

/-- The method `FbxParser::ExtractMaterial` for a mesh whose node carries the
materials `nodeMaterials`, as a function of the table `Materials` (FbxParser.cpp
639-727). -/
def ExtractMaterial {α : Type} (ops : ScalarOps α) (nodeMaterials : List (FbxSurfaceMaterial α))
    (Materials : MaterialMap α) : MaterialMap α :=
  extractFrom ops nodeMaterials 0 Materials

/-! ## `FbxParser.cpp`: the files -/

/-- The files as `fopen_s(.., "w")`, `fprintf` and `fclose` see them: which paths can
be opened for writing, the content of each file, and the paths opened so far. -/
structure FileSystem where
  writable : String → Bool
  content : String → Option String
  opened : List String

/-- The call `fopen_s(&fp, path, "w")` followed by the writes and `fclose(fp)`: the
file is created or truncated and gets the text; `none` when `fp == NULL`. -/
def FileSystem.writeFile (fs : FileSystem) (path text : String) : Option FileSystem :=
  if fs.writable path then
    some { fs with content := fun p => if p = path then some text else fs.content p
                   opened := fs.opened ++ [path] }
  else none

/-- The enumerator `FbxParser::E_NOERROR`. -/
def E_NOERROR : Int := 0
/-- The enumerator `FbxParser::E_NO_MESH`. -/
def E_NO_MESH : Int := 1
/-- The enumerator `FbxParser::E_FAILOPENFILE`. -/
def E_FAILOPENFILE : Int := 2

/-- Text printed by `%f %f %f` for the three components of a vector. The parameter
`fmt` is the `%f` conversion of `printf`; its argument `none` is a `double` that
was never written. -/
def fmt3 {α : Type} (fmt : Option α → String) (v : Option (Vector3d α)) : String :=
  fmt (v.map Vector3d.x) ++ " " ++ fmt (v.map Vector3d.y) ++ " " ++ fmt (v.map Vector3d.z)

/-- Text printed by `%f %f` for the two components of a texture coordinate. -/
def fmt2 {α : Type} (fmt : Option α → String) (v : Option (Vector2d α)) : String :=
  fmt (v.map Vector2d.u) ++ " " ++ fmt (v.map Vector2d.v)

/-- Text that `WriteMaterials` prints for one material (FbxParser.cpp 50-57). -/
def materialText {α : Type} (fmt : Option α → String) (m : Material α) : String :=
  "newmtl " ++ m.materialName ++ "\n" ++
  "Ka " ++ fmt3 fmt (some m.Ka) ++ "\n" ++
  "Kd " ++ fmt3 fmt (some m.Kd) ++ "\n" ++
  "Ks " ++ fmt3 fmt (some m.Ks) ++ "\n" ++
  "Tr " ++ fmt (some m.Tr) ++ "\n" ++
  "Ns " ++ fmt (some m.Ns) ++ "\n" ++
  "\n"

/-- The function `WriteMaterials` (FbxParser.cpp 31-64): its return value and the
files after the call. -/
def WriteMaterials {α : Type} (fmt : Option α → String) (fs : FileSystem)
    (materials : MaterialMap α) (filename : String) : Int × FileSystem :=
  let fileName := filename ++ ".mtl"
  if materials.length > 0 then
    match fs.writeFile fileName
      ("#\n# Wavefront material file\n# Created with Dolphin FBX \n#\n\n" ++
        String.join (materials.map fun e => materialText fmt e.2)) with
    | none => (-1, fs)
    | some fs1 => (0, fs1)
  else (0, fs)

/-! ## `FbxParser.cpp`: `ExportOBJ` -/

/-- The three numbers `vn/tn/vn` that one `fprintf(fp, "%d/%d/%d", vn, tn, vn)`
prints. -/
structure FaceCorner where
  v : Int
  t : Int
  n : Int
deriving DecidableEq, Repr

/-- The lines of the geometry file, one constructor per `fprintf` of `ExportOBJ`
(the face line stands for the `fprintf` calls of one iteration of the loop over
the triangles). -/
inductive ObjLine (α : Type) where
  | header
  | mtllib (shortFilename : String)
  | g (name : String)
  | v (p : Option (Vector3d α))
  | vt (t : Option (Vector2d α))
  | vn (n : Option (Vector3d α))
  | usemtl (matname : String)
  | f (corners : List FaceCorner)
deriving DecidableEq, Repr

/-- Text of a face corner: `fprintf(fp, "%d/%d/%d", vn, tn, vn); fprintf(fp, " ");`. -/
def FaceCorner.text (c : FaceCorner) : String :=
  toString c.v ++ "/" ++ toString c.t ++ "/" ++ toString c.n ++ " "

/-- Text of a line of the geometry file, as the format strings of `ExportOBJ` print
it (FbxParser.cpp 584-624). -/
def ObjLine.text {α : Type} (fmt : Option α → String) : ObjLine α → String
  | ObjLine.header =>
    "###################\n#\n# Wavefront OBJ File\n# Created with Dolphin FBX\n#\n###################\n\n"
  | ObjLine.mtllib s => "mtllib ./" ++ s ++ ".mtl\n\n"
  | ObjLine.g name => "g " ++ name ++ "\n"
  | ObjLine.v p => "v " ++ fmt3 fmt p ++ "\n"
  | ObjLine.vt t => "vt " ++ fmt2 fmt t ++ "\n"
  | ObjLine.vn n => "vn " ++ fmt3 fmt n ++ "\n"
  | ObjLine.usemtl s => "usemtl " ++ s ++ "\n"
  | ObjLine.f corners => "f " ++ String.join (corners.map FaceCorner.text) ++ "\n"

/-- The locals `vplus`, `vtplus` of `ExportOBJ` and the lines printed so far. -/
structure ExportState (α : Type) where
  vplus : Nat
  vtplus : Nat
  out : List (ObjLine α)
deriving DecidableEq, Repr

/-- Body of the loop `for (unsigned k = 0; k < 3; ++k)` (FbxParser.cpp 617-623),
`l` being the local of the enclosing loop. -/
def exportCorner {α : Type} (m : TriMesh α) (vplus vtplus l : Nat) (k : Nat)
    (cs : List FaceCorner) : Option (List FaceCorner) :=
  (load m.triIndex ((l + k) % U32)).bind fun tri =>
  (load m.UVIndices ((l + k) % U32)).bind fun uv =>
  let vn := toInt32 ((tri + vplus) % U32)
  let tn := toInt32 ((uv + vtplus) % U32)
  some (cs ++ [{ v := vn, t := tn, n := vn }])

/-- Body of the loop over the triangles (FbxParser.cpp 614-626); the state is the
local `l` and the lines printed so far. -/
def exportFace {α : Type} (m : TriMesh α) (vplus vtplus : Nat) (_i : Nat)
    (s : Nat × List (ObjLine α)) : Option (Nat × List (ObjLine α)) :=
  (forLoop 3 (exportCorner m vplus vtplus s.1) []).bind fun cs =>
  some ((s.1 + 3) % U32, s.2 ++ [ObjLine.f cs])

/-- Body of the loop printing the positions (FbxParser.cpp 596-599). -/
def exportV {α : Type} (m : TriMesh α) (i : Nat) (out : List (ObjLine α)) :
    Option (List (ObjLine α)) :=
  (m.P[i]?).bind fun p => some (out ++ [ObjLine.v p])

/-- Body of the loop printing the texture coordinates (FbxParser.cpp 601-604). -/
def exportVT {α : Type} (m : TriMesh α) (i : Nat) (out : List (ObjLine α)) :
    Option (List (ObjLine α)) :=
  (m.UV[i]?).bind fun t => some (out ++ [ObjLine.vt t])

/-- Body of the loop printing the vertex normals (FbxParser.cpp 606-609). -/
def exportVN {α : Type} (m : TriMesh α) (i : Nat) (out : List (ObjLine α)) :
    Option (List (ObjLine α)) :=
  (m.PN[i]?).bind fun n => some (out ++ [ObjLine.vn n])

/-- Body of the loop over `TriMeshes` (FbxParser.cpp 593-629). -/
def exportMesh {α : Type} (m : TriMesh α) (s : ExportState α) : Option (ExportState α) :=
  (forLoop m.numVert (exportV m) (s.out ++ [ObjLine.g m.name])).bind fun out1 =>
  (forLoop m.numUV (exportVT m) out1).bind fun out2 =>
  (forLoop m.numVert (exportVN m) out2).bind fun out3 =>
  (forLoop m.numTris (exportFace m s.vplus s.vtplus)
    (0, if m.matname ≠ "" then out3 ++ [ObjLine.usemtl m.matname] else out3)).bind fun r =>
  some { vplus := (s.vplus + m.numVert) % U32, vtplus := (s.vtplus + m.numUV) % U32,
         out := r.2 }

/-- The loop over `TriMeshes` (FbxParser.cpp 591-630). -/
def exportMeshes {α : Type} : List (TriMesh α) → ExportState α → Option (ExportState α)
  | [], s => some s
  | m :: rest, s => (exportMesh m s).bind (exportMeshes rest)

/-- Every character of the string is a single byte of the `std::string` that it
stands for (an ASCII character): positions and lengths in characters are then
positions and lengths in bytes. -/
def SingleByte (s : String) : Prop := ∀ c ∈ s.data, c.toNat < 128

instance (s : String) : Decidable (SingleByte s) := by
  unfold SingleByte; infer_instance

/-- The value of `LastSlash + 1` when the loop `while (LastSlash >= 0 &&
shortFilename[LastSlash] != '/') --LastSlash;` stops, started with
`LastSlash + 1 = n` (FbxParser.cpp 577-579). -/
def afterLastSlash (s : List Char) : Nat → Nat
  | 0 => 0
  | n + 1 => if s[n]? = some '/' then n + 1 else afterLastSlash s n

/-- The string `shortFilename` of `ExportOBJ` (FbxParser.cpp 576-582), for a path
shorter than `2^31` characters: the part after the last `/`, without its last 4
characters (whole when it has fewer than 4, `len` being negative then).  The
source removes the last 4 bytes: the embedding is that of the source on paths of
single-byte characters (`SingleByte`), where a character is a byte. -/
def shortFilename (pFilename : String) : String :=
  let s1 := pFilename.data.drop (afterLastSlash pFilename.data pFilename.data.length)
  String.mk (if 4 ≤ s1.length then s1.take (s1.length - 4) else s1)

/-- The lines that `ExportOBJ` prints into the geometry file (FbxParser.cpp
584-630); `none` when an array is read out of bounds or an index that was never
written is read. -/
def objLines {α : Type} (Materials : MaterialMap α) (TriMeshes : List (TriMesh α))
    (pFilename : String) : Option (List (ObjLine α)) :=
  (exportMeshes TriMeshes
    { vplus := 1, vtplus := 1,
      out := if Materials.length > 0 then [ObjLine.header, ObjLine.mtllib (shortFilename pFilename)]
             else [ObjLine.header] }).map ExportState.out

/-- The method `FbxParser::ExportOBJ` (FbxParser.cpp 567-637): its return value and
the files after the call. -/
def ExportOBJ {α : Type} (fmt : Option α → String) (fs : FileSystem) (Materials : MaterialMap α)
    (TriMeshes : List (TriMesh α)) (pFilename : String) : Option (Int × FileSystem) :=
  if TriMeshes.length = 0 then some (E_NO_MESH, fs)
  else if fs.writable pFilename = false then some (E_FAILOPENFILE, fs)
  else
    (objLines Materials TriMeshes pFilename).bind fun lines =>
    (fs.writeFile pFilename (String.join (lines.map (ObjLine.text fmt)))).bind fun fs1 =>
    some (E_NOERROR, (WriteMaterials fmt fs1 Materials (shortFilename pFilename)).2)

/-! ## `FbxParser.cpp`: `ExtractMaterialConnections` -/

/-- The enumeration `FbxGeometryElement::EMappingMode` of the FBX SDK. -/
inductive MappingMode where
  | eNone
  | eByControlPoint
  | eByPolygonVertex
  | eByPolygon
  | eByEdge
  | eAllSame
deriving DecidableEq, Repr

/-- The enumeration `FbxGeometryElement::EReferenceMode` of the FBX SDK. -/
inductive ReferenceMode where
  | eDirect
  | eIndex
  | eIndexToDirect
deriving DecidableEq, Repr

/-- What `ExtractMaterialConnections` reads of an `FbxGeometryElementMaterial`: its
mapping mode and its index array.  `GetIndexArray().GetAt(i)` is `indexArray[i]?`:
an index outside the array makes the embedded function return `none`. -/
structure FbxGeometryElementMaterial where
  mappingMode : MappingMode
  indexArray : List Int
deriving DecidableEq, Repr

/-- The statements `lMaterial = GetNode()->GetMaterial(lMatId); if (lMatId >= 0)
matname = lMaterial->GetName();` for the names `nodeMaterials` of the materials
of the node: `GetMaterial` gives no material for an index outside the list, and
`GetName` on it is undefined. -/
def assignName (nodeMaterials : List String) (lMatId : Int) (matname : String) : Option String :=
  if 0 ≤ lMatId then nodeMaterials[lMatId.toNat]? else some matname

/-- A loop `for (l = 0; l < GetElementMaterialCount(); l++)` over the material
elements of the mesh, `step` being its body. -/
def overElements (step : FbxGeometryElementMaterial → String → Option String) :
    List FbxGeometryElementMaterial → String → Option String
  | [], matname => some matname
  | e :: rest, matname => (step e matname).bind (overElements step rest)

/-- Body of the loop of the `eAllSame` branch (FbxParser.cpp 750-761). -/
def allSameStep (nodeMaterials : List String) (e : FbxGeometryElementMaterial)
    (matname : String) : Option String :=
  if e.mappingMode = MappingMode.eAllSame then
    (e.indexArray[0]?).bind fun lMatId => assignName nodeMaterials lMatId matname
  else some matname

/-- Body of the inner loop of the `eByPolygon` branch for the polygon `i`
(FbxParser.cpp 777-786). -/
def byPolygonStep (nodeMaterials : List String) (i : Nat) (e : FbxGeometryElementMaterial)
    (matname : String) : Option String :=
  (e.indexArray[i]?).bind fun lMatId => assignName nodeMaterials lMatId matname

/-- The method `FbxParser::ExtractMaterialConnections` (FbxParser.cpp 729-790) as a
function of the member `matname` of the triangle mesh of `pMesh`: `lPolygonCount`
polygons, the material elements of the mesh and the names of the materials of its
node. -/
def ExtractMaterialConnections (lPolygonCount : Nat)
    (elements : List FbxGeometryElementMaterial) (nodeMaterials : List String)
    (matname : String) : Option String :=
  if elements.all (fun e => e.mappingMode ≠ MappingMode.eByPolygon) then
    overElements (allSameStep nodeMaterials) elements matname
  else
    forLoop lPolygonCount
      (fun i s => overElements (byPolygonStep nodeMaterials i) elements s) matname

/-! ## `FbxParser.cpp`: `ExtractMesh` -/

/-- The conversion of an `int` to `uint32_t`. -/
def toUInt32 (x : Int) : Nat := (x % (U32 : Int)).toNat

/-- What `ExtractMesh` reads of a UV or normal element of the FBX SDK: its mapping
mode, its reference mode, and the accessors `GetDirectArray().GetAt` and
`GetIndexArray().GetAt`, which belong to the SDK and return a value for every
index. -/
structure FbxLayerElement (β : Type) where
  mappingMode : MappingMode
  referenceMode : ReferenceMode
  directGetAt : Int → β
  indexGetAt : Int → Int

/-- What `ExtractMesh` reads of an `FbxMesh`: the name of its node, its control
points, the control point indices of the corners of its polygons, the accessor
`GetTextureUVIndex`, and its UV and normal elements.  The polygon groups are only
printed and are left out. -/
structure FbxMesh (α : Type) where
  name : String
  controlPoints : List (Vector3d α)
  polygons : List (List Int)
  GetTextureUVIndex : Nat → Nat → Int
  elementUV : List (FbxLayerElement (Vector2d α))
  elementNormal : List (FbxLayerElement (Vector3d α))

/-- The accessor `GetPolygonSize(i)` of the SDK. -/
def FbxMesh.GetPolygonSize {α : Type} (pMesh : FbxMesh α) (i : Nat) : Nat :=
  (pMesh.polygons.getD i []).length

/-- The accessor `GetPolygonVertex(i, j)` of the SDK, which is -1 outside the
polygons. -/
def FbxMesh.GetPolygonVertex {α : Type} (pMesh : FbxMesh α) (i j : Nat) : Int :=
  (pMesh.polygons.getD i []).getD j (-1)

/-- The local `vertexId` and the arrays of the `PolyMesh` that the loops of
`ExtractMesh` write; a slot is `none` until it is written. -/
structure ExtractState (α : Type) where
  vertexId : Nat
  FaceIndices : List (Option Nat)
  VertsIndices : List (Option Nat)
  UVs : List (Option (Vector2d α))
  Normals : List (Option (Vector3d α))
  UVIndices : List (Option Nat)
deriving DecidableEq, Repr

/-- The `PolyMesh` as `ExtractMesh` returns it, with the slots of its arrays. -/
structure ExtractedMesh (α : Type) where
  name : String
  nVertices : Nat
  nFaces : Nat
  Verts : List (Option (Vector3d α))
  FaceIndices : List (Option Nat)
  VertsIndices : List (Option Nat)
  UVs : List (Option (Vector2d α))
  Normals : List (Option (Vector3d α))
  UVIndices : List (Option Nat)
deriving DecidableEq, Repr

/-- The assignments `polyMesh->UVs[vertexId][0] = v[0]; polyMesh->UVs[vertexId][1] = v[1]`. -/
def storeUV {α : Type} (s : ExtractState α) (v : Vector2d α) : Option (ExtractState α) :=
  (store s.UVs s.vertexId (Vector2d.mk v.u v.v)).bind fun a => some { s with UVs := a }

/-- Body of the loop over the UV elements (FbxParser.cpp 452-505), which handles the
first UV element only because of the `break` that ends its body. -/
def extractUV {α : Type} (pMesh : FbxMesh α) (i j : Nat) (lControlPointIndex : Int)
    (s : ExtractState α) : Option (ExtractState α) :=
  match pMesh.elementUV with
  | [] => some s
  | leUV :: _ =>
    match leUV.mappingMode with
    | MappingMode.eByControlPoint =>
      match leUV.referenceMode with
      | ReferenceMode.eDirect => storeUV s (leUV.directGetAt lControlPointIndex)
      | ReferenceMode.eIndexToDirect =>
        storeUV s (leUV.directGetAt (leUV.indexGetAt lControlPointIndex))
      | ReferenceMode.eIndex => some s
    | MappingMode.eByPolygonVertex =>
      (store s.UVIndices s.vertexId (toUInt32 (pMesh.GetTextureUVIndex i j))).bind fun a =>
      match leUV.referenceMode with
      | ReferenceMode.eDirect =>
        storeUV { s with UVIndices := a } (leUV.directGetAt (pMesh.GetTextureUVIndex i j))
      | ReferenceMode.eIndexToDirect =>
        storeUV { s with UVIndices := a } (leUV.directGetAt (pMesh.GetTextureUVIndex i j))
      | ReferenceMode.eIndex => some { s with UVIndices := a }
    | _ => some s

/-- The three assignments to `polyMesh->Normals[vertexId][0]`, `[1]`, `[2]`. -/
def storeNormal {α : Type} (s : ExtractState α) (c0 c1 c2 : α) : Option (ExtractState α) :=
  (store s.Normals s.vertexId (Vector3d.mk c0 c1 c2)).bind fun a => some { s with Normals := a }

/-- Body of the loop over the normal elements (FbxParser.cpp 507-558).  For a
mapping mode other than by polygon vertex and by control point it runs
`assert(false)`, which ends the program: the result is `none`. -/
def extractNormal {α : Type} (lControlPointIndex : Int) (leNormal : FbxLayerElement (Vector3d α))
    (s : ExtractState α) : Option (ExtractState α) :=
  match leNormal.mappingMode with
  | MappingMode.eByPolygonVertex =>
    match leNormal.referenceMode with
    | ReferenceMode.eDirect =>
      storeNormal s (leNormal.directGetAt s.vertexId).x (leNormal.directGetAt s.vertexId).y
        (leNormal.directGetAt s.vertexId).x
    | ReferenceMode.eIndexToDirect =>
      storeNormal s (leNormal.directGetAt (leNormal.indexGetAt s.vertexId)).x
        (leNormal.directGetAt (leNormal.indexGetAt s.vertexId)).y
        (leNormal.directGetAt (leNormal.indexGetAt s.vertexId)).x
    | ReferenceMode.eIndex => some s
  | MappingMode.eByControlPoint =>
    match leNormal.referenceMode with
    | ReferenceMode.eDirect =>
      storeNormal s (leNormal.directGetAt lControlPointIndex).x
        (leNormal.directGetAt lControlPointIndex).y (leNormal.directGetAt lControlPointIndex).z
    | ReferenceMode.eIndexToDirect =>
      storeNormal s (leNormal.directGetAt (leNormal.indexGetAt lControlPointIndex)).x
        (leNormal.directGetAt (leNormal.indexGetAt lControlPointIndex)).y
        (leNormal.directGetAt (leNormal.indexGetAt lControlPointIndex)).z
    | ReferenceMode.eIndex => some s
  | _ => none

/-- The loop `for (l = 0; l < pMesh->GetElementNormalCount(); ++l)`. -/
def extractNormals {α : Type} (lControlPointIndex : Int) :
    List (FbxLayerElement (Vector3d α)) → ExtractState α → Option (ExtractState α)
  | [], s => some s
  | leNormal :: rest, s =>
    (extractNormal lControlPointIndex leNormal s).bind (extractNormals lControlPointIndex rest)

/-- Body of the loop over the corners `j` of polygon `i` (FbxParser.cpp 438-561): a
negative control point index ends the iteration at `continue`, before
`vertexId++`. -/
def extractCorner {α : Type} (pMesh : FbxMesh α) (i j : Nat) (s : ExtractState α) :
    Option (ExtractState α) :=
  if pMesh.GetPolygonVertex i j < 0 then some s
  else
    (store s.VertsIndices s.vertexId (toUInt32 (pMesh.GetPolygonVertex i j))).bind fun a =>
    (extractUV pMesh i j (pMesh.GetPolygonVertex i j) { s with VertsIndices := a }).bind fun s1 =>
    (extractNormals (pMesh.GetPolygonVertex i j) pMesh.elementNormal s1).bind fun s2 =>
    some { s2 with vertexId := s2.vertexId + 1 }

/-- Body of the loop over the polygons `i` (FbxParser.cpp 414-562). -/
def extractPolygon {α : Type} (pMesh : FbxMesh α) (i : Nat) (s : ExtractState α) :
    Option (ExtractState α) :=
  (store s.FaceIndices i (pMesh.GetPolygonSize i)).bind fun a =>
  forLoop (pMesh.GetPolygonSize i) (extractCorner pMesh i) { s with FaceIndices := a }

/-- The local `vertsIndexCount` (FbxParser.cpp 393-398); the corners of an `FbxMesh`
are numbered by an `int`, so the sum does not overflow. -/
def vertsIndexCount {α : Type} (pMesh : FbxMesh α) : Nat :=
  (List.range pMesh.polygons.length).foldl (fun n i => n + pMesh.GetPolygonSize i) 0

/-- The state before the loop over the polygons: the arrays just allocated. -/
def ExtractState.init {α : Type} (pMesh : FbxMesh α) : ExtractState α :=
  { vertexId := 0
    FaceIndices := List.replicate pMesh.polygons.length none
    VertsIndices := List.replicate (vertsIndexCount pMesh) none
    UVs := List.replicate (vertsIndexCount pMesh) none
    Normals := List.replicate (vertsIndexCount pMesh) none
    UVIndices := List.replicate (vertsIndexCount pMesh) none }

/-- The function `FbxParser::ExtractMesh` (FbxParser.cpp 375-565).  The loop that
copies the control points writes every slot of `Verts`. -/
def ExtractMesh {α : Type} (pMesh : FbxMesh α) : Option (ExtractedMesh α) :=
  (forLoop pMesh.polygons.length (extractPolygon pMesh) (ExtractState.init pMesh)).bind fun s =>
  some
    { name := pMesh.name
      nVertices := pMesh.controlPoints.length
      nFaces := pMesh.polygons.length
      Verts := pMesh.controlPoints.map some
      FaceIndices := s.FaceIndices
      VertsIndices := s.VertsIndices
      UVs := s.UVs
      Normals := s.Normals
      UVIndices := s.UVIndices }

/-! ## `FBXConverter.cpp`: `main` -/

/-- What `main` asks of its environment: whether `_findfirst` finds the input file
and whether `FbxParser::LoadScene` loads it. -/
structure Environment where
  findfirst : String → Bool
  LoadScene : String → Bool

/-- The value of `strFile.rfind('.')` searched below position `n`: the position of
the last `.`, `none` for `npos`. -/
def rfindDot (s : List Char) : Nat → Option Nat
  | 0 => none
  | n + 1 => if s[n]? = some '.' then some n else rfindDot s n

/-- The string `exstr` of `main` (FBXConverter.cpp 38-44): the characters after the
last `.` of the file name in lower case, empty when there is no `.`. -/
def extensionOf (strFile : String) : String :=
  match rfindDot strFile.data strFile.data.length with
  | some idx => String.mk ((strFile.data.drop (idx + 1)).map Char.toLower)
  | none => ""

/-- The function `main` (FBXConverter.cpp 11-65) for the arguments `argv` (the name
of the program first): its exit code, and the path that it passes to `ExportOBJ`
when it gets there, `none` when nothing is exported. -/
def main (argv : List String) (env : Environment) : Int × Option String :=
  let strFile := if 2 ≤ argv.length then argv.getD 1 "" else "../data/Teeths.fbx"
  if env.findfirst strFile = false then (-1, none)
  else if extensionOf strFile = "fbx" then
    if env.LoadScene strFile then
      (0, some (String.mk (strFile.data.take (strFile.data.length - 4)) ++ ".obj"))
    else (0, none)
  else (0, none)

/-! ## Closed forms used to state the properties of the triangulation -/

/-- Flat corner offset of face `i`: the sum of the sizes of the faces before it. -/
def faceStart (fs : List Nat) (i : Nat) : Nat := (fs.take i).sum

/-- Number of triangles of the faces before face `i`. -/
def triStart (fs : List Nat) (i : Nat) : Nat := ((fs.take i).map (fun f => f - 2)).sum

/-- Maximum of the first `n` entries of an index array (0 when there is none). -/
def maxUpTo (xs : List Nat) (n : Nat) : Nat := (xs.take n).foldl max 0

/-- Flat corner positions read by the first `t` triangles of the fan of a face
that starts at corner offset `k`, in emission order. -/
def fanCorners (k : Nat) : Nat → List Nat
  | 0 => []
  | t + 1 => fanCorners k t ++ [k, k + t + 1, k + t + 2]

/-- Flat corner positions read by the emission loop over the first `i` faces, in
emission order: faces in input order, triangles ascending within a face, corners
in the order pivot, `j + 1`, `j + 2` within a triangle. -/
def emitted (fs : List Nat) : Nat → List Nat
  | 0 => []
  | i + 1 => emitted fs i ++ fanCorners (faceStart fs i) (fs.getD i 0 - 2)

/-- One per-vertex write `dst[idx[c]] = src[c]`. -/
def scatter {β : Type} (idx : List Nat) (src : List β) (dst : List (Option β)) (c : Nat) :
    List (Option β) :=
  match idx[c]?, src[c]? with
  | some i, some a => dst.set i (some a)
  | _, _ => dst

/-- Content of a per-triangle array of `n` slots once the flat corner positions
`E` have been emitted into it, in this order, from the source array `src`. -/
def filled {β : Type} (src : List β) (n : Nat) (E : List Nat) : List (Option β) :=
  E.map (fun c => src[c]?) ++ List.replicate (n - E.length) none

/-- Content of a per-vertex array of `n` slots once the flat corner positions `E`
have been written to it, in this order. -/
def scattered {β : Type} (idx : List Nat) (src : List β) (n : Nat) (E : List Nat) :
    List (Option β) :=
  E.foldl (scatter idx src) (List.replicate n none)

/-- State of the emission loop once the flat corner positions `E` have been
emitted and the corner offset is `k`, for arrays of `n3`, `nV` and `nU` slots. -/
def emitStateAt {α : Type} (pm : PolyMesh α) (n3 nV nU : Nat) (E : List Nat) (k : Nat) :
    EmitState α :=
  { l := E.length, k := k
    triIndex := filled pm.VertsIndices n3 E
    UVIndices := filled pm.UVIndices n3 E
    N := filled pm.Normals n3 E
    T := filled pm.UVs n3 E
    PN := scattered pm.VertsIndices pm.Normals nV E
    UV := scattered pm.UVIndices pm.UVs nU E }

/-- Closed form of the triangle mesh built from a well-formed polygon mesh. -/
def TriMesh.closedForm {α : Type} (pm : PolyMesh α) : TriMesh α :=
  { name := pm.name, matname := ""
    numVert := maxUpTo pm.VertsIndices pm.VertsIndices.length + 1
    numTris := (pm.FaceIndices.map (fun f => f - 2)).sum
    numUV := maxUpTo pm.UVIndices pm.UVIndices.length + 1
    P := (pm.Verts.take (maxUpTo pm.VertsIndices pm.VertsIndices.length + 1)).map some
    triIndex := filled pm.VertsIndices (3 * (pm.FaceIndices.map (fun f => f - 2)).sum)
      (emitted pm.FaceIndices pm.nFaces)
    N := filled pm.Normals (3 * (pm.FaceIndices.map (fun f => f - 2)).sum)
      (emitted pm.FaceIndices pm.nFaces)
    T := filled pm.UVs (3 * (pm.FaceIndices.map (fun f => f - 2)).sum)
      (emitted pm.FaceIndices pm.nFaces)
    UVIndices := filled pm.UVIndices (3 * (pm.FaceIndices.map (fun f => f - 2)).sum)
      (emitted pm.FaceIndices pm.nFaces)
    PN := scattered pm.VertsIndices pm.Normals
      (maxUpTo pm.VertsIndices pm.VertsIndices.length + 1) (emitted pm.FaceIndices pm.nFaces)
    UV := scattered pm.UVIndices pm.UVs
      (maxUpTo pm.UVIndices pm.UVIndices.length + 1) (emitted pm.FaceIndices pm.nFaces) }

/-- The three slots `p`, `p + 1`, `p + 2` of the output array `dst` hold the
entries `k0`, `k1`, `k2` of the source array `src`, in this order. -/
def TriangleFrom {β : Type} (dst : List (Option β)) (src : List β) (p k0 k1 k2 : Nat) : Prop :=
  ∃ a0 a1 a2, src[k0]? = some a0 ∧ src[k1]? = some a1 ∧ src[k2]? = some a2 ∧
    dst[p]? = some (some a0) ∧ dst[p + 1]? = some (some a1) ∧ dst[p + 2]? = some (some a2)

/-- A polygon mesh record on which the constructor has defined behaviour: the
record invariant (`nFaces` faces, four flat corner arrays of length
`sum(faceSizes)`, `nVertices` positions), faces of at least 3 corners, vertex
indices addressing `Verts`, which is not empty (the constructor always copies
`Verts[0]`), and sizes that fit `uint32_t`. -/
def PolyMesh.WellFormed {α : Type} (pm : PolyMesh α) : Prop :=
  pm.FaceIndices.length = pm.nFaces ∧
  (∀ f ∈ pm.FaceIndices, 3 ≤ f) ∧
  pm.VertsIndices.length = pm.FaceIndices.sum ∧
  pm.UVIndices.length = pm.FaceIndices.sum ∧
  pm.Normals.length = pm.FaceIndices.sum ∧
  pm.UVs.length = pm.FaceIndices.sum ∧
  (0 < pm.nVertices ∧ pm.Verts.length = pm.nVertices) ∧
  (∀ v ∈ pm.VertsIndices, v < pm.nVertices) ∧
  3 * (pm.FaceIndices.map (fun f => f - 2)).sum < U32 ∧
  pm.nVertices < U32 ∧
  (∀ u ∈ pm.UVIndices, u + 1 < U32)

instance {α : Type} (pm : PolyMesh α) : Decidable pm.WellFormed := by
  unfold PolyMesh.WellFormed; infer_instance

/-! ## Closed forms used to state the properties of the export -/

/-- The slot `p` of an index array is written and its value is below `bound`. -/
def slotBelow (a : List (Option Nat)) (p bound : Nat) : Prop :=
  match load a p with
  | some x => x < bound
  | none => False

instance (a : List (Option Nat)) (p bound : Nat) : Decidable (slotBelow a p bound) := by
  unfold slotBelow; split <;> infer_instance

/-- A triangle mesh that `ExportOBJ` can print with defined behaviour: the arrays
have the slots that the counts announce, `3 * numTris` fits `uint32_t`, and the
entries of `triIndex` and `UVIndices` are written, local indices in range. -/
def TriMesh.Exportable {α : Type} (m : TriMesh α) : Prop :=
  m.numVert ≤ m.P.length ∧ m.numVert ≤ m.PN.length ∧ m.numUV ≤ m.UV.length ∧
  3 * m.numTris < U32 ∧
  (∀ p, p < 3 * m.numTris → slotBelow m.triIndex p m.numVert) ∧
  (∀ p, p < 3 * m.numTris → slotBelow m.UVIndices p m.numUV)

instance {α : Type} (m : TriMesh α) : Decidable m.Exportable := by
  unfold TriMesh.Exportable; infer_instance

/-- Offset of the position and normal indices of mesh `i`: 1 plus the sum of
`numVert` of the meshes before it. -/
def vertexBase {α : Type} (ms : List (TriMesh α)) (i : Nat) : Nat :=
  1 + ((ms.take i).map TriMesh.numVert).sum

/-- Offset of the texture-coordinate indices of mesh `i`: 1 plus the sum of
`numUV` of the meshes before it. -/
def uvBase {α : Type} (ms : List (TriMesh α)) (i : Nat) : Nat :=
  1 + ((ms.take i).map TriMesh.numUV).sum

/-- Value of the slot `p` of an index array (0 for a slot that is missing or not
written). -/
def slotVal (a : List (Option Nat)) (p : Nat) : Nat := (load a p).getD 0

/-- The corner `c` of triangle `t` of a mesh, renumbered with the offsets `vb` and
`ub`: `v/t/n` with `v = n = triIndex[3t+c] + vb` and `t = UVIndices[3t+c] + ub`. -/
def cornerRecord {α : Type} (m : TriMesh α) (vb ub t c : Nat) : FaceCorner :=
  { v := ((slotVal m.triIndex (3 * t + c) + vb : Nat) : Int),
    t := ((slotVal m.UVIndices (3 * t + c) + ub : Nat) : Int),
    n := ((slotVal m.triIndex (3 * t + c) + vb : Nat) : Int) }

/-- The face line of triangle `t` of a mesh for the offsets `vb` and `ub`. -/
def faceRecord {α : Type} (m : TriMesh α) (vb ub t : Nat) : ObjLine α :=
  ObjLine.f [cornerRecord m vb ub t 0, cornerRecord m vb ub t 1, cornerRecord m vb ub t 2]

/-- The lines of the group of one mesh for the offsets `vb` and `ub`. -/
def groupLines {α : Type} (m : TriMesh α) (vb ub : Nat) : List (ObjLine α) :=
  [ObjLine.g m.name] ++
  (List.range m.numVert).map (fun i => ObjLine.v (m.P[i]?).join) ++
  (List.range m.numUV).map (fun i => ObjLine.vt (m.UV[i]?).join) ++
  (List.range m.numVert).map (fun i => ObjLine.vn (m.PN[i]?).join) ++
  (if m.matname ≠ "" then [ObjLine.usemtl m.matname] else []) ++
  (List.range m.numTris).map (faceRecord m vb ub)

/-- The lines of the groups of the meshes number `i`, `i + 1`, ... of `ms`, `rest`
being these meshes. -/
def groupsFrom {α : Type} (ms : List (TriMesh α)) : List (TriMesh α) → Nat → List (ObjLine α)
  | [], _ => []
  | m :: rest, i => groupLines m (vertexBase ms i) (uvBase ms i) ++ groupsFrom ms rest (i + 1)

/-- The lines before the first group. -/
def headLines {α : Type} (Materials : MaterialMap α) (pFilename : String) : List (ObjLine α) :=
  if Materials.length > 0 then [ObjLine.header, ObjLine.mtllib (shortFilename pFilename)]
  else [ObjLine.header]

/-- The position printed by a `v` line. -/
def ObjLine.position? {α : Type} : ObjLine α → Option (Option (Vector3d α))
  | ObjLine.v p => some p
  | _ => none

/-- The normal printed by a `vn` line. -/
def ObjLine.normal? {α : Type} : ObjLine α → Option (Option (Vector3d α))
  | ObjLine.vn n => some n
  | _ => none

/-- The texture coordinate printed by a `vt` line. -/
def ObjLine.texcoord? {α : Type} : ObjLine α → Option (Option (Vector2d α))
  | ObjLine.vt t => some t
  | _ => none

/-! ## Example records -/

/-- One quadrilateral `0 1 2 3` with a different normal on each corner. -/
def quadMesh : PolyMesh Int :=
  { name := "quad", nVertices := 4, nFaces := 1, FaceIndices := [4],
    VertsIndices := [0, 1, 2, 3],
    Verts := [⟨0, 0, 0⟩, ⟨1, 0, 0⟩, ⟨1, 1, 0⟩, ⟨0, 1, 0⟩],
    Normals := [⟨0, 0, 1⟩, ⟨0, 0, 2⟩, ⟨0, 0, 3⟩, ⟨0, 0, 4⟩],
    UVs := [⟨0, 0⟩, ⟨1, 0⟩, ⟨1, 1⟩, ⟨0, 1⟩],
    UVIndices := [0, 1, 2, 3] }

/-- One corner of a face as the importer delivers it: vertex index, normal,
texture coordinate and texture-coordinate slot. -/
structure Corner (α : Type) where
  vertex : Nat
  normal : Vector3d α
  uv : Vector2d α
  uvIndex : Nat
deriving DecidableEq, Repr

/-- The polygon mesh record of a list of faces, each face a list of corners: the
flat corner arrays list the corners face after face. -/
def PolyMesh.ofFaces {α : Type} (name : String) (verts : List (Vector3d α))
    (faces : List (List (Corner α))) : PolyMesh α :=
  { name := name, nVertices := verts.length, nFaces := faces.length,
    FaceIndices := faces.map List.length,
    VertsIndices := faces.flatten.map Corner.vertex,
    Verts := verts,
    Normals := faces.flatten.map Corner.normal,
    UVs := faces.flatten.map Corner.uv,
    UVIndices := faces.flatten.map Corner.uvIndex }

/-- Three positions shared by the example faces. -/
def triVerts : List (Vector3d Int) := [⟨0, 0, 0⟩, ⟨1, 0, 0⟩, ⟨0, 1, 0⟩]

/-- A triangle `0 1 2` whose corners all carry the normal `(0, 0, 1)`. -/
def faceUp : List (Corner Int) :=
  [⟨0, ⟨0, 0, 1⟩, ⟨0, 0⟩, 0⟩, ⟨1, ⟨0, 0, 1⟩, ⟨1, 0⟩, 1⟩, ⟨2, ⟨0, 0, 1⟩, ⟨0, 1⟩, 2⟩]

/-- The same triangle `0 1 2` whose corners all carry the normal `(1, 0, 0)`. -/
def faceSide : List (Corner Int) :=
  [⟨0, ⟨1, 0, 0⟩, ⟨0, 0⟩, 0⟩, ⟨1, ⟨1, 0, 0⟩, ⟨1, 0⟩, 1⟩, ⟨2, ⟨1, 0, 0⟩, ⟨0, 1⟩, 2⟩]

/-- One triangle over the vertices 0, 5 and 9 of a mesh of ten positions: the
vertices 1-4 and 6-8 are referenced by no corner. -/
def sparseMesh : PolyMesh Int :=
  PolyMesh.ofFaces "sparse" ((List.range 10).map fun i => ⟨i, 0, 0⟩)
    [[⟨0, ⟨0, 0, 1⟩, ⟨0, 0⟩, 0⟩, ⟨5, ⟨0, 0, 1⟩, ⟨1, 0⟩, 1⟩, ⟨9, ⟨0, 0, 1⟩, ⟨0, 1⟩, 2⟩]]

/-- The single triangle `0 1 2` with positions `(0,0,0)`, `(1,0,0)`, `(0,1,0)`, one
texture-coordinate slot per corner and the normal `(0,0,1)` on every corner. -/
def unitTriangle : PolyMesh Int :=
  { name := "tri", nVertices := 3, nFaces := 1, FaceIndices := [3],
    VertsIndices := [0, 1, 2],
    Verts := [⟨0, 0, 0⟩, ⟨1, 0, 0⟩, ⟨0, 1, 0⟩],
    Normals := [⟨0, 0, 1⟩, ⟨0, 0, 1⟩, ⟨0, 0, 1⟩],
    UVs := [⟨0, 0⟩, ⟨1, 0⟩, ⟨0, 1⟩],
    UVIndices := [0, 1, 2] }

/-- The triangle mesh that the constructor builds from `unitTriangle`. -/
def unitTriMesh : TriMesh Int :=
  { name := "tri", matname := "", numVert := 3, numTris := 1, numUV := 3,
    P := [some ⟨0, 0, 0⟩, some ⟨1, 0, 0⟩, some ⟨0, 1, 0⟩],
    triIndex := [some 0, some 1, some 2],
    N := [some ⟨0, 0, 1⟩, some ⟨0, 0, 1⟩, some ⟨0, 0, 1⟩],
    T := [some ⟨0, 0⟩, some ⟨1, 0⟩, some ⟨0, 1⟩],
    UVIndices := [some 0, some 1, some 2],
    PN := [some ⟨0, 0, 1⟩, some ⟨0, 0, 1⟩, some ⟨0, 0, 1⟩],
    UV := [some ⟨0, 0⟩, some ⟨1, 0⟩, some ⟨0, 1⟩] }

/-- The triangle mesh that the constructor builds from `quadMesh`: 4 positions, 4
texture coordinates, 2 triangles. -/
def quadTriMesh : TriMesh Int :=
  { name := "quad", matname := "", numVert := 4, numTris := 2, numUV := 4,
    P := [some ⟨0, 0, 0⟩, some ⟨1, 0, 0⟩, some ⟨1, 1, 0⟩, some ⟨0, 1, 0⟩],
    triIndex := [some 0, some 1, some 2, some 0, some 2, some 3],
    N := [some ⟨0, 0, 1⟩, some ⟨0, 0, 2⟩, some ⟨0, 0, 3⟩, some ⟨0, 0, 1⟩, some ⟨0, 0, 3⟩,
      some ⟨0, 0, 4⟩],
    T := [some ⟨0, 0⟩, some ⟨1, 0⟩, some ⟨1, 1⟩, some ⟨0, 0⟩, some ⟨1, 1⟩, some ⟨0, 1⟩],
    UVIndices := [some 0, some 1, some 2, some 0, some 2, some 3],
    PN := [some ⟨0, 0, 1⟩, some ⟨0, 0, 2⟩, some ⟨0, 0, 3⟩, some ⟨0, 0, 4⟩],
    UV := [some ⟨0, 0⟩, some ⟨1, 0⟩, some ⟨1, 1⟩, some ⟨0, 1⟩] }

/-- The `%f` conversion on the doubles with an integer value. -/
def fmtWhole (x : Option Int) : String :=
  match x with
  | some n => toString n ++ ".000000"
  | none => "?"

/-- A file system on which every path can be opened for writing, without files. -/
def emptyFS : FileSystem :=
  { writable := fun _ => true, content := fun _ => none, opened := [] }

/-- The text that `ExportOBJ` prints for `unitTriMesh` without materials, the
doubles printed by `fmtWhole`; every face corner, the last one too, is followed by a
space. -/
def unitTriangleText : String :=
  "###################\n#\n# Wavefront OBJ File\n# Created with Dolphin FBX\n#\n###################\n\n" ++
  "g tri\n" ++
  "v 0.000000 0.000000 0.000000\nv 1.000000 0.000000 0.000000\nv 0.000000 1.000000 0.000000\n" ++
  "vt 0.000000 0.000000\nvt 1.000000 0.000000\nvt 0.000000 1.000000\n" ++
  "vn 0.000000 0.000000 1.000000\nvn 0.000000 0.000000 1.000000\nvn 0.000000 0.000000 1.000000\n" ++
  "f 1/1/1 2/2/2 3/3/3 \n"

/-- The lines of a text (the pieces between the newlines) that start with `pre`. -/
def linesStartingWith (text pre : String) : List (List Char) :=
  (List.splitOn '\n' text.data).filter fun l => l.take pre.length = pre.data

/-- Scalar operations on the doubles with an integer value. -/
def wholeOps : ScalarOps Int :=
  { zero := 0, one := 1, oneMinus := fun x => 1 - x, toFloat := fun x => x }

/-- A stored material named `m`. -/
def someMaterial : Material Int :=
  { index := 0, materialName := "m", Ka := ⟨0, 0, 0⟩, Kd := ⟨1, 1, 1⟩, Ks := ⟨1, 1, 1⟩,
    d := none, Tr := 1, illum := 2, Ns := 0, map_Kd := "" }

/-- A file system on which every path but `a.mtl` can be opened for writing. -/
def noMtlFS : FileSystem :=
  { writable := fun p => p ≠ "a.mtl", content := fun _ => none, opened := [] }

/-- A Phong material named `A` with the diffuse colour `(1, 0, 0)`. -/
def redPhong : FbxSurfaceMaterial Int :=
  { name := "A", classId := ShadingClass.phong, Ambient := ⟨0, 0, 0⟩, Diffuse := ⟨1, 0, 0⟩,
    Specular := ⟨0, 0, 0⟩, Emissive := ⟨0, 0, 0⟩, TransparencyFactor := 0, Shininess := 0,
    ReflectionFactor := 0 }

/-- A Phong material named `A` with the diffuse colour `(0, 0, 1)`. -/
def bluePhong : FbxSurfaceMaterial Int :=
  { redPhong with Diffuse := ⟨0, 0, 1⟩ }

/-- A material named `A` of a shading model that is neither Phong nor Lambert. -/
def unsupportedA : FbxSurfaceMaterial Int :=
  { redPhong with classId := ShadingClass.other, Diffuse := ⟨0, 1, 0⟩ }

/-- The first material of the sequence, with its position, that has the name
`name` and a supported shading model (Phong or Lambert). -/
def firstSupported {α : Type} (nodeMaterials : List (FbxSurfaceMaterial α)) (name : String) :
    Option (Nat × FbxSurfaceMaterial α) :=
  nodeMaterials.enum.find? fun p => p.2.name = name ∧ p.2.classId ≠ ShadingClass.other

/-- The first material of the sequence, with its position, that has the name
`name`, whatever its shading model. -/
def firstNamed {α : Type} (nodeMaterials : List (FbxSurfaceMaterial α)) (name : String) :
    Option (Nat × FbxSurfaceMaterial α) :=
  nodeMaterials.enum.find? fun p => p.2.name = name

/-- The `uint32_t` value of `faceIndices[i] - 2` for a face of `f` corners. -/
def sub2Wrapped (f : Nat) : Nat := (f + U32 - 2) % U32

/-- The value of `numTris` after the counting loop has gone over the first `i`
faces: the sum of the `faceIndices[i] - 2`, each of them and the sum taken
modulo `2^32`. -/
def countedTris (fs : List Nat) (i : Nat) : Nat := ((fs.take i).map sub2Wrapped).sum % U32

/-- A face of 2 corners followed by the triangle `0 1 2`. -/
def segmentThenTriangle : PolyMesh Int :=
  { name := "deg", nVertices := 3, nFaces := 2, FaceIndices := [2, 3],
    VertsIndices := [0, 1, 0, 1, 2],
    Verts := [⟨0, 0, 0⟩, ⟨1, 0, 0⟩, ⟨0, 1, 0⟩],
    Normals := [⟨1, 0, 0⟩, ⟨1, 0, 0⟩, ⟨0, 0, 1⟩, ⟨0, 0, 1⟩, ⟨0, 0, 1⟩],
    UVs := [⟨0, 0⟩, ⟨1, 0⟩, ⟨0, 0⟩, ⟨1, 0⟩, ⟨0, 1⟩],
    UVIndices := [0, 1, 0, 1, 2] }

/-- A face of 1 corner followed by the triangle `0 1 2`. -/
def pointThenTriangle : PolyMesh Int :=
  { name := "deg", nVertices := 3, nFaces := 2, FaceIndices := [1, 3],
    VertsIndices := [0, 0, 1, 2],
    Verts := [⟨0, 0, 0⟩, ⟨1, 0, 0⟩, ⟨0, 1, 0⟩],
    Normals := [⟨1, 0, 0⟩, ⟨0, 0, 1⟩, ⟨0, 0, 1⟩, ⟨0, 0, 1⟩],
    UVs := [⟨0, 0⟩, ⟨0, 0⟩, ⟨1, 0⟩, ⟨0, 1⟩],
    UVIndices := [0, 0, 1, 2] }

/-- The records of `WellFormed`, and those that differ from them only by faces of
2 corners: every face has at least 2 corners, and the flat corner arrays have
fewer than `2^32` entries. -/
def PolyMesh.SegmentsAllowed {α : Type} (pm : PolyMesh α) : Prop :=
  pm.FaceIndices.length = pm.nFaces ∧
  (∀ f ∈ pm.FaceIndices, 2 ≤ f) ∧
  pm.VertsIndices.length = pm.FaceIndices.sum ∧
  pm.UVIndices.length = pm.FaceIndices.sum ∧
  pm.Normals.length = pm.FaceIndices.sum ∧
  pm.UVs.length = pm.FaceIndices.sum ∧
  (0 < pm.nVertices ∧ pm.Verts.length = pm.nVertices) ∧
  (∀ v ∈ pm.VertsIndices, v < pm.nVertices) ∧
  3 * (pm.FaceIndices.map (fun f => f - 2)).sum < U32 ∧
  pm.FaceIndices.sum < U32 ∧
  pm.nVertices < U32 ∧
  (∀ u ∈ pm.UVIndices, u + 1 < U32)

instance {α : Type} (pm : PolyMesh α) : Decidable pm.SegmentsAllowed := by
  unfold PolyMesh.SegmentsAllowed; infer_instance

/-- The preconditions that the polygon mesh record of the specification states:
the four flat corner arrays have `sum(faceSizes)` entries, every face has at least
3 corners and every corner vertex index is below `nVertices`. -/
def PolyMesh.RecordInvariant {α : Type} (pm : PolyMesh α) : Prop :=
  pm.FaceIndices.length = pm.nFaces ∧ pm.Verts.length = pm.nVertices ∧
  pm.VertsIndices.length = pm.FaceIndices.sum ∧ pm.UVIndices.length = pm.FaceIndices.sum ∧
  pm.Normals.length = pm.FaceIndices.sum ∧ pm.UVs.length = pm.FaceIndices.sum ∧
  (∀ f ∈ pm.FaceIndices, 3 ≤ f) ∧ (∀ v ∈ pm.VertsIndices, v < pm.nVertices)

instance {α : Type} (pm : PolyMesh α) : Decidable pm.RecordInvariant := by
  unfold PolyMesh.RecordInvariant; infer_instance

/-- The record without faces and without vertices. -/
def emptyMesh : PolyMesh Int :=
  { name := "", nVertices := 0, nFaces := 0, FaceIndices := [], VertsIndices := [],
    Verts := [], Normals := [], UVs := [], UVIndices := [] }

/-- The triangle `unitTriangle` whose last corner has the texture-coordinate slot
`2^32 - 1`, the `uint32_t` value of the `int` -1. -/
def noUVTriangle : PolyMesh Int :=
  { unitTriangle with UVIndices := [0, 1, 4294967295] }

/-- A path without its directory: everything up to and including the last `/` is
removed. -/
def stripDirectory (s : List Char) : List Char :=
  (s.reverse.takeWhile fun c => c ≠ '/').reverse

/-- The base name `B` of a geometry path as the specification describes it: the
directory is stripped, then the last 4 characters (nothing when fewer than 4 are
left). -/
def baseNameSpec (pFilename : String) : String :=
  String.mk (if 4 ≤ (stripDirectory pFilename.data).length
    then (stripDirectory pFilename.data).take ((stripDirectory pFilename.data).length - 4)
    else stripDirectory pFilename.data)

/-- The geometry path with its last 4 characters replaced by `.mtl`. -/
def extensionReplaced (pFilename : String) : String :=
  String.mk (pFilename.data.take (pFilename.data.length - 4)) ++ ".mtl"

/-- A material table with the single material `someMaterial`. -/
def materialTable : MaterialMap Int := [("m", someMaterial)]

/-- The text that `WriteMaterials` prints into the material file (FbxParser.cpp
42-59). -/
def materialFileText {α : Type} (fmt : Option α → String) (materials : MaterialMap α) : String :=
  "#\n# Wavefront material file\n# Created with Dolphin FBX \n#\n\n" ++
    String.join (materials.map fun e => materialText fmt e.2)

/-- The material indices that the `eByPolygon` branch reads for the first `n`
polygons, in the order of the loops: polygons ascending, elements in their order
for each polygon. -/
def assignedIds (elements : List FbxGeometryElementMaterial) : Nat → List Int
  | 0 => []
  | n + 1 => assignedIds elements n ++ elements.filterMap fun e => e.indexArray[n]?

/-- The name left by a list of material indices read in this order: the name of the
material of the last non-negative index, the former name when there is none. -/
def lastAssigned (nodeMaterials : List String) (matname : String) (ids : List Int) : String :=
  match (ids.filter fun id => 0 ≤ id).getLast? with
  | some id => nodeMaterials.getD id.toNat ""
  | none => matname

/-- The name after one material index has been read: `matname` for a negative
index, the name of the material otherwise. -/
def nameStep (nodeMaterials : List String) (matname : String) (id : Int) : String :=
  if 0 ≤ id then nodeMaterials.getD id.toNat "" else matname

/-- One material element mapped by polygon: face 0 has the material 0, face 1 has
no material. -/
def lastFaceUnassigned : FbxGeometryElementMaterial :=
  { mappingMode := MappingMode.eByPolygon, indexArray := [0, -1] }

/-- One material element mapped by polygon: face 0 has the material 0, face 1 has
the material 1. -/
def twoFaceMaterials : FbxGeometryElementMaterial :=
  { mappingMode := MappingMode.eByPolygon, indexArray := [0, 1] }

/-- An environment in which the input file exists and the scene cannot be loaded. -/
def unreadableEnv : Environment :=
  { findfirst := fun _ => true, LoadScene := fun _ => false }

/-- An environment in which the input file exists and the scene loads. -/
def readableEnv : Environment :=
  { findfirst := fun _ => true, LoadScene := fun _ => true }

/-- An environment in which no input file exists. -/
def missingEnv : Environment :=
  { findfirst := fun _ => false, LoadScene := fun _ => false }

/-! ## Closed forms used to state the properties of the mesh extraction -/

/-- An array of `total` slots of which the first ones hold `xs` and the others have
not been written. -/
def slots {β : Type} (total : Nat) (xs : List (Option β)) : List (Option β) :=
  xs ++ List.replicate (total - xs.length) none

/-- The total of the declared polygon sizes of a mesh. -/
def cornerCount {α : Type} (pMesh : FbxMesh α) : Nat :=
  (pMesh.polygons.map List.length).sum

/-- The corners `(i, j)` with a control point index that is not negative among the
first `j` corners of polygon `i`, in order. -/
def keptIn {α : Type} (pMesh : FbxMesh α) (i j : Nat) : List (Nat × Nat) :=
  ((List.range j).filter fun c => decide (0 ≤ pMesh.GetPolygonVertex i c)).map fun c => (i, c)

/-- The corners with a control point index that is not negative of the first `i`
polygons, in order. -/
def keptBefore {α : Type} (pMesh : FbxMesh α) (i : Nat) : List (Nat × Nat) :=
  (List.range i).flatMap fun f => keptIn pMesh f (pMesh.GetPolygonSize f)

/-- The corners of the mesh with a control point index that is not negative. -/
def keptCorners {α : Type} (pMesh : FbxMesh α) : List (Nat × Nat) :=
  keptBefore pMesh pMesh.polygons.length

/-- The UV that the first UV element gives to the corner `c`, if it gives one. -/
def uvOf {α : Type} (pMesh : FbxMesh α) (c : Nat × Nat) : Option (Vector2d α) :=
  match pMesh.elementUV with
  | [] => none
  | leUV :: _ =>
    match leUV.mappingMode, leUV.referenceMode with
    | MappingMode.eByControlPoint, ReferenceMode.eDirect =>
      some (leUV.directGetAt (pMesh.GetPolygonVertex c.1 c.2))
    | MappingMode.eByControlPoint, ReferenceMode.eIndexToDirect =>
      some (leUV.directGetAt (leUV.indexGetAt (pMesh.GetPolygonVertex c.1 c.2)))
    | MappingMode.eByPolygonVertex, ReferenceMode.eDirect =>
      some (leUV.directGetAt (pMesh.GetTextureUVIndex c.1 c.2))
    | MappingMode.eByPolygonVertex, ReferenceMode.eIndexToDirect =>
      some (leUV.directGetAt (pMesh.GetTextureUVIndex c.1 c.2))
    | _, _ => none

/-- The UV index that the first UV element gives to the corner `c`, if it gives
one. -/
def uvIndexOf {α : Type} (pMesh : FbxMesh α) (c : Nat × Nat) : Option Nat :=
  match pMesh.elementUV with
  | [] => none
  | leUV :: _ =>
    if leUV.mappingMode = MappingMode.eByPolygonVertex then
      some (toUInt32 (pMesh.GetTextureUVIndex c.1 c.2))
    else none

/-- The source normal that a normal element selects for a corner with control
point index `index` stored at position `vertexId`, if it selects one. -/
def selectedNormal {α : Type} (index : Int) (vertexId : Nat) (e : FbxLayerElement (Vector3d α)) :
    Option (Vector3d α) :=
  match e.mappingMode, e.referenceMode with
  | MappingMode.eByPolygonVertex, ReferenceMode.eDirect => some (e.directGetAt vertexId)
  | MappingMode.eByPolygonVertex, ReferenceMode.eIndexToDirect =>
    some (e.directGetAt (e.indexGetAt vertexId))
  | MappingMode.eByControlPoint, ReferenceMode.eDirect => some (e.directGetAt index)
  | MappingMode.eByControlPoint, ReferenceMode.eIndexToDirect =>
    some (e.directGetAt (e.indexGetAt index))
  | _, _ => none

/-- The normal that a normal element stores for a corner: of the selected source
normal `n` it stores `(n.x, n.y, n.x)` when it is mapped by polygon vertex and `n`
itself when it is mapped by control point. -/
def normalWritten {α : Type} (index : Int) (vertexId : Nat) (e : FbxLayerElement (Vector3d α)) :
    Option (Vector3d α) :=
  (selectedNormal index vertexId e).map fun n =>
    if e.mappingMode = MappingMode.eByPolygonVertex then Vector3d.mk n.x n.y n.x else n

/-- The normal stored for a corner after all normal elements: that of the last
element that stores one. -/
def normalOf {α : Type} (els : List (FbxLayerElement (Vector3d α))) (index : Int)
    (vertexId : Nat) (before : Option (Vector3d α)) : Option (Vector3d α) :=
  els.foldl (fun acc e => (normalWritten index vertexId e).orElse fun _ => acc) before

/-- The normals stored for the corners `cs`, the first of which is stored at
position `start`. -/
def normalsOf {α : Type} (pMesh : FbxMesh α) (start : Nat) (cs : List (Nat × Nat)) :
    List (Option (Vector3d α)) :=
  (cs.enumFrom start).map fun pc =>
    normalOf pMesh.elementNormal (pMesh.GetPolygonVertex pc.2.1 pc.2.2) pc.1 none

/-- The state of the loops of `ExtractMesh` when `f` polygon sizes and the corners
`cs` have been stored. -/
def extractedAt {α : Type} (pMesh : FbxMesh α) (f : Nat) (cs : List (Nat × Nat)) :
    ExtractState α :=
  { vertexId := cs.length
    FaceIndices := slots pMesh.polygons.length
      ((List.range f).map fun i => some (pMesh.GetPolygonSize i))
    VertsIndices := slots (cornerCount pMesh)
      (cs.map fun c => some (toUInt32 (pMesh.GetPolygonVertex c.1 c.2)))
    UVs := slots (cornerCount pMesh) (cs.map (uvOf pMesh))
    Normals := slots (cornerCount pMesh) (normalsOf pMesh 0 cs)
    UVIndices := slots (cornerCount pMesh) (cs.map (uvIndexOf pMesh)) }

/-- Every normal element of the mesh is mapped by polygon vertex or by control
point, the two mapping modes that `ExtractMesh` supports. -/
def FbxMesh.NormalsSupported {α : Type} (pMesh : FbxMesh α) : Prop :=
  ∀ e ∈ pMesh.elementNormal,
    e.mappingMode = MappingMode.eByPolygonVertex ∨ e.mappingMode = MappingMode.eByControlPoint

instance {α : Type} (pMesh : FbxMesh α) : Decidable pMesh.NormalsSupported := by
  unfold FbxMesh.NormalsSupported
  exact inferInstance

/-- Three control points. -/
def threePoints : List (Vector3d Int) :=
  [Vector3d.mk 0 0 0, Vector3d.mk 1 0 0, Vector3d.mk 0 1 0]

/-- A mesh of three control points without UV and normal elements whose only
polygon has a corner with control point index 7. -/
def outOfRangeMesh : FbxMesh Int :=
  { name := "triangle"
    controlPoints := threePoints
    polygons := [[0, 7, 2]]
    GetTextureUVIndex := fun _ _ => -1
    elementUV := []
    elementNormal := [] }

/-- A UV element mapped by polygon vertex whose direct array holds `(k, k)` at
index `k`. -/
def diagonalUV : FbxLayerElement (Vector2d Int) :=
  { mappingMode := MappingMode.eByPolygonVertex
    referenceMode := ReferenceMode.eIndexToDirect
    directGetAt := fun k => Vector2d.mk k k
    indexGetAt := fun k => k }

/-- A normal element mapped by control point whose direct array holds `(k, 0, 1)`
at index `k`. -/
def pointNormals : FbxLayerElement (Vector3d Int) :=
  { mappingMode := MappingMode.eByControlPoint
    referenceMode := ReferenceMode.eDirect
    directGetAt := fun k => Vector3d.mk k 0 1
    indexGetAt := fun k => k }

/-- A mesh of two triangles, the first of which has a corner with control point
index -1; the texture UV index of corner `j` of polygon `i` is `3 * i + j`. -/
def negativeIndexMesh : FbxMesh Int :=
  { name := "two triangles"
    controlPoints := threePoints
    polygons := [[0, -1, 2], [2, 1, 0]]
    GetTextureUVIndex := fun i j => 3 * i + j
    elementUV := [diagonalUV]
    elementNormal := [pointNormals] }

/-- A normal element with the given mapping mode whose direct array holds the
normal `(0, 0, 1)` at every index. -/
def upNormals (mode : MappingMode) : FbxLayerElement (Vector3d Int) :=
  { mappingMode := mode
    referenceMode := ReferenceMode.eDirect
    directGetAt := fun _ => Vector3d.mk 0 0 1
    indexGetAt := fun k => k }

/-- A triangle with the normal element `upNormals mode`. -/
def upTriangle (mode : MappingMode) : FbxMesh Int :=
  { name := "triangle"
    controlPoints := threePoints
    polygons := [[0, 1, 2]]
    GetTextureUVIndex := fun _ _ => -1
    elementUV := []
    elementNormal := [upNormals mode] }

/-! ## Theorems -/

theorem forLoop_succ {σ : Type} (n : Nat) (body : Nat → σ → Option σ) (s : σ) :
    forLoop (n + 1) body s = (forLoop n body s).bind (body n) := rfl

theorem faceStart_succ (fs : List Nat) (i : Nat) (h : i < fs.length) :
    faceStart fs (i + 1) = faceStart fs i + fs[i] := by
  unfold faceStart
  rw [List.take_succ]
  simp [h]

theorem triStart_succ (fs : List Nat) (i : Nat) (h : i < fs.length) :
    triStart fs (i + 1) = triStart fs i + (fs[i] - 2) := by
  unfold triStart
  rw [List.take_succ]
  simp [h]

theorem sum_take_add_drop (l : List Nat) (i : Nat) :
    (l.take i).sum + (l.drop i).sum = l.sum := by
  rw [← List.sum_append, List.take_append_drop]

theorem faceStart_le (fs : List Nat) (i : Nat) : faceStart fs i ≤ fs.sum := by
  unfold faceStart
  have h := sum_take_add_drop fs i
  omega

theorem faceStart_length (fs : List Nat) : faceStart fs fs.length = fs.sum := by
  simp [faceStart]

theorem triStart_length (fs : List Nat) :
    triStart fs fs.length = (fs.map (fun f => f - 2)).sum := by
  simp [triStart]

theorem maxUpTo_succ (xs : List Nat) (n : Nat) (h : n < xs.length) :
    maxUpTo xs (n + 1) = max (maxUpTo xs n) xs[n] := by
  unfold maxUpTo
  rw [List.take_succ, List.foldl_append]
  simp [h]

theorem exists_getElem? {β : Type} (xs : List β) (i : Nat) (h : i < xs.length) :
    ∃ a, xs[i]? = some a ∧ a ∈ xs :=
  ⟨xs[i], List.getElem?_eq_getElem h, List.getElem_mem h⟩

/-! ### The counting loop -/

theorem mod_U32_of_lt {n : Nat} (h : n < U32) : n % U32 = n := Nat.mod_eq_of_lt h

theorem countCorner_loop {α : Type} (pm : PolyMesh α) (s : CountState) (j : Nat)
    (hk : s.k + j ≤ pm.VertsIndices.length)
    (hlen : pm.UVIndices.length = pm.VertsIndices.length)
    (hS : pm.VertsIndices.length ≤ U32)
    (hv : s.maxVertIndex = maxUpTo pm.VertsIndices s.k)
    (hu : s.maxUVIndex = maxUpTo pm.UVIndices s.k) :
    forLoop j (countCorner pm) s =
      some { s with maxVertIndex := maxUpTo pm.VertsIndices (s.k + j)
                    maxUVIndex := maxUpTo pm.UVIndices (s.k + j) } := by
  induction j with
  | zero =>
    cases s
    simp_all [forLoop]
  | succ j ih =>
    have h1 : s.k + j < pm.VertsIndices.length := by omega
    have h2 : s.k + j < pm.UVIndices.length := by omega
    have h3 : (s.k + j) % U32 = s.k + j := mod_U32_of_lt (by omega)
    rw [forLoop_succ, ih (by omega)]
    simp only [Option.bind, countCorner, h3, bind, List.getElem?_eq_getElem h1,
      List.getElem?_eq_getElem h2]
    rw [← Nat.add_assoc, maxUpTo_succ _ _ h1, maxUpTo_succ _ _ h2]
    congr 2
    · split <;> omega
    · split <;> omega

theorem triStart_le (fs : List Nat) (i : Nat) :
    triStart fs i ≤ (fs.map (fun f => f - 2)).sum := by
  unfold triStart
  have h := sum_take_add_drop (fs.map (fun f => f - 2)) i
  rw [← List.map_take] at h
  omega

theorem sum_le_three_mul (fs : List Nat) (h : ∀ f ∈ fs, 3 ≤ f) :
    fs.sum ≤ 3 * (fs.map (fun f => f - 2)).sum := by
  induction fs with
  | nil => simp
  | cons a t ih =>
    have ha : 3 ≤ a := h a (by simp)
    have ht := ih (fun f hf => h f (by simp [hf]))
    simp only [List.sum_cons, List.map_cons]
    omega

theorem countFace_loop {α : Type} (pm : PolyMesh α) (hwf : pm.WellFormed) (i : Nat)
    (hi : i ≤ pm.nFaces) :
    forLoop i (countFace pm) { numTris := 0, k := 0, maxVertIndex := 0, maxUVIndex := 0 } =
      some { numTris := triStart pm.FaceIndices i, k := faceStart pm.FaceIndices i,
             maxVertIndex := maxUpTo pm.VertsIndices (faceStart pm.FaceIndices i),
             maxUVIndex := maxUpTo pm.UVIndices (faceStart pm.FaceIndices i) } := by
  obtain ⟨hn, hf3, hvl, hul, -, -, -, -, h32, -, -⟩ := hwf
  have hsum := sum_le_three_mul _ hf3
  induction i with
  | zero => simp [forLoop, triStart, faceStart, maxUpTo]
  | succ i ih =>
    have hlt : i < pm.FaceIndices.length := by omega
    have hfi : 3 ≤ pm.FaceIndices[i] := hf3 _ (List.getElem_mem hlt)
    have hfs := faceStart_succ pm.FaceIndices i hlt
    have hts := triStart_succ pm.FaceIndices i hlt
    have hle := faceStart_le pm.FaceIndices (i + 1)
    have htl := triStart_le pm.FaceIndices (i + 1)
    rw [forLoop_succ, ih (by omega)]
    simp only [Option.bind, countFace, bind, List.getElem?_eq_getElem hlt]
    rw [countCorner_loop pm _ _ (by simp only []; omega) (by omega)
      (by simp only [U32] at *; omega) rfl rfl]
    simp only [Option.some.injEq, CountState.mk.injEq]
    refine ⟨?_, ?_, ?_, ?_⟩
    · simp only [U32] at *; omega
    · simp only [U32] at *; omega
    · rw [hfs]
    · rw [hfs]

/-! ### Writing into freshly allocated arrays -/

theorem store_slot {β : Type} (A : List (Option β)) (r : Nat) (v : β) :
    store (A ++ List.replicate (r + 1) none) A.length v =
      some ((A ++ [some v]) ++ List.replicate r none) := by
  unfold store
  rw [if_pos (by simp)]
  simp [List.replicate_succ]

theorem copy3_fill {β : Type} (src : List β) (A : List (Option β)) (r L : Nat)
    (k0 k1 k2 : Nat) (a0 a1 a2 : β) (hL : A.length = L) (hr : 3 ≤ r) (h32 : L + 2 < U32)
    (h0 : src[k0]? = some a0) (h1 : src[k1]? = some a1) (h2 : src[k2]? = some a2) :
    copy3 src (A ++ List.replicate r none) k0 k1 k2 L ((L + 1) % U32) ((L + 2) % U32) =
      some ((A ++ [some a0, some a1, some a2]) ++ List.replicate (r - 3) none) := by
  obtain ⟨q, rfl⟩ : ∃ q, r = q + 3 := ⟨r - 3, by omega⟩
  subst hL
  rw [mod_U32_of_lt (by omega), mod_U32_of_lt h32]
  unfold copy3
  have e1 := store_slot A (q + 2) a0
  have e2 := store_slot (A ++ [some a0]) (q + 1) a1
  have e3 := store_slot ((A ++ [some a0]) ++ [some a1]) q a2
  simp only [List.length_append, List.length_singleton] at e2 e3
  simp only [h0, h1, h2, Option.bind, e1, e2, e3]
  simp

theorem copyVert_loop {α : Type} (pm : PolyMesh α) (n i : Nat) (hi : i ≤ n)
    (hn : n ≤ pm.Verts.length) :
    forLoop i (copyVert pm) (List.replicate n none) =
      some ((pm.Verts.take i).map some ++ List.replicate (n - i) none) := by
  induction i with
  | zero => simp [forLoop]
  | succ i ih =>
    have hlt : i < pm.Verts.length := by omega
    rw [forLoop_succ, ih (by omega)]
    obtain ⟨q, hq⟩ : ∃ q, n - i = q + 1 := ⟨n - i - 1, by omega⟩
    have hq2 : n - (i + 1) = q := by omega
    have e := store_slot ((pm.Verts.take i).map some) q pm.Verts[i]
    simp only [List.length_map, List.length_take, Nat.min_eq_left (Nat.le_of_lt hlt)] at e
    have htake : (pm.Verts.take (i + 1)).map some =
        (pm.Verts.take i).map some ++ [some pm.Verts[i]] := by
      simp only [List.take_succ, List.getElem?_eq_getElem hlt, Option.toList, List.map_append,
        List.map]
    simp only [Option.bind, copyVert, bind, List.getElem?_eq_getElem hlt, hq, hq2, e, htake]

/-! ### The emission loop -/

theorem scatter_length {β : Type} (idx : List Nat) (src : List β) (dst : List (Option β))
    (c : Nat) : (scatter idx src dst c).length = dst.length := by
  unfold scatter
  split <;> simp

theorem scattered_length {β : Type} (idx : List Nat) (src : List β) (n : Nat) (E : List Nat) :
    (scattered idx src n E).length = n := by
  unfold scattered
  induction E using List.reverseRecOn with
  | nil => simp
  | append_singleton E c ih => rw [List.foldl_append]; simp [scatter_length, ih]

theorem scatter_step {β : Type} (idx : List Nat) (src : List β) (dst : List (Option β))
    (c i : Nat) (a : β) (hi : idx[c]? = some i) (ha : src[c]? = some a) (hlt : i < dst.length) :
    (idx[c]?).bind (fun i0 => (src[c]?).bind fun a0 => store dst i0 a0) =
      some (scatter idx src dst c) := by
  simp [hi, ha, store, hlt, scatter]

theorem scatter3_eq {β : Type} (idx : List Nat) (src : List β) (dst : List (Option β))
    (k0 k1 k2 i0 i1 i2 : Nat) (a0 a1 a2 : β)
    (hi0 : idx[k0]? = some i0) (hi1 : idx[k1]? = some i1) (hi2 : idx[k2]? = some i2)
    (ha0 : src[k0]? = some a0) (ha1 : src[k1]? = some a1) (ha2 : src[k2]? = some a2)
    (h0 : i0 < dst.length) (h1 : i1 < dst.length) (h2 : i2 < dst.length) :
    scatter3 idx src dst k0 k1 k2 = some ([k0, k1, k2].foldl (scatter idx src) dst) := by
  simp [scatter3, hi0, hi1, hi2, ha0, ha1, ha2, store, h0, h1, h2, scatter]

theorem filled_append3 {β : Type} (src : List β) (n : Nat) (E : List Nat) (k0 k1 k2 : Nat)
    (a0 a1 a2 : β) (hn : E.length + 3 ≤ n) (hn32 : n < U32)
    (h0 : src[k0]? = some a0) (h1 : src[k1]? = some a1) (h2 : src[k2]? = some a2) :
    copy3 src (filled src n E) k0 k1 k2 E.length ((E.length + 1) % U32)
      ((E.length + 2) % U32) = some (filled src n (E ++ [k0, k1, k2])) := by
  unfold filled
  rw [copy3_fill src _ (n - E.length) E.length k0 k1 k2 a0 a1 a2 (by simp) (by omega)
    (by omega) h0 h1 h2]
  have e : n - E.length - 3 = n - (E ++ [k0, k1, k2]).length := by simp; omega
  rw [e]
  simp [h0, h1, h2]

theorem emitTriangle_step {α : Type} (pm : PolyMesh α) (n3 nV nU : Nat) (E : List Nat)
    (K j : Nat) (hS : K + j + 2 < pm.VertsIndices.length)
    (hlU : pm.UVIndices.length = pm.VertsIndices.length)
    (hlN : pm.Normals.length = pm.VertsIndices.length)
    (hlT : pm.UVs.length = pm.VertsIndices.length)
    (hS32 : pm.VertsIndices.length ≤ U32)
    (hn : E.length + 3 ≤ n3) (hn32 : n3 < U32)
    (hv : ∀ v ∈ pm.VertsIndices, v < nV) (hu : ∀ u ∈ pm.UVIndices, u < nU) :
    emitTriangle pm j (emitStateAt pm n3 nV nU E K) =
      some (emitStateAt pm n3 nV nU (E ++ [K, K + j + 1, K + j + 2]) K) := by
  have m1 : (K + j + 1) % U32 = K + j + 1 := mod_U32_of_lt (by omega)
  have m2 : (K + j + 2) % U32 = K + j + 2 := mod_U32_of_lt (by omega)
  have m3 : (E.length + 3) % U32 = E.length + 3 := mod_U32_of_lt (by omega)
  obtain ⟨x0, v0, mv0⟩ := exists_getElem? pm.VertsIndices K (by omega)
  obtain ⟨x1, v1, mv1⟩ := exists_getElem? pm.VertsIndices (K + j + 1) (by omega)
  obtain ⟨x2, v2, mv2⟩ := exists_getElem? pm.VertsIndices (K + j + 2) (by omega)
  obtain ⟨y0, u0, mu0⟩ := exists_getElem? pm.UVIndices K (by omega)
  obtain ⟨y1, u1, mu1⟩ := exists_getElem? pm.UVIndices (K + j + 1) (by omega)
  obtain ⟨y2, u2, mu2⟩ := exists_getElem? pm.UVIndices (K + j + 2) (by omega)
  obtain ⟨z0, n0, -⟩ := exists_getElem? pm.Normals K (by omega)
  obtain ⟨z1, n1, -⟩ := exists_getElem? pm.Normals (K + j + 1) (by omega)
  obtain ⟨z2, n2, -⟩ := exists_getElem? pm.Normals (K + j + 2) (by omega)
  obtain ⟨w0, t0, -⟩ := exists_getElem? pm.UVs K (by omega)
  obtain ⟨w1, t1, -⟩ := exists_getElem? pm.UVs (K + j + 1) (by omega)
  obtain ⟨w2, t2, -⟩ := exists_getElem? pm.UVs (K + j + 2) (by omega)
  unfold emitTriangle emitStateAt
  simp only [m1, m2, m3]
  rw [filled_append3 pm.VertsIndices n3 E _ _ _ _ _ _ hn hn32 v0 v1 v2,
    filled_append3 pm.UVIndices n3 E _ _ _ _ _ _ hn hn32 u0 u1 u2,
    filled_append3 pm.Normals n3 E _ _ _ _ _ _ hn hn32 n0 n1 n2,
    filled_append3 pm.UVs n3 E _ _ _ _ _ _ hn hn32 t0 t1 t2,
    scatter3_eq pm.VertsIndices pm.Normals _ _ _ _ _ _ _ _ _ _ v0 v1 v2 n0 n1 n2
      (by rw [scattered_length]; exact hv _ mv0)
      (by rw [scattered_length]; exact hv _ mv1)
      (by rw [scattered_length]; exact hv _ mv2),
    scatter3_eq pm.UVIndices pm.UVs _ _ _ _ _ _ _ _ _ _ u0 u1 u2 t0 t1 t2
      (by rw [scattered_length]; exact hu _ mu0)
      (by rw [scattered_length]; exact hu _ mu1)
      (by rw [scattered_length]; exact hu _ mu2)]
  simp [scattered, List.foldl_append]

theorem fanCorners_length (k t : Nat) : (fanCorners k t).length = 3 * t := by
  induction t with
  | zero => rfl
  | succ t ih => simp [fanCorners, ih]; omega

theorem emitted_succ (fs : List Nat) (i : Nat) (h : i < fs.length) :
    emitted fs (i + 1) = emitted fs i ++ fanCorners (faceStart fs i) (fs[i] - 2) := by
  simp [emitted, List.getD, List.getElem?_eq_getElem h]

theorem emitted_length (fs : List Nat) (i : Nat) (hi : i ≤ fs.length) :
    (emitted fs i).length = 3 * triStart fs i := by
  induction i with
  | zero => simp [emitted, triStart]
  | succ i ih =>
    rw [emitted_succ fs i (by omega), triStart_succ fs i (by omega), List.length_append,
      ih (by omega), fanCorners_length]
    omega

theorem emitTriangle_loop {α : Type} (pm : PolyMesh α) (n3 nV nU : Nat) (E : List Nat)
    (K t : Nat) (hS : K + t + 2 ≤ pm.VertsIndices.length)
    (hlU : pm.UVIndices.length = pm.VertsIndices.length)
    (hlN : pm.Normals.length = pm.VertsIndices.length)
    (hlT : pm.UVs.length = pm.VertsIndices.length)
    (hS32 : pm.VertsIndices.length ≤ U32)
    (hn : E.length + 3 * t ≤ n3) (hn32 : n3 < U32)
    (hv : ∀ v ∈ pm.VertsIndices, v < nV) (hu : ∀ u ∈ pm.UVIndices, u < nU) :
    forLoop t (emitTriangle pm) (emitStateAt pm n3 nV nU E K) =
      some (emitStateAt pm n3 nV nU (E ++ fanCorners K t) K) := by
  induction t with
  | zero => simp [forLoop, fanCorners]
  | succ t ih =>
    rw [forLoop_succ, ih (by omega) (by omega)]
    simp only [Option.bind]
    rw [emitTriangle_step pm n3 nV nU _ K t (by omega) hlU hlN hlT hS32
      (by rw [List.length_append, fanCorners_length]; omega) hn32 hv hu]
    simp [fanCorners]

theorem emitFace_eq {α : Type} (pm : PolyMesh α) (i f : Nat) (s : EmitState α)
    (hf : pm.FaceIndices[i]? = some f) :
    emitFace pm i s = (forLoop ((f + U32 - 2) % U32) (emitTriangle pm) s).bind
      (fun s1 => some { s1 with k := (s1.k + f) % U32 }) := by
  unfold emitFace
  rw [hf]
  show Option.bind (some f) _ = _
  rw [Option.some_bind]
  show Option.bind _ _ = _
  congr 1

theorem emitFace_loop {α : Type} (pm : PolyMesh α) (hwf : pm.WellFormed) (n3 nV nU : Nat)
    (hn3 : 3 * (pm.FaceIndices.map (fun f => f - 2)).sum ≤ n3) (hn32 : n3 < U32)
    (hv : ∀ v ∈ pm.VertsIndices, v < nV) (hu : ∀ u ∈ pm.UVIndices, u < nU)
    (i : Nat) (hi : i ≤ pm.nFaces) :
    forLoop i (emitFace pm) (emitStateAt pm n3 nV nU [] 0) =
      some (emitStateAt pm n3 nV nU (emitted pm.FaceIndices i) (faceStart pm.FaceIndices i)) := by
  obtain ⟨hn, hf3, hvl, hul, hnl, htl, -, -, h32, -, -⟩ := hwf
  have hsum := sum_le_three_mul _ hf3
  induction i with
  | zero => simp [forLoop, emitted, faceStart]
  | succ i ih =>
    have hlt : i < pm.FaceIndices.length := by omega
    have hfi : 3 ≤ pm.FaceIndices[i] := hf3 _ (List.getElem_mem hlt)
    have hfs := faceStart_succ pm.FaceIndices i hlt
    have hts := triStart_succ pm.FaceIndices i hlt
    have hle := faceStart_le pm.FaceIndices (i + 1)
    have htl := triStart_le pm.FaceIndices (i + 1)
    have hel := emitted_length pm.FaceIndices i (by omega)
    have hm : (pm.FaceIndices[i] + U32 - 2) % U32 = pm.FaceIndices[i] - 2 := by
      simp only [U32] at *; omega
    have hk : (faceStart pm.FaceIndices i + pm.FaceIndices[i]) % U32 =
        faceStart pm.FaceIndices i + pm.FaceIndices[i] :=
      mod_U32_of_lt (by simp only [U32] at *; omega)
    rw [forLoop_succ, ih (by omega), Option.some_bind,
      emitFace_eq pm i _ _ (List.getElem?_eq_getElem hlt), hm,
      emitTriangle_loop pm n3 nV nU _ _ _ (by omega) (by omega) (by omega) (by omega)
        (by simp only [U32] at *; omega) (by omega) hn32 hv hu,
      Option.some_bind, emitted_succ _ _ hlt, hfs]
    show some (EmitState.mk _ _ _ _ _ _ _ _) = _
    rw [show (emitStateAt pm n3 nV nU (emitted pm.FaceIndices i ++
        fanCorners (faceStart pm.FaceIndices i) (pm.FaceIndices[i] - 2))
        (faceStart pm.FaceIndices i)).k = faceStart pm.FaceIndices i from rfl, hk]
    rfl

/-! ### The constructor -/

theorem le_maxUpTo (xs : List Nat) (n : Nat) (x : Nat) (hx : x ∈ xs.take n) :
    x ≤ maxUpTo xs n := by
  unfold maxUpTo
  generalize xs.take n = l at hx
  suffices h : ∀ (l : List Nat) (a : Nat), a ≤ l.foldl max a ∧ ∀ x ∈ l, x ≤ l.foldl max a from
    (h l 0).2 x hx
  intro l
  induction l with
  | nil => intro a; simp
  | cons b t ih =>
    intro a
    have h1 := ih (max a b)
    simp only [List.foldl_cons, List.mem_cons]
    refine ⟨by omega, ?_⟩
    rintro y (rfl | hy)
    · omega
    · exact h1.2 y hy

theorem maxUpTo_lt (xs : List Nat) (n b : Nat) (hb : 0 < b) (h : ∀ x ∈ xs, x < b) :
    maxUpTo xs n < b := by
  induction n with
  | zero => simpa [maxUpTo] using hb
  | succ n ih =>
    by_cases hn : n < xs.length
    · rw [maxUpTo_succ xs n hn]
      have := h _ (List.getElem_mem hn)
      omega
    · have e : xs.take (n + 1) = xs.take n := by
        rw [List.take_of_length_le (by omega), List.take_of_length_le (by omega)]
      unfold maxUpTo at ih ⊢
      rw [e]; exact ih

theorem emitInit_eq {α : Type} (pm : PolyMesh α) (hwf : pm.WellFormed) :
    TriMesh.emitInit α ((pm.FaceIndices.map (fun f => f - 2)).sum)
        (maxUpTo pm.VertsIndices pm.VertsIndices.length + 1)
        (maxUpTo pm.UVIndices pm.UVIndices.length + 1) =
      emitStateAt pm (3 * (pm.FaceIndices.map (fun f => f - 2)).sum)
        (maxUpTo pm.VertsIndices pm.VertsIndices.length + 1)
        (maxUpTo pm.UVIndices pm.UVIndices.length + 1) [] 0 := by
  obtain ⟨-, -, -, -, -, -, -, -, h32, -, -⟩ := hwf
  have hm3 : ((pm.FaceIndices.map (fun f => f - 2)).sum * 3) % U32 =
      3 * (pm.FaceIndices.map (fun f => f - 2)).sum := by
    rw [Nat.mul_comm]; exact mod_U32_of_lt h32
  unfold TriMesh.emitInit
  rw [hm3]
  simp [emitStateAt, filled, scattered]

theorem allocateAndEmit_closedForm {α : Type} (pm : PolyMesh α) (hwf : pm.WellFormed) :
    TriMesh.allocateAndEmit pm ((pm.FaceIndices.map (fun f => f - 2)).sum)
      (maxUpTo pm.VertsIndices pm.VertsIndices.length + 1)
      (maxUpTo pm.UVIndices pm.UVIndices.length + 1) = some (TriMesh.closedForm pm) := by
  have hwf2 := hwf
  obtain ⟨hn, hf3, hvl, hul, hnl, htl, ⟨hV0, hVl⟩, hvV, h32, hV32, hu32⟩ := hwf2
  have hmV := maxUpTo_lt pm.VertsIndices pm.VertsIndices.length _ hV0 hvV
  have hvV2 : ∀ v ∈ pm.VertsIndices, v < maxUpTo pm.VertsIndices pm.VertsIndices.length + 1 :=
    fun v hv => Nat.lt_succ_of_le (le_maxUpTo _ _ v (by simpa using hv))
  have huU2 : ∀ u ∈ pm.UVIndices, u < maxUpTo pm.UVIndices pm.UVIndices.length + 1 :=
    fun u hu => Nat.lt_succ_of_le (le_maxUpTo _ _ u (by simpa using hu))
  have hm3 : ((pm.FaceIndices.map (fun f => f - 2)).sum * 3) % U32 =
      3 * (pm.FaceIndices.map (fun f => f - 2)).sum := by
    rw [Nat.mul_comm]; exact mod_U32_of_lt h32
  have hfsN : faceStart pm.FaceIndices pm.nFaces = pm.FaceIndices.sum := by
    rw [← hn]; exact faceStart_length _
  have hinit := emitInit_eq pm hwf
  unfold TriMesh.allocateAndEmit
  rw [copyVert_loop pm _ _ (Nat.le_refl _) (by omega), Option.some_bind, hinit,
    emitFace_loop pm hwf _ _ _ (Nat.le_refl _) h32 hvV2 huU2 pm.nFaces (Nat.le_refl _),
    Option.some_bind]
  simp [TriMesh.closedForm, emitStateAt]

theorem ofPolyMesh_closedForm {α : Type} (pm : PolyMesh α) (hwf : pm.WellFormed) :
    TriMesh.ofPolyMesh pm = some (TriMesh.closedForm pm) := by
  have hwf2 := hwf
  obtain ⟨hn, hf3, hvl, hul, hnl, htl, ⟨hV0, hVl⟩, hvV, h32, hV32, hu32⟩ := hwf2
  have hfsN : faceStart pm.FaceIndices pm.nFaces = pm.FaceIndices.sum := by
    rw [← hn]; exact faceStart_length _
  have htsN : triStart pm.FaceIndices pm.nFaces = (pm.FaceIndices.map (fun f => f - 2)).sum := by
    rw [← hn]; exact triStart_length _
  have hmV := maxUpTo_lt pm.VertsIndices pm.VertsIndices.length _ hV0 hvV
  have hmU := maxUpTo_lt pm.UVIndices pm.UVIndices.length (U32 - 1) (by decide)
    (fun u hu => by have := hu32 u hu; omega)
  unfold TriMesh.ofPolyMesh
  rw [countFace_loop pm hwf pm.nFaces (Nat.le_refl _), Option.some_bind]
  show TriMesh.allocateAndEmit pm (triStart pm.FaceIndices pm.nFaces)
    ((maxUpTo pm.VertsIndices (faceStart pm.FaceIndices pm.nFaces) + 1) % U32)
    ((maxUpTo pm.UVIndices (faceStart pm.FaceIndices pm.nFaces) + 1) % U32) = _
  have a1 : maxUpTo pm.VertsIndices (faceStart pm.FaceIndices pm.nFaces) =
      maxUpTo pm.VertsIndices pm.VertsIndices.length := by rw [hfsN, hvl]
  have a2 : maxUpTo pm.UVIndices (faceStart pm.FaceIndices pm.nFaces) =
      maxUpTo pm.UVIndices pm.UVIndices.length := by rw [hfsN, hul]
  rw [htsN, a1, a2, mod_U32_of_lt (by omega), mod_U32_of_lt (by omega)]
  exact allocateAndEmit_closedForm pm hwf

/-- Outside `WellFormed` the constructor reads out of bounds: a vertex index that
does not address `Verts`. -/
theorem ofPolyMesh_vertex_index_out_of_range :
    TriMesh.ofPolyMesh { quadMesh with VertsIndices := [0, 1, 2, 7] } = none := by decide

/-- Outside `WellFormed` the constructor reads out of bounds: a flat corner array
shorter than `sum(faceSizes)`. -/
theorem ofPolyMesh_short_corner_array :
    TriMesh.ofPolyMesh { quadMesh with Normals := [⟨0, 0, 1⟩, ⟨0, 0, 2⟩, ⟨0, 0, 3⟩] } = none := by
  decide

/-! ### Where each triangle lands -/

theorem fanCorners_getElem? (k t j : Nat) (hj : j < t) :
    (fanCorners k t)[3 * j]? = some k ∧ (fanCorners k t)[3 * j + 1]? = some (k + j + 1) ∧
      (fanCorners k t)[3 * j + 2]? = some (k + j + 2) := by
  induction t with
  | zero => omega
  | succ t ih =>
    have hl := fanCorners_length k t
    unfold fanCorners
    by_cases h : j < t
    · obtain ⟨h0, h1, h2⟩ := ih h
      rw [List.getElem?_append_left (by omega), List.getElem?_append_left (by omega),
        List.getElem?_append_left (by omega)]
      exact ⟨h0, h1, h2⟩
    · have e : j = t := by omega
      subst e
      rw [List.getElem?_append_right (by omega), List.getElem?_append_right (by omega),
        List.getElem?_append_right (by omega), hl]
      have e0 : 3 * j - 3 * j = 0 := by omega
      have e1 : 3 * j + 1 - 3 * j = 1 := by omega
      have e2 : 3 * j + 2 - 3 * j = 2 := by omega
      rw [e0, e1, e2]
      exact ⟨rfl, rfl, rfl⟩

theorem emitted_getElem? (fs : List Nat) (i : Nat) (hi : i < fs.length) (m : Nat)
    (him : i < m) (hm : m ≤ fs.length) (p : Nat) (hp : p < 3 * (fs[i] - 2)) :
    (emitted fs m)[3 * triStart fs i + p]? = (fanCorners (faceStart fs i) (fs[i] - 2))[p]? := by
  induction m with
  | zero => omega
  | succ m ih =>
    have hlen := emitted_length fs m (by omega)
    rw [emitted_succ fs m (by omega)]
    by_cases h : i < m
    · have hmono : triStart fs (i + 1) ≤ triStart fs m := by
        have key : ∀ d, i + 1 + d ≤ fs.length → triStart fs (i + 1) ≤ triStart fs (i + 1 + d) := by
          intro d
          induction d with
          | zero => intro _; exact Nat.le_refl _
          | succ d ihd =>
            intro hd
            have := ihd (by omega)
            have e := triStart_succ fs (i + 1 + d) (by omega)
            rw [show i + 1 + (d + 1) = i + 1 + d + 1 from rfl, e]
            omega
        have := key (m - (i + 1)) (by omega)
        rwa [show i + 1 + (m - (i + 1)) = m by omega] at this
      have hts := triStart_succ fs i hi
      rw [List.getElem?_append_left (by omega)]
      exact ih h (by omega)
    · have e : i = m := by omega
      subst e
      rw [List.getElem?_append_right (by omega), hlen]
      congr 1
      omega

theorem filled_getElem? {β : Type} (src : List β) (n : Nat) (E : List Nat) (p c : Nat)
    (h : E[p]? = some c) : (filled src n E)[p]? = some (src[c]?) := by
  have hp : p < E.length := by
    by_contra hc
    rw [List.getElem?_eq_none (by omega)] at h
    exact Option.noConfusion h
  unfold filled
  rw [List.getElem?_append_left (by simpa using hp), List.getElem?_map, h]
  rfl

theorem triangleFrom_filled {β : Type} (src : List β) (n : Nat) (E : List Nat)
    (p k0 k1 k2 : Nat) (h0 : E[p]? = some k0) (h1 : E[p + 1]? = some k1)
    (h2 : E[p + 2]? = some k2) (b0 : k0 < src.length) (b1 : k1 < src.length)
    (b2 : k2 < src.length) : TriangleFrom (filled src n E) src p k0 k1 k2 := by
  obtain ⟨a0, e0, -⟩ := exists_getElem? src k0 b0
  obtain ⟨a1, e1, -⟩ := exists_getElem? src k1 b1
  obtain ⟨a2, e2, -⟩ := exists_getElem? src k2 b2
  refine ⟨a0, a1, a2, e0, e1, e2, ?_, ?_, ?_⟩
  · rw [filled_getElem? src n E p k0 h0, e0]
  · rw [filled_getElem? src n E (p + 1) k1 h1, e1]
  · rw [filled_getElem? src n E (p + 2) k2 h2, e2]

theorem emitted_triangle {α : Type} (pm : PolyMesh α) (hwf : pm.WellFormed) (i n j : Nat)
    (hi : pm.FaceIndices[i]? = some n) (hj : j + 2 < n) :
    (emitted pm.FaceIndices pm.nFaces)[3 * (triStart pm.FaceIndices i + j)]? =
        some (faceStart pm.FaceIndices i) ∧
      (emitted pm.FaceIndices pm.nFaces)[3 * (triStart pm.FaceIndices i + j) + 1]? =
        some (faceStart pm.FaceIndices i + j + 1) ∧
      (emitted pm.FaceIndices pm.nFaces)[3 * (triStart pm.FaceIndices i + j) + 2]? =
        some (faceStart pm.FaceIndices i + j + 2) ∧
      faceStart pm.FaceIndices i + j + 2 < pm.FaceIndices.sum := by
  obtain ⟨hn, -⟩ := hwf
  have hlt : i < pm.FaceIndices.length := by
    by_contra hc
    rw [List.getElem?_eq_none (by omega)] at hi
    exact Option.noConfusion hi
  have hn' : pm.FaceIndices[i] = n := by
    rw [List.getElem?_eq_getElem hlt] at hi
    exact Option.some.inj hi
  have hfs := faceStart_succ pm.FaceIndices i hlt
  have hle := faceStart_le pm.FaceIndices (i + 1)
  obtain ⟨f0, f1, f2⟩ := fanCorners_getElem? (faceStart pm.FaceIndices i) (n - 2) j (by omega)
  have g := fun p hp => emitted_getElem? pm.FaceIndices i hlt pm.nFaces (by omega) (by omega) p hp
  rw [hn'] at g
  refine ⟨?_, ?_, ?_, by omega⟩
  · rw [← f0, ← g (3 * j) (by omega)]; congr 1; omega
  · rw [← f1, ← g (3 * j + 1) (by omega)]; congr 1; omega
  · rw [← f2, ← g (3 * j + 2) (by omega)]; congr 1; omega

/-- C1. On a well-formed polygon mesh the constructor returns a triangle mesh in
which face `i` (of size `n`, starting at flat corner offset `k = faceStart i`) fills
the `n - 2` consecutive triangles that follow the `triStart i` triangles of the
preceding faces, and triangle `j` of the face takes its three slots in `triIndex`,
`UVIndices`, `N` and `T` from the flat positions `k`, `k + j + 1`, `k + j + 2` of
`VertsIndices`, `UVIndices`, `Normals` and `UVs`, in this order. -/
theorem C1_fan_triangulation {α : Type} (pm : PolyMesh α) (hwf : pm.WellFormed) :
    ∃ t, TriMesh.ofPolyMesh pm = some t ∧
      ∀ i n j, pm.FaceIndices[i]? = some n → j + 2 < n →
        triStart pm.FaceIndices (i + 1) = triStart pm.FaceIndices i + (n - 2) ∧
        TriangleFrom t.triIndex pm.VertsIndices (3 * (triStart pm.FaceIndices i + j))
          (faceStart pm.FaceIndices i) (faceStart pm.FaceIndices i + j + 1)
          (faceStart pm.FaceIndices i + j + 2) ∧
        TriangleFrom t.UVIndices pm.UVIndices (3 * (triStart pm.FaceIndices i + j))
          (faceStart pm.FaceIndices i) (faceStart pm.FaceIndices i + j + 1)
          (faceStart pm.FaceIndices i + j + 2) ∧
        TriangleFrom t.N pm.Normals (3 * (triStart pm.FaceIndices i + j))
          (faceStart pm.FaceIndices i) (faceStart pm.FaceIndices i + j + 1)
          (faceStart pm.FaceIndices i + j + 2) ∧
        TriangleFrom t.T pm.UVs (3 * (triStart pm.FaceIndices i + j))
          (faceStart pm.FaceIndices i) (faceStart pm.FaceIndices i + j + 1)
          (faceStart pm.FaceIndices i + j + 2) := by
  refine ⟨TriMesh.closedForm pm, ofPolyMesh_closedForm pm hwf, ?_⟩
  intro i n j hi hj
  obtain ⟨e0, e1, e2, hb⟩ := emitted_triangle pm hwf i n j hi hj
  obtain ⟨hn, hf3, hvl, hul, hnl, htl, -⟩ := hwf
  have hlt : i < pm.FaceIndices.length := by
    by_contra hc
    rw [List.getElem?_eq_none (by omega)] at hi
    exact Option.noConfusion hi
  have hn' : pm.FaceIndices[i] = n := by
    rw [List.getElem?_eq_getElem hlt] at hi
    exact Option.some.inj hi
  refine ⟨by rw [triStart_succ _ _ hlt, hn'], ?_, ?_, ?_, ?_⟩
  · exact triangleFrom_filled _ _ _ _ _ _ _ e0 e1 e2 (by omega) (by omega) (by omega)
  · exact triangleFrom_filled _ _ _ _ _ _ _ e0 e1 e2 (by omega) (by omega) (by omega)
  · exact triangleFrom_filled _ _ _ _ _ _ _ e0 e1 e2 (by omega) (by omega) (by omega)
  · exact triangleFrom_filled _ _ _ _ _ _ _ e0 e1 e2 (by omega) (by omega) (by omega)

/-- Witness of C1 on `quadMesh`: the second triangle of the quadrilateral takes the
corners at flat positions 0, 2, 3. -/
theorem C1_fan_triangulation_witness :
    quadMesh.WellFormed ∧ ∃ t, TriMesh.ofPolyMesh quadMesh = some t ∧
      TriangleFrom t.triIndex quadMesh.VertsIndices 3 0 2 3 ∧
      TriangleFrom t.N quadMesh.Normals 3 0 2 3 := by
  obtain ⟨t, ht, h⟩ := C1_fan_triangulation quadMesh (by decide)
  have h1 := h 0 4 1 rfl (by decide)
  exact ⟨by decide, t, ht, h1.2.1, h1.2.2.2.1⟩

/-! ### Everything emitted is a corner, and every corner is emitted -/

theorem fanCorners_mem (k t c : Nat) (hc : c ∈ fanCorners k t) : k ≤ c ∧ c < k + t + 2 := by
  induction t with
  | zero => simp [fanCorners] at hc
  | succ t ih =>
    simp only [fanCorners, List.mem_append, List.mem_cons, List.mem_singleton,
      List.not_mem_nil, or_false] at hc
    rcases hc with h | h | h | h
    · have := ih h; omega
    · omega
    · omega
    · omega

theorem emitted_lt (fs : List Nat) (h3 : ∀ f ∈ fs, 3 ≤ f) (m : Nat) (hm : m ≤ fs.length)
    (c : Nat) (hc : c ∈ emitted fs m) : c < faceStart fs m := by
  induction m with
  | zero => simp [emitted] at hc
  | succ m ih =>
    have hlt : m < fs.length := by omega
    have hf := h3 _ (List.getElem_mem hlt)
    rw [emitted_succ fs m hlt, List.mem_append] at hc
    rw [faceStart_succ fs m hlt]
    rcases hc with h | h
    · have := ih (by omega) h; omega
    · have := fanCorners_mem _ _ _ h; omega

theorem mem_fanCorners (k t d : Nat) (ht : 0 < t) (hd : d < t + 2) : k + d ∈ fanCorners k t := by
  induction t with
  | zero => omega
  | succ t ih =>
    simp only [fanCorners, List.mem_append, List.mem_cons, List.mem_singleton,
      List.not_mem_nil, or_false]
    by_cases h0 : d = 0
    · right; left; omega
    · by_cases h1 : d = t + 1
      · right; right; left; omega
      · by_cases h2 : d = t + 2
        · right; right; right; omega
        · left; exact ih (by omega) (by omega)

theorem mem_emitted (fs : List Nat) (h3 : ∀ f ∈ fs, 3 ≤ f) (m : Nat) (hm : m ≤ fs.length)
    (c : Nat) (hc : c < faceStart fs m) : c ∈ emitted fs m := by
  induction m with
  | zero => simp [faceStart] at hc
  | succ m ih =>
    have hlt : m < fs.length := by omega
    have hf := h3 _ (List.getElem_mem hlt)
    rw [emitted_succ fs m hlt, List.mem_append]
    rw [faceStart_succ fs m hlt] at hc
    by_cases h : c < faceStart fs m
    · exact Or.inl (ih (by omega) h)
    · right
      have := mem_fanCorners (faceStart fs m) (fs[m] - 2) (c - faceStart fs m) (by omega)
        (by omega)
      rwa [show faceStart fs m + (c - faceStart fs m) = c by omega] at this

theorem filled_length {β : Type} (src : List β) (n : Nat) (E : List Nat) (h : E.length ≤ n) :
    (filled src n E).length = n := by
  simp [filled]; omega

theorem filled_written {β : Type} (src : List β) (n : Nat) (E : List Nat) (p : Nat)
    (hp : p < E.length) (hE : ∀ c ∈ E, c < src.length) :
    ∃ a, (filled src n E)[p]? = some (some a) := by
  obtain ⟨c, hc, hmem⟩ := exists_getElem? E p hp
  obtain ⟨a, ha, -⟩ := exists_getElem? src c (hE c hmem)
  exact ⟨a, by rw [filled_getElem? src n E p c hc, ha]⟩

/-- C2. On a well-formed polygon mesh (faces of at least 3 corners, `3 * numTris`
below `2^32`) the counting loop leaves `numTris` equal to the sum of
`faceSizes[i] - 2`, the emission loop ends with its write cursor `l` at
`3 * numTris`, and the four per-triangle arrays of the result have exactly
`3 * numTris` slots, each of them written. -/
theorem C2_triangle_count {α : Type} (pm : PolyMesh α) (hwf : pm.WellFormed) :
    ∃ c e t,
      forLoop pm.nFaces (countFace pm)
        { numTris := 0, k := 0, maxVertIndex := 0, maxUVIndex := 0 } = some c ∧
      c.numTris = (pm.FaceIndices.map (fun f => f - 2)).sum ∧
      forLoop pm.nFaces (emitFace pm) (TriMesh.emitInit α c.numTris
        ((c.maxVertIndex + 1) % U32) ((c.maxUVIndex + 1) % U32)) = some e ∧
      e.l = 3 * c.numTris ∧
      TriMesh.ofPolyMesh pm = some t ∧ t.numTris = c.numTris ∧
      t.triIndex.length = 3 * t.numTris ∧ t.UVIndices.length = 3 * t.numTris ∧
      t.N.length = 3 * t.numTris ∧ t.T.length = 3 * t.numTris ∧
      ∀ p, p < 3 * t.numTris →
        (∃ a, t.triIndex[p]? = some (some a)) ∧ (∃ a, t.UVIndices[p]? = some (some a)) ∧
        (∃ a, t.N[p]? = some (some a)) ∧ (∃ a, t.T[p]? = some (some a)) := by
  have hwf2 := hwf
  obtain ⟨hn, hf3, hvl, hul, hnl, htl, ⟨hV0, hVl⟩, hvV, h32, hV32, hu32⟩ := hwf2
  have hfsN : faceStart pm.FaceIndices pm.nFaces = pm.FaceIndices.sum := by
    rw [← hn]; exact faceStart_length _
  have htsN : triStart pm.FaceIndices pm.nFaces = (pm.FaceIndices.map (fun f => f - 2)).sum := by
    rw [← hn]; exact triStart_length _
  have hmV := maxUpTo_lt pm.VertsIndices pm.VertsIndices.length _ hV0 hvV
  have hmU := maxUpTo_lt pm.UVIndices pm.UVIndices.length (U32 - 1) (by decide)
    (fun u hu => by have := hu32 u hu; omega)
  have hvV2 : ∀ v ∈ pm.VertsIndices, v < maxUpTo pm.VertsIndices pm.VertsIndices.length + 1 :=
    fun v hv => Nat.lt_succ_of_le (le_maxUpTo _ _ v (by simpa using hv))
  have huU2 : ∀ u ∈ pm.UVIndices, u < maxUpTo pm.UVIndices pm.UVIndices.length + 1 :=
    fun u hu => Nat.lt_succ_of_le (le_maxUpTo _ _ u (by simpa using hu))
  have hlen : (emitted pm.FaceIndices pm.nFaces).length =
      3 * (pm.FaceIndices.map (fun f => f - 2)).sum := by
    rw [emitted_length _ _ (by omega), htsN]
  have hE : ∀ c ∈ emitted pm.FaceIndices pm.nFaces, c < pm.FaceIndices.sum := by
    intro c hc
    have := emitted_lt pm.FaceIndices hf3 pm.nFaces (by omega) c hc
    omega
  refine ⟨_, emitStateAt pm (3 * (pm.FaceIndices.map (fun f => f - 2)).sum)
      (maxUpTo pm.VertsIndices pm.VertsIndices.length + 1)
      (maxUpTo pm.UVIndices pm.UVIndices.length + 1) (emitted pm.FaceIndices pm.nFaces)
      (faceStart pm.FaceIndices pm.nFaces),
    TriMesh.closedForm pm, countFace_loop pm hwf pm.nFaces (Nat.le_refl _), htsN,
    ?_, ?_, ofPolyMesh_closedForm pm hwf, htsN.symm, ?_, ?_, ?_, ?_, ?_⟩
  · show forLoop pm.nFaces (emitFace pm) (TriMesh.emitInit α (triStart pm.FaceIndices pm.nFaces)
      ((maxUpTo pm.VertsIndices (faceStart pm.FaceIndices pm.nFaces) + 1) % U32)
      ((maxUpTo pm.UVIndices (faceStart pm.FaceIndices pm.nFaces) + 1) % U32)) = _
    have a1 : maxUpTo pm.VertsIndices (faceStart pm.FaceIndices pm.nFaces) =
        maxUpTo pm.VertsIndices pm.VertsIndices.length := by rw [hfsN, hvl]
    have a2 : maxUpTo pm.UVIndices (faceStart pm.FaceIndices pm.nFaces) =
        maxUpTo pm.UVIndices pm.UVIndices.length := by rw [hfsN, hul]
    rw [htsN, a1, a2, mod_U32_of_lt (by omega), mod_U32_of_lt (by omega), emitInit_eq pm hwf]
    exact emitFace_loop pm hwf _ _ _ (Nat.le_refl _) h32 hvV2 huU2 pm.nFaces (Nat.le_refl _)
  · show (emitted pm.FaceIndices pm.nFaces).length = 3 * triStart pm.FaceIndices pm.nFaces
    rw [hlen, htsN]
  · exact filled_length _ _ _ (by omega)
  · exact filled_length _ _ _ (by omega)
  · exact filled_length _ _ _ (by omega)
  · exact filled_length _ _ _ (by omega)
  · intro p hp
    have hp' : p < (emitted pm.FaceIndices pm.nFaces).length := by rw [hlen]; exact hp
    exact ⟨filled_written _ _ _ p hp' (fun c hc => by have := hE c hc; omega),
      filled_written _ _ _ p hp' (fun c hc => by have := hE c hc; omega),
      filled_written _ _ _ p hp' (fun c hc => by have := hE c hc; omega),
      filled_written _ _ _ p hp' (fun c hc => by have := hE c hc; omega)⟩

/-- Witness of C2 on `quadMesh`: two triangles, six slots. -/
theorem C2_triangle_count_witness :
    quadMesh.WellFormed ∧ ∃ t, TriMesh.ofPolyMesh quadMesh = some t ∧ t.numTris = 2 ∧
      t.triIndex.length = 6 := by
  obtain ⟨c, e, t, -, h2, -, -, ht, h6, h7, -⟩ := C2_triangle_count quadMesh (by decide)
  refine ⟨by decide, t, ht, ?_, ?_⟩
  · rw [h6, h2]; decide
  · rw [h7, h6, h2]; decide

/-! ### Per-vertex arrays: the last write wins -/

theorem scatter_getElem?_ne {β : Type} (idx : List Nat) (src : List β) (dst : List (Option β))
    (c v : Nat) (h : idx[c]? ≠ some v) : (scatter idx src dst c)[v]? = dst[v]? := by
  unfold scatter
  split
  · rename_i i a hi ha
    have hne : i ≠ v := fun e => h (by rw [hi, e])
    rw [List.getElem?_set_ne hne]
  · rfl

theorem foldl_scatter_getElem? {β : Type} (idx : List Nat) (src : List β) (E : List Nat)
    (v : Nat) (h : ∀ c ∈ E, idx[c]? ≠ some v) (dst : List (Option β)) :
    (E.foldl (scatter idx src) dst)[v]? = dst[v]? := by
  induction E generalizing dst with
  | nil => rfl
  | cons c E ih =>
    rw [List.foldl_cons, ih (fun c' hc' => h c' (by simp [hc'])),
      scatter_getElem?_ne idx src dst c v (h c (by simp))]

theorem scattered_last {β : Type} (idx : List Nat) (src : List β) (n : Nat) (E1 E2 : List Nat)
    (c v : Nat) (a : β) (hv : idx[c]? = some v) (ha : src[c]? = some a) (hvn : v < n)
    (hE2 : ∀ c' ∈ E2, idx[c']? ≠ some v) :
    (scattered idx src n (E1 ++ c :: E2))[v]? = some (some a) := by
  unfold scattered
  rw [List.foldl_append, List.foldl_cons, foldl_scatter_getElem? idx src E2 v hE2]
  have hl := scattered_length idx src n E1
  unfold scattered at hl
  generalize List.foldl (scatter idx src) (List.replicate n none) E1 = dst at hl
  unfold scatter
  simp only [hv, ha]
  rw [List.getElem?_set_eq_of_lt _ (by omega)]

theorem exists_last_occurrence (E : List Nat) (q : Nat → Prop) (h : ∃ c ∈ E, q c) :
    ∃ E1 c E2, E = E1 ++ c :: E2 ∧ q c ∧ ∀ c' ∈ E2, ¬ q c' := by
  classical
  induction E with
  | nil => obtain ⟨c, hc, -⟩ := h; simp at hc
  | cons x E ih =>
    by_cases hE : ∃ c ∈ E, q c
    · obtain ⟨E1, c, E2, e, hq, hl⟩ := ih hE
      exact ⟨x :: E1, c, E2, by rw [e]; rfl, hq, hl⟩
    · obtain ⟨c, hc, hq⟩ := h
      have hx : q x := by
        rcases List.mem_cons.mp hc with e | e
        · rwa [← e]
        · exact absurd ⟨c, e, hq⟩ hE
      exact ⟨[], x, E, rfl, hx, fun c' hc' hq' => hE ⟨c', hc', hq'⟩⟩

/-- C3. On a well-formed polygon mesh, for every vertex index `v` referenced by a
corner, the emission order splits as `E1 ++ c :: E2` where `c` is the last emitted
corner that references `v`, and `PN[v]` is the source normal of that corner; the
same holds for any such split.  It is an overwrite: with the two faces `faceUp`
and `faceSide`, which share vertex 0 and differ in their normals, the two orders of
the faces give different values of `PN[0]`, each the normal of the face emitted
last. -/
theorem C3_vertex_normal_last_write {α : Type} (pm : PolyMesh α) (hwf : pm.WellFormed) :
    (∃ t, TriMesh.ofPolyMesh pm = some t ∧
      (∀ v ∈ pm.VertsIndices, ∃ E1 c E2 n,
        emitted pm.FaceIndices pm.nFaces = E1 ++ c :: E2 ∧ pm.VertsIndices[c]? = some v ∧
        (∀ c' ∈ E2, pm.VertsIndices[c']? ≠ some v) ∧ pm.Normals[c]? = some n ∧
        t.PN[v]? = some (some n)) ∧
      (∀ E1 c E2 v n,
        emitted pm.FaceIndices pm.nFaces = E1 ++ c :: E2 → pm.VertsIndices[c]? = some v →
        (∀ c' ∈ E2, pm.VertsIndices[c']? ≠ some v) → pm.Normals[c]? = some n →
        t.PN[v]? = some (some n))) ∧
    (∃ t1 t2,
      TriMesh.ofPolyMesh (PolyMesh.ofFaces "m" triVerts [faceUp, faceSide]) = some t1 ∧
      TriMesh.ofPolyMesh (PolyMesh.ofFaces "m" triVerts [faceSide, faceUp]) = some t2 ∧
      t1.PN[0]? = some (some ⟨1, 0, 0⟩) ∧ t2.PN[0]? = some (some ⟨0, 0, 1⟩) ∧
      t1.PN[0]? ≠ t2.PN[0]?) := by
  constructor
  · have hwf2 := hwf
    obtain ⟨hn, hf3, hvl, hul, hnl, htl, ⟨hV0, hVl⟩, hvV, h32, hV32, hu32⟩ := hwf2
    have hfsN : faceStart pm.FaceIndices pm.nFaces = pm.FaceIndices.sum := by
      rw [← hn]; exact faceStart_length _
    have key : ∀ E1 c E2 v n,
        emitted pm.FaceIndices pm.nFaces = E1 ++ c :: E2 → pm.VertsIndices[c]? = some v →
        (∀ c' ∈ E2, pm.VertsIndices[c']? ≠ some v) → pm.Normals[c]? = some n →
        (TriMesh.closedForm pm).PN[v]? = some (some n) := by
      intro E1 c E2 v n hE hv hl hnn
      show (scattered pm.VertsIndices pm.Normals _ (emitted pm.FaceIndices pm.nFaces))[v]? = _
      rw [hE]
      refine scattered_last _ _ _ E1 E2 c v n hv hnn ?_ hl
      have hmem : v ∈ pm.VertsIndices := List.mem_iff_getElem?.mpr ⟨c, hv⟩
      exact Nat.lt_succ_of_le (le_maxUpTo _ _ v (by simpa using hmem))
    refine ⟨TriMesh.closedForm pm, ofPolyMesh_closedForm pm hwf, ?_, key⟩
    intro v hv
    obtain ⟨c0, hvc0⟩ := List.mem_iff_getElem?.mp hv
    have hc0 : c0 < pm.VertsIndices.length := by
      by_contra hc
      rw [List.getElem?_eq_none (by omega)] at hvc0
      exact Option.noConfusion hvc0
    have hmem : c0 ∈ emitted pm.FaceIndices pm.nFaces :=
      mem_emitted pm.FaceIndices hf3 pm.nFaces (by omega) c0 (by omega)
    obtain ⟨E1, c, E2, hE, hq, hl⟩ := exists_last_occurrence (emitted pm.FaceIndices pm.nFaces)
      (fun c => pm.VertsIndices[c]? = some v) ⟨c0, hmem, hvc0⟩
    have hcE : c ∈ emitted pm.FaceIndices pm.nFaces := by rw [hE]; simp
    have hclt := emitted_lt pm.FaceIndices hf3 pm.nFaces (by omega) c hcE
    obtain ⟨n, hnn, -⟩ := exists_getElem? pm.Normals c (by omega)
    exact ⟨E1, c, E2, n, hE, hq, hl, hnn, key E1 c E2 v n hE hq hl hnn⟩
  · exact ⟨TriMesh.closedForm (PolyMesh.ofFaces "m" triVerts [faceUp, faceSide]),
      TriMesh.closedForm (PolyMesh.ofFaces "m" triVerts [faceSide, faceUp]),
      ofPolyMesh_closedForm _ (by decide), ofPolyMesh_closedForm _ (by decide),
      by decide, by decide, by decide⟩

/-- Witness of C3 on `quadMesh`. -/
theorem C3_vertex_normal_last_write_witness :
    quadMesh.WellFormed ∧ ∃ t, TriMesh.ofPolyMesh quadMesh = some t ∧
      t.PN[0]? = some (some ⟨0, 0, 1⟩) := by
  obtain ⟨t, ht, -, h⟩ := (C3_vertex_normal_last_write quadMesh (by decide)).1
  exact ⟨by decide, t, ht, h [0, 1, 2] 0 [2, 3] 0 ⟨0, 0, 1⟩ (by decide) (by decide) (by decide)
    (by decide)⟩

/-! ### Number of positions -/

theorem foldl_max_mem (l : List Nat) (a : Nat) : l.foldl max a = a ∨ l.foldl max a ∈ l := by
  induction l generalizing a with
  | nil => exact Or.inl rfl
  | cons b t ih =>
    rw [List.foldl_cons]
    rcases ih (max a b) with h | h
    · rw [h]
      by_cases hab : a ≤ b
      · right; rw [Nat.max_eq_right hab]; simp
      · left; exact Nat.max_eq_left (by omega)
    · right; exact List.mem_cons_of_mem _ h

theorem maxUpTo_mem (xs : List Nat) (h : xs ≠ []) : maxUpTo xs xs.length ∈ xs := by
  have hle : ∀ x ∈ xs, x ≤ maxUpTo xs xs.length :=
    fun x hx => le_maxUpTo xs xs.length x (by simpa using hx)
  have hm := foldl_max_mem xs 0
  unfold maxUpTo at hle ⊢
  rw [List.take_length] at hle ⊢
  rcases hm with h0 | hmem
  · obtain ⟨x, hx⟩ := List.exists_mem_of_ne_nil _ h
    have := hle x hx
    rw [h0] at this ⊢
    have e : x = 0 := by omega
    rw [← e]; exact hx
  · exact hmem

/-- C4. On a well-formed polygon mesh with at least one face the constructor
returns a triangle mesh whose `numVert`, the number of slots of `P`, is 1 plus the
maximum of `VertsIndices` over all corners; `sparseMesh`, whose corners reference
only the vertices 0, 5 and 9, gets `numVert = 10` and ten written positions. -/
theorem C4_numVert_is_max_plus_one {α : Type} (pm : PolyMesh α) (hwf : pm.WellFormed)
    (hface : 0 < pm.nFaces) :
    (∃ t m, TriMesh.ofPolyMesh pm = some t ∧ m ∈ pm.VertsIndices ∧
      (∀ v ∈ pm.VertsIndices, v ≤ m) ∧ t.numVert = 1 + m ∧ t.P.length = t.numVert ∧
      t.PN.length = t.numVert) ∧
    (∃ t, TriMesh.ofPolyMesh sparseMesh = some t ∧ sparseMesh.VertsIndices = [0, 5, 9] ∧
      t.numVert = 10 ∧ t.P.length = 10 ∧ t.P = sparseMesh.Verts.map some) := by
  constructor
  · have hwf2 := hwf
    obtain ⟨hn, hf3, hvl, hul, hnl, htl, ⟨hV0, hVl⟩, hvV, h32, hV32, hu32⟩ := hwf2
    have hne : pm.VertsIndices ≠ [] := by
      intro e
      have h0 : 0 < pm.FaceIndices.length := by omega
      have h3 := hf3 _ (List.getElem_mem h0)
      have hs := faceStart_succ pm.FaceIndices 0 h0
      have hl := faceStart_le pm.FaceIndices (0 + 1)
      have hz : faceStart pm.FaceIndices 0 = 0 := by simp [faceStart]
      rw [e] at hvl
      simp only [List.length_nil] at hvl
      omega
    have hmV := maxUpTo_lt pm.VertsIndices pm.VertsIndices.length _ hV0 hvV
    refine ⟨TriMesh.closedForm pm, maxUpTo pm.VertsIndices pm.VertsIndices.length,
      ofPolyMesh_closedForm pm hwf, maxUpTo_mem _ hne,
      fun v hv => le_maxUpTo _ _ v (by simpa using hv), Nat.add_comm _ _, ?_, ?_⟩
    · show ((pm.Verts.take _).map some).length = _
      rw [List.length_map, List.length_take]
      exact Nat.min_eq_left (by omega)
    · exact scattered_length _ _ _ _
  · exact ⟨TriMesh.closedForm sparseMesh, ofPolyMesh_closedForm _ (by decide), by decide,
      by decide, by decide, by decide⟩

/-- Witness of C4 on `quadMesh`: four positions for the vertex indices 0-3. -/
theorem C4_numVert_is_max_plus_one_witness :
    quadMesh.WellFormed ∧ 0 < quadMesh.nFaces ∧
      ∃ t, TriMesh.ofPolyMesh quadMesh = some t ∧ t.numVert = 4 := by
  obtain ⟨t, m, ht, hm, hle, hnv, -⟩ :=
    (C4_numVert_is_max_plus_one quadMesh (by decide) (by decide)).1
  refine ⟨by decide, by decide, t, ht, ?_⟩
  have h3 : 3 ≤ m := hle 3 (by decide)
  have hm4 : m < 4 := by
    have : ∀ v ∈ quadMesh.VertsIndices, v < 4 := by decide
    exact this m hm
  omega

/-! ### The export loops -/

theorem forLoop_append {β : Type} (body : Nat → List β → Option (List β)) (h : Nat → β) (n : Nat)
    (hbody : ∀ i, i < n → ∀ out, body i out = some (out ++ [h i])) (out : List β) :
    forLoop n body out = some (out ++ (List.range n).map h) := by
  induction n with
  | zero => simp [forLoop]
  | succ n ih =>
    rw [forLoop_succ, ih (fun i hi => hbody i (by omega)), Option.some_bind,
      hbody n (by omega), List.range_succ, List.map_append, List.append_assoc]
    rfl

theorem exportV_loop {α : Type} (m : TriMesh α) (h : m.numVert ≤ m.P.length)
    (out : List (ObjLine α)) :
    forLoop m.numVert (exportV m) out =
      some (out ++ (List.range m.numVert).map (fun i => ObjLine.v (m.P[i]?).join)) := by
  apply forLoop_append
  intro i hi out
  unfold exportV
  rw [List.getElem?_eq_getElem (by omega)]
  rfl

theorem exportVT_loop {α : Type} (m : TriMesh α) (h : m.numUV ≤ m.UV.length)
    (out : List (ObjLine α)) :
    forLoop m.numUV (exportVT m) out =
      some (out ++ (List.range m.numUV).map (fun i => ObjLine.vt (m.UV[i]?).join)) := by
  apply forLoop_append
  intro i hi out
  unfold exportVT
  rw [List.getElem?_eq_getElem (by omega)]
  rfl

theorem exportVN_loop {α : Type} (m : TriMesh α) (h : m.numVert ≤ m.PN.length)
    (out : List (ObjLine α)) :
    forLoop m.numVert (exportVN m) out =
      some (out ++ (List.range m.numVert).map (fun i => ObjLine.vn (m.PN[i]?).join)) := by
  apply forLoop_append
  intro i hi out
  unfold exportVN
  rw [List.getElem?_eq_getElem (by omega)]
  rfl

theorem slotBelow_load (a : List (Option Nat)) (p bound : Nat) (h : slotBelow a p bound) :
    load a p = some (slotVal a p) ∧ slotVal a p < bound := by
  unfold slotBelow at h
  unfold slotVal
  split at h
  · rename_i x hx
    rw [hx]; exact ⟨rfl, h⟩
  · exact absurd h id

theorem toInt32_of_lt (n : Nat) (h : n < 2147483648) : toInt32 (n % U32) = (n : Int) := by
  have h1 : n % U32 = n := mod_U32_of_lt (by simp only [U32]; omega)
  unfold toInt32
  rw [h1, h1, if_pos h]

theorem exportCorner_eq {α : Type} (m : TriMesh α) (vb ub l k : Nat) (cs : List FaceCorner)
    (hl : l + k < U32) (ht : slotBelow m.triIndex (l + k) m.numVert)
    (hu : slotBelow m.UVIndices (l + k) m.numUV)
    (hvb : vb + m.numVert ≤ 2147483648) (hub : ub + m.numUV ≤ 2147483648) :
    exportCorner m vb ub l k cs =
      some (cs ++ [{ v := ((slotVal m.triIndex (l + k) + vb : Nat) : Int),
                     t := ((slotVal m.UVIndices (l + k) + ub : Nat) : Int),
                     n := ((slotVal m.triIndex (l + k) + vb : Nat) : Int) }]) := by
  obtain ⟨e1, b1⟩ := slotBelow_load _ _ _ ht
  obtain ⟨e2, b2⟩ := slotBelow_load _ _ _ hu
  unfold exportCorner
  rw [mod_U32_of_lt hl, e1, e2, Option.some_bind, Option.some_bind,
    toInt32_of_lt _ (by omega), toInt32_of_lt _ (by omega)]

theorem exportFace_eq {α : Type} (m : TriMesh α) (hm : m.Exportable) (vb ub t : Nat)
    (ht : t < m.numTris) (hvb : vb + m.numVert ≤ 2147483648)
    (hub : ub + m.numUV ≤ 2147483648) (out : List (ObjLine α)) :
    exportFace m vb ub t (3 * t, out) = some (3 * (t + 1), out ++ [faceRecord m vb ub t]) := by
  obtain ⟨-, -, -, h32, htri, huv⟩ := hm
  have h3 : ∀ body : Nat → List FaceCorner → Option (List FaceCorner),
      forLoop 3 body [] = ((body 0 []).bind (body 1)).bind (body 2) := fun _ => rfl
  unfold exportFace
  rw [h3, exportCorner_eq m vb ub (3 * t) 0 [] (by omega) (htri _ (by omega))
      (huv _ (by omega)) hvb hub, Option.some_bind,
    exportCorner_eq m vb ub (3 * t) 1 _ (by omega) (htri _ (by omega))
      (huv _ (by omega)) hvb hub, Option.some_bind,
    exportCorner_eq m vb ub (3 * t) 2 _ (by omega) (htri _ (by omega))
      (huv _ (by omega)) hvb hub, Option.some_bind]
  have e : (3 * t + 3) % U32 = 3 * (t + 1) := by
    rw [mod_U32_of_lt (by omega)]; omega
  show some ((3 * t + 3) % U32, _) = _
  rw [e]
  rfl

theorem exportFace_loop {α : Type} (m : TriMesh α) (hm : m.Exportable) (vb ub : Nat)
    (hvb : vb + m.numVert ≤ 2147483648) (hub : ub + m.numUV ≤ 2147483648)
    (out : List (ObjLine α)) (n : Nat) (hn : n ≤ m.numTris) :
    forLoop n (exportFace m vb ub) (0, out) =
      some (3 * n, out ++ (List.range n).map (faceRecord m vb ub)) := by
  induction n with
  | zero => simp [forLoop]
  | succ n ih =>
    rw [forLoop_succ, ih (by omega), Option.some_bind,
      exportFace_eq m hm vb ub n (by omega) hvb hub, List.range_succ, List.map_append,
      List.append_assoc]
    rfl

theorem exportMesh_eq {α : Type} (m : TriMesh α) (hm : m.Exportable) (s : ExportState α)
    (hvb : s.vplus + m.numVert ≤ 2147483648) (hub : s.vtplus + m.numUV ≤ 2147483648) :
    exportMesh m s = some { vplus := s.vplus + m.numVert, vtplus := s.vtplus + m.numUV,
                            out := s.out ++ groupLines m s.vplus s.vtplus } := by
  have hm2 := hm
  obtain ⟨hP, hPN, hUV, h32, htri, huv⟩ := hm2
  unfold exportMesh
  rw [exportV_loop m hP, Option.some_bind, exportVT_loop m hUV, Option.some_bind,
    exportVN_loop m hPN, Option.some_bind,
    exportFace_loop m hm s.vplus s.vtplus hvb hub _ m.numTris (Nat.le_refl _),
    Option.some_bind, mod_U32_of_lt (by simp only [U32]; omega),
    mod_U32_of_lt (by simp only [U32]; omega)]
  unfold groupLines
  by_cases hmat : m.matname ≠ ""
  · simp only [if_pos hmat, List.append_assoc]
  · simp only [if_neg hmat, List.append_assoc, List.nil_append]

theorem vertexBase_succ {α : Type} (ms : List (TriMesh α)) (i : Nat) (h : i < ms.length) :
    vertexBase ms (i + 1) = vertexBase ms i + ms[i].numVert := by
  unfold vertexBase
  rw [List.take_succ, List.map_append, List.sum_append]
  simp [h]
  omega

theorem uvBase_succ {α : Type} (ms : List (TriMesh α)) (i : Nat) (h : i < ms.length) :
    uvBase ms (i + 1) = uvBase ms i + ms[i].numUV := by
  unfold uvBase
  rw [List.take_succ, List.map_append, List.sum_append]
  simp [h]
  omega

theorem vertexBase_le {α : Type} (ms : List (TriMesh α)) (i : Nat) :
    vertexBase ms i ≤ vertexBase ms ms.length := by
  unfold vertexBase
  have h := sum_take_add_drop (ms.map TriMesh.numVert) i
  rw [← List.map_take] at h
  rw [List.take_length]
  omega

theorem uvBase_le {α : Type} (ms : List (TriMesh α)) (i : Nat) :
    uvBase ms i ≤ uvBase ms ms.length := by
  unfold uvBase
  have h := sum_take_add_drop (ms.map TriMesh.numUV) i
  rw [← List.map_take] at h
  rw [List.take_length]
  omega

theorem exportMeshes_eq {α : Type} (ms : List (TriMesh α)) (hall : ∀ m ∈ ms, m.Exportable)
    (hv : vertexBase ms ms.length ≤ 2147483648) (hu : uvBase ms ms.length ≤ 2147483648)
    (rest : List (TriMesh α)) :
    ∀ (i : Nat) (out : List (ObjLine α)), ms.drop i = rest →
      exportMeshes rest { vplus := vertexBase ms i, vtplus := uvBase ms i, out := out } =
        some { vplus := vertexBase ms ms.length, vtplus := uvBase ms ms.length,
               out := out ++ groupsFrom ms rest i } := by
  induction rest with
  | nil =>
    intro i out h
    have hi : ms.length ≤ i := by
      by_contra hc
      rw [List.drop_eq_getElem_cons (by omega)] at h
      exact List.noConfusion h
    have e1 : vertexBase ms i = vertexBase ms ms.length := by
      unfold vertexBase; rw [List.take_of_length_le hi, List.take_length]
    have e2 : uvBase ms i = uvBase ms ms.length := by
      unfold uvBase; rw [List.take_of_length_le hi, List.take_length]
    simp [exportMeshes, groupsFrom, e1, e2]
  | cons m rest ih =>
    intro i out h
    have hi : i < ms.length := by
      by_contra hc
      rw [List.drop_of_length_le (by omega)] at h
      exact List.noConfusion h
    rw [List.drop_eq_getElem_cons hi] at h
    have hm : ms[i] = m := (List.cons.inj h).1
    have hrest : ms.drop (i + 1) = rest := (List.cons.inj h).2
    have hmem : m ∈ ms := by rw [← hm]; exact List.getElem_mem hi
    have hvs := vertexBase_succ ms i hi
    have hus := uvBase_succ ms i hi
    have hvl := vertexBase_le ms (i + 1)
    have hul := uvBase_le ms (i + 1)
    rw [hm] at hvs hus
    unfold exportMeshes
    rw [exportMesh_eq m (hall m hmem) _ (by simp only []; omega) (by simp only []; omega),
      Option.some_bind]
    show exportMeshes rest (ExportState.mk (vertexBase ms i + m.numVert)
      (uvBase ms i + m.numUV) _) = _
    rw [← hvs, ← hus, ih (i + 1) _ hrest]
    simp [groupsFrom, List.append_assoc]

theorem load_eq_some {β : Type} (a : List (Option β)) (p : Nat) (x : β) (h : load a p = some x) :
    a[p]? = some (some x) := by
  unfold load at h
  split at h
  · rename_i v hv
    rw [hv, Option.some.inj h]
  · exact Option.noConfusion h

theorem objLines_eq {α : Type} (Materials : MaterialMap α) (ms : List (TriMesh α))
    (pFilename : String) (hall : ∀ m ∈ ms, m.Exportable)
    (hv : vertexBase ms ms.length ≤ 2147483648) (hu : uvBase ms ms.length ≤ 2147483648) :
    objLines Materials ms pFilename =
      some (headLines Materials pFilename ++ groupsFrom ms ms 0) := by
  have h := exportMeshes_eq ms hall hv hu ms 0 (headLines Materials pFilename) rfl
  have e1 : vertexBase ms 0 = 1 := by simp [vertexBase]
  have e2 : uvBase ms 0 = 1 := by simp [uvBase]
  rw [e1, e2] at h
  unfold objLines
  unfold headLines at h
  rw [h]
  rfl

theorem ExportOBJ_eq {α : Type} (fmt : Option α → String) (fs : FileSystem)
    (Materials : MaterialMap α) (ms : List (TriMesh α)) (pFilename : String)
    (lines : List (ObjLine α)) (hne : ms ≠ []) (hw : fs.writable pFilename = true)
    (hl : objLines Materials ms pFilename = some lines) :
    ∃ fs1, fs.writeFile pFilename (String.join (lines.map (ObjLine.text fmt))) = some fs1 ∧
      ExportOBJ fmt fs Materials ms pFilename =
        some (E_NOERROR, (WriteMaterials fmt fs1 Materials (shortFilename pFilename)).2) := by
  have hlen : ¬ ms.length = 0 := fun h => hne (List.length_eq_zero.mp h)
  have hw2 : ¬ fs.writable pFilename = false := by rw [hw]; exact Bool.noConfusion
  have hwf : ∃ fs1, fs.writeFile pFilename (String.join (lines.map (ObjLine.text fmt))) =
      some fs1 := by
    unfold FileSystem.writeFile
    rw [if_pos hw]
    exact ⟨_, rfl⟩
  obtain ⟨fs1, h1⟩ := hwf
  refine ⟨fs1, h1, ?_⟩
  unfold ExportOBJ
  rw [if_neg hlen, if_neg hw2, hl, Option.some_bind, h1, Option.some_bind]

/-- C5. For a non-empty list of printable triangle meshes whose last indices fit
`int`, `ExportOBJ` prints the header lines followed by the group of each mesh in
list order, and in the group of mesh `i` the face line of triangle `t` has the three
corners `v/t/n` with `v = n = triIndex[3t+c] + vertexBase i` and
`t = UVIndices[3t+c] + uvBase i`, where `vertexBase i` and `uvBase i` are 1 plus the
sums of `numVert` and of `numUV` of the meshes before `i`; the geometry file gets
the text of these lines. -/
theorem C5_face_record_renumbering {α : Type} (fmt : Option α → String) (fs : FileSystem)
    (Materials : MaterialMap α) (ms : List (TriMesh α)) (pFilename : String)
    (hne : ms ≠ []) (hall : ∀ m ∈ ms, m.Exportable)
    (hv : vertexBase ms ms.length ≤ 2147483648) (hu : uvBase ms ms.length ≤ 2147483648)
    (hw : fs.writable pFilename = true) :
    objLines Materials ms pFilename =
        some (headLines Materials pFilename ++ groupsFrom ms ms 0) ∧
      (∃ fs1, fs.writeFile pFilename (String.join
          ((headLines Materials pFilename ++ groupsFrom ms ms 0).map (ObjLine.text fmt))) =
            some fs1 ∧
        ExportOBJ fmt fs Materials ms pFilename =
          some (E_NOERROR, (WriteMaterials fmt fs1 Materials (shortFilename pFilename)).2)) ∧
      ∀ i m t c, ms[i]? = some m → t < m.numTris → c < 3 →
        ∃ a u : Nat, m.triIndex[3 * t + c]? = some (some a) ∧
          m.UVIndices[3 * t + c]? = some (some u) ∧
          cornerRecord m (vertexBase ms i) (uvBase ms i) t c =
            { v := ((a + (1 + ((ms.take i).map TriMesh.numVert).sum) : Nat) : Int),
              t := ((u + (1 + ((ms.take i).map TriMesh.numUV).sum) : Nat) : Int),
              n := ((a + (1 + ((ms.take i).map TriMesh.numVert).sum) : Nat) : Int) } := by
  have hl := objLines_eq Materials ms pFilename hall hv hu
  refine ⟨hl, ExportOBJ_eq fmt fs Materials ms pFilename _ hne hw hl, ?_⟩
  intro i m t c hi ht hc
  have hmem : m ∈ ms := List.mem_iff_getElem?.mpr ⟨i, hi⟩
  obtain ⟨-, -, -, -, htri, huv⟩ := hall m hmem
  obtain ⟨e1, -⟩ := slotBelow_load _ _ _ (htri (3 * t + c) (by omega))
  obtain ⟨e2, -⟩ := slotBelow_load _ _ _ (huv (3 * t + c) (by omega))
  refine ⟨_, _, load_eq_some _ _ _ e1, load_eq_some _ _ _ e2, ?_⟩
  rfl

/-- Witness of C5: `quadTriMesh` followed by `unitTriMesh`; the corner 0 of the
triangle of the second mesh is printed as `5/5/5`. -/
theorem C5_face_record_renumbering_witness :
    [quadTriMesh, unitTriMesh] ≠ [] ∧ (∀ m ∈ [quadTriMesh, unitTriMesh], m.Exportable) ∧
      vertexBase [quadTriMesh, unitTriMesh] 2 ≤ 2147483648 ∧
      uvBase [quadTriMesh, unitTriMesh] 2 ≤ 2147483648 ∧
      emptyFS.writable "a.obj" = true ∧
      cornerRecord unitTriMesh (vertexBase [quadTriMesh, unitTriMesh] 1)
        (uvBase [quadTriMesh, unitTriMesh] 1) 0 0 = { v := 5, t := 5, n := 5 } ∧
      objLines ([] : MaterialMap Int) [quadTriMesh, unitTriMesh] "a.obj" =
        some (headLines [] "a.obj" ++
          groupsFrom [quadTriMesh, unitTriMesh] [quadTriMesh, unitTriMesh] 0) := by
  have h := C5_face_record_renumbering fmtWhole emptyFS ([] : MaterialMap Int)
    [quadTriMesh, unitTriMesh] "a.obj" (by decide) (by decide) (by decide) (by decide) rfl
  exact ⟨by decide, by decide, by decide, by decide, rfl, by decide, h.1⟩

/-! ### The records that the face corners address -/

theorem filterMap_map_some {ι γ β : Type} (l : List ι) (f : ι → γ) (sel : γ → Option β)
    (h : ι → β) (hs : ∀ x, sel (f x) = some (h x)) : (l.map f).filterMap sel = l.map h := by
  induction l with
  | nil => rfl
  | cons x l ih => simp [List.filterMap_cons, hs, ih]

theorem filterMap_map_none {ι γ β : Type} (l : List ι) (f : ι → γ) (sel : γ → Option β)
    (hs : ∀ x, sel (f x) = none) : (l.map f).filterMap sel = [] := by
  induction l with
  | nil => rfl
  | cons x l ih => simp [List.filterMap_cons, hs, ih]

theorem position_groupLines {α : Type} (m : TriMesh α) (vb ub : Nat) :
    (groupLines m vb ub).filterMap ObjLine.position? =
      (List.range m.numVert).map (fun i => (m.P[i]?).join) := by
  unfold groupLines
  simp only [List.filterMap_append]
  rw [filterMap_map_some (List.range m.numVert) (fun i => ObjLine.v (m.P[i]?).join)
      ObjLine.position? (fun i => (m.P[i]?).join) (fun _ => rfl),
    filterMap_map_none (List.range m.numUV) (fun i => ObjLine.vt (m.UV[i]?).join)
      ObjLine.position? (fun _ => rfl),
    filterMap_map_none (List.range m.numVert) (fun i => ObjLine.vn (m.PN[i]?).join)
      ObjLine.position? (fun _ => rfl),
    filterMap_map_none (List.range m.numTris) (faceRecord m vb ub) ObjLine.position?
      (fun _ => rfl)]
  by_cases h : m.matname ≠ "" <;> simp [h, ObjLine.position?]

theorem normal_groupLines {α : Type} (m : TriMesh α) (vb ub : Nat) :
    (groupLines m vb ub).filterMap ObjLine.normal? =
      (List.range m.numVert).map (fun i => (m.PN[i]?).join) := by
  unfold groupLines
  simp only [List.filterMap_append]
  rw [filterMap_map_none (List.range m.numVert) (fun i => ObjLine.v (m.P[i]?).join)
      ObjLine.normal? (fun _ => rfl),
    filterMap_map_none (List.range m.numUV) (fun i => ObjLine.vt (m.UV[i]?).join)
      ObjLine.normal? (fun _ => rfl),
    filterMap_map_some (List.range m.numVert) (fun i => ObjLine.vn (m.PN[i]?).join)
      ObjLine.normal? (fun i => (m.PN[i]?).join) (fun _ => rfl),
    filterMap_map_none (List.range m.numTris) (faceRecord m vb ub) ObjLine.normal?
      (fun _ => rfl)]
  by_cases h : m.matname ≠ "" <;> simp [h, ObjLine.normal?]

theorem texcoord_groupLines {α : Type} (m : TriMesh α) (vb ub : Nat) :
    (groupLines m vb ub).filterMap ObjLine.texcoord? =
      (List.range m.numUV).map (fun i => (m.UV[i]?).join) := by
  unfold groupLines
  simp only [List.filterMap_append]
  rw [filterMap_map_none (List.range m.numVert) (fun i => ObjLine.v (m.P[i]?).join)
      ObjLine.texcoord? (fun _ => rfl),
    filterMap_map_some (List.range m.numUV) (fun i => ObjLine.vt (m.UV[i]?).join)
      ObjLine.texcoord? (fun i => (m.UV[i]?).join) (fun _ => rfl),
    filterMap_map_none (List.range m.numVert) (fun i => ObjLine.vn (m.PN[i]?).join)
      ObjLine.texcoord? (fun _ => rfl),
    filterMap_map_none (List.range m.numTris) (faceRecord m vb ub) ObjLine.texcoord?
      (fun _ => rfl)]
  by_cases h : m.matname ≠ "" <;> simp [h, ObjLine.texcoord?]

theorem flatten_getElem? {β : Type} (bs : List (List β)) (i a : Nat) (b : List β)
    (hi : bs[i]? = some b) (ha : a < b.length) :
    bs.flatten[((bs.take i).map List.length).sum + a]? = b[a]? := by
  induction bs generalizing i with
  | nil => simp at hi
  | cons x bs ih =>
    cases i with
    | zero =>
      simp only [List.getElem?_cons_zero, Option.some.injEq] at hi
      subst hi
      simp [List.getElem?_append_left ha]
    | succ i =>
      simp only [List.getElem?_cons_succ] at hi
      simp only [List.take_succ_cons, List.map_cons, List.sum_cons, List.flatten_cons]
      rw [List.getElem?_append_right (by omega)]
      rw [show x.length + ((bs.take i).map List.length).sum + a - x.length =
        ((bs.take i).map List.length).sum + a by omega]
      exact ih i hi

theorem filterMap_groupsFrom {α β : Type} (sel : ObjLine α → Option β)
    (block : TriMesh α → List β)
    (hsel : ∀ m vb ub, (groupLines m vb ub).filterMap sel = block m)
    (ms rest : List (TriMesh α)) (i : Nat) :
    (groupsFrom ms rest i).filterMap sel = (rest.map block).flatten := by
  induction rest generalizing i with
  | nil => rfl
  | cons m rest ih =>
    simp only [groupsFrom, List.filterMap_append, hsel, ih, List.map_cons, List.flatten_cons]

theorem filterMap_lines {α β : Type} (sel : ObjLine α → Option β)
    (block : TriMesh α → List β)
    (hsel : ∀ m vb ub, (groupLines m vb ub).filterMap sel = block m)
    (h1 : sel ObjLine.header = none) (h2 : ∀ s, sel (ObjLine.mtllib s) = none)
    (Materials : MaterialMap α) (pFilename : String) (ms : List (TriMesh α)) :
    (headLines Materials pFilename ++ groupsFrom ms ms 0).filterMap sel =
      (ms.map block).flatten := by
  rw [List.filterMap_append, filterMap_groupsFrom sel block hsel]
  unfold headLines
  split <;> simp [List.filterMap_cons, h1, h2]

theorem record_at {α β : Type} (block : TriMesh α → List β) (cnt : TriMesh α → Nat)
    (hlen : ∀ m, (block m).length = cnt m) (ms : List (TriMesh α)) (i a : Nat)
    (m : TriMesh α) (hi : ms[i]? = some m) (ha : a < cnt m) :
    (ms.map block).flatten[((ms.take i).map cnt).sum + a]? = (block m)[a]? := by
  have h := flatten_getElem? (ms.map block) i a (block m) (by simp [hi])
    (by rw [hlen]; exact ha)
  rw [← List.map_take, List.map_map] at h
  have e : (List.length ∘ block) = cnt := funext hlen
  rw [e] at h
  exact h

theorem faceStart_mono (fs : List Nat) (i j : Nat) (h : i ≤ j) :
    faceStart fs i ≤ faceStart fs j := by
  have e : fs.take i = (fs.take j).take i := by
    rw [List.take_take, Nat.min_eq_left h]
  have := faceStart_le (fs.take j) i
  unfold faceStart at this ⊢
  rw [e]; exact this

theorem vertexBase_eq {α : Type} (ms : List (TriMesh α)) (i : Nat) :
    vertexBase ms i = 1 + faceStart (ms.map TriMesh.numVert) i := by
  unfold vertexBase faceStart
  rw [List.map_take]

theorem uvBase_eq {α : Type} (ms : List (TriMesh α)) (i : Nat) :
    uvBase ms i = 1 + faceStart (ms.map TriMesh.numUV) i := by
  unfold uvBase faceStart
  rw [List.map_take]

theorem getElem?_lt {β : Type} (l : List β) (i : Nat) (x : β) (h : l[i]? = some x) :
    ∃ hi : i < l.length, l[i] = x := by
  have hi : i < l.length := by
    by_contra hc
    rw [List.getElem?_eq_none (by omega)] at h
    exact Option.noConfusion h
  rw [List.getElem?_eq_getElem hi] at h
  exact ⟨hi, Option.some.inj h⟩

/-- C6. For a list of printable triangle meshes (arrays as long as the counts say,
local indices in range, last indices fitting `int`) the lines that `ExportOBJ`
prints are the header lines and the groups, and for every corner of every face line
of mesh `i`, with local indices `a = triIndex[3t+c]` and `u = UVIndices[3t+c]`: the
printed position and normal index `a + vertexBase i` lies in
`[vertexBase i, vertexBase i + numVert - 1]`, the `v` line and the `vn` line of the
whole file with this number (counted from 1) print `P[a]` and `PN[a]` of mesh `i`,
and the `vt` line number `u + uvBase i` prints `UV[u]` of mesh `i`.  The intervals
of two meshes `i < j` are disjoint and in mesh order: the one of `i` ends before
`vertexBase j`, and likewise for the texture coordinates. -/
theorem C6_global_indices {α : Type} (Materials : MaterialMap α) (ms : List (TriMesh α))
    (pFilename : String) (hall : ∀ m ∈ ms, m.Exportable)
    (hv : vertexBase ms ms.length ≤ 2147483648) (hu : uvBase ms ms.length ≤ 2147483648) :
    ∃ lines, objLines Materials ms pFilename = some lines ∧
      lines = headLines Materials pFilename ++ groupsFrom ms ms 0 ∧
      (∀ i m t c, ms[i]? = some m → t < m.numTris → c < 3 →
        ∃ a u : Nat, m.triIndex[3 * t + c]? = some (some a) ∧
          m.UVIndices[3 * t + c]? = some (some u) ∧
          cornerRecord m (vertexBase ms i) (uvBase ms i) t c =
            { v := ((a + vertexBase ms i : Nat) : Int), t := ((u + uvBase ms i : Nat) : Int),
              n := ((a + vertexBase ms i : Nat) : Int) } ∧
          vertexBase ms i ≤ a + vertexBase ms i ∧
          a + vertexBase ms i ≤ vertexBase ms i + m.numVert - 1 ∧
          uvBase ms i ≤ u + uvBase ms i ∧ u + uvBase ms i ≤ uvBase ms i + m.numUV - 1 ∧
          (lines.filterMap ObjLine.position?)[a + vertexBase ms i - 1]? =
            some (m.P[a]?).join ∧
          (lines.filterMap ObjLine.normal?)[a + vertexBase ms i - 1]? =
            some (m.PN[a]?).join ∧
          (lines.filterMap ObjLine.texcoord?)[u + uvBase ms i - 1]? =
            some (m.UV[u]?).join) ∧
      (∀ i j m m', i < j → ms[i]? = some m → ms[j]? = some m' →
        vertexBase ms i + m.numVert - 1 < vertexBase ms j ∧
        uvBase ms i + m.numUV - 1 < uvBase ms j) := by
  refine ⟨_, objLines_eq Materials ms pFilename hall hv hu, rfl, ?_, ?_⟩
  · intro i m t c hi ht hc
    have hmem : m ∈ ms := List.mem_iff_getElem?.mpr ⟨i, hi⟩
    obtain ⟨-, -, -, -, htri, huv⟩ := hall m hmem
    obtain ⟨e1, b1⟩ := slotBelow_load _ _ _ (htri (3 * t + c) (by omega))
    obtain ⟨e2, b2⟩ := slotBelow_load _ _ _ (huv (3 * t + c) (by omega))
    refine ⟨_, _, load_eq_some _ _ _ e1, load_eq_some _ _ _ e2, rfl, by omega, by omega,
      by omega, by omega, ?_, ?_, ?_⟩
    · rw [filterMap_lines ObjLine.position? _ position_groupLines rfl (fun _ => rfl),
        show slotVal m.triIndex (3 * t + c) + vertexBase ms i - 1 =
          ((ms.take i).map TriMesh.numVert).sum + slotVal m.triIndex (3 * t + c) by
            unfold vertexBase; omega,
        record_at _ TriMesh.numVert (fun m => by simp) ms i _ m hi b1]
      simp [List.getElem?_range b1]
    · rw [filterMap_lines ObjLine.normal? _ normal_groupLines rfl (fun _ => rfl),
        show slotVal m.triIndex (3 * t + c) + vertexBase ms i - 1 =
          ((ms.take i).map TriMesh.numVert).sum + slotVal m.triIndex (3 * t + c) by
            unfold vertexBase; omega,
        record_at _ TriMesh.numVert (fun m => by simp) ms i _ m hi b1]
      simp [List.getElem?_range b1]
    · rw [filterMap_lines ObjLine.texcoord? _ texcoord_groupLines rfl (fun _ => rfl),
        show slotVal m.UVIndices (3 * t + c) + uvBase ms i - 1 =
          ((ms.take i).map TriMesh.numUV).sum + slotVal m.UVIndices (3 * t + c) by
            unfold uvBase; omega,
        record_at _ TriMesh.numUV (fun m => by simp) ms i _ m hi b2]
      simp [List.getElem?_range b2]
  · intro i j m m' hij hi hj
    obtain ⟨hil, him⟩ := getElem?_lt ms i m hi
    have h1 := vertexBase_succ ms i hil
    have h2 := uvBase_succ ms i hil
    rw [him] at h1 h2
    have h3 := faceStart_mono (ms.map TriMesh.numVert) (i + 1) j (by omega)
    have h4 := faceStart_mono (ms.map TriMesh.numUV) (i + 1) j (by omega)
    rw [vertexBase_eq] at h1
    rw [uvBase_eq] at h2
    rw [vertexBase_eq ms j, uvBase_eq ms j]
    have h5 := vertexBase_eq ms i
    have h6 := uvBase_eq ms i
    omega

/-- Witness of C6: with `quadTriMesh` (4 positions) followed by `unitTriMesh` (3
positions), the local vertex index 0 of the second mesh is printed as 5, and the
fifth `v` line of the file prints its position `P[0]`. -/
theorem C6_global_indices_witness :
    (∀ m ∈ [quadTriMesh, unitTriMesh], m.Exportable) ∧
      vertexBase [quadTriMesh, unitTriMesh] 2 ≤ 2147483648 ∧
      uvBase [quadTriMesh, unitTriMesh] 2 ≤ 2147483648 ∧
      ∃ lines, objLines ([] : MaterialMap Int) [quadTriMesh, unitTriMesh] "a.obj" = some lines ∧
        cornerRecord unitTriMesh (vertexBase [quadTriMesh, unitTriMesh] 1)
          (uvBase [quadTriMesh, unitTriMesh] 1) 0 0 = { v := 5, t := 5, n := 5 } ∧
        (lines.filterMap ObjLine.position?)[4]? = some (some ⟨0, 0, 0⟩) := by
  obtain ⟨lines, hl, -, h, -⟩ := C6_global_indices ([] : MaterialMap Int)
    [quadTriMesh, unitTriMesh] "a.obj" (by decide) (by decide) (by decide)
  refine ⟨by decide, by decide, by decide, lines, hl, by decide, ?_⟩
  obtain ⟨a, u, ha, -, -, -, -, -, -, hp, -⟩ := h 1 unitTriMesh 0 0 rfl (by decide) (by decide)
  have ha0 : a = 0 := by
    have : unitTriMesh.triIndex[3 * 0 + 0]? = some (some 0) := by decide
    rw [this] at ha
    exact (Option.some.inj (Option.some.inj ha)).symm
  subst ha0
  exact hp

/-! ### End to end on one triangle -/

set_option maxRecDepth 1000000 in
/-- C7, the claim as stated fails: triangulating and exporting the single triangle
gives a geometry file none of whose lines is `f 1/1/1 2/2/2 3/3/3`; its face line
is `f 1/1/1 2/2/2 3/3/3 `, with a space after the last corner. -/
theorem C7_face_line_counterexample :
    ∃ t text, TriMesh.ofPolyMesh unitTriangle = some t ∧
      (ExportOBJ fmtWhole emptyFS [] [t] "a.obj").map (fun r => (r.1, r.2.content "a.obj")) =
        some (E_NOERROR, some text) ∧
      "f 1/1/1 2/2/2 3/3/3".data ∉ List.splitOn '\n' text.data ∧
      "f 1/1/1 2/2/2 3/3/3 ".data ∈ List.splitOn '\n' text.data :=
  ⟨unitTriMesh, unitTriangleText, by decide, by decide, by decide, by decide⟩

set_option maxRecDepth 1000000 in
/-- C7, amended. The constructor turns the single triangle into `unitTriMesh`; for
every material table and path `ExportOBJ` prints for it, after the header lines,
the group line, three `v` lines, three `vt` lines, three `vn` lines and one face
line with the corners `1/1/1`, `2/2/2`, `3/3/3`; the text of that line is
`f 1/1/1 2/2/2 3/3/3 ` (a space after each corner) and a newline; without
materials the file is `unitTriangleText`, which has three lines starting with
`v `, three with `vt `, three with `vn ` and one with `f `. -/
theorem C7_single_triangle_end_to_end (fmt : Option Int → String) (Materials : MaterialMap Int)
    (pFilename : String) :
    TriMesh.ofPolyMesh unitTriangle = some unitTriMesh ∧
      objLines Materials [unitTriMesh] pFilename =
        some (headLines Materials pFilename ++
          [ObjLine.g "tri",
           ObjLine.v (some ⟨0, 0, 0⟩), ObjLine.v (some ⟨1, 0, 0⟩), ObjLine.v (some ⟨0, 1, 0⟩),
           ObjLine.vt (some ⟨0, 0⟩), ObjLine.vt (some ⟨1, 0⟩), ObjLine.vt (some ⟨0, 1⟩),
           ObjLine.vn (some ⟨0, 0, 1⟩), ObjLine.vn (some ⟨0, 0, 1⟩), ObjLine.vn (some ⟨0, 0, 1⟩),
           ObjLine.f [⟨1, 1, 1⟩, ⟨2, 2, 2⟩, ⟨3, 3, 3⟩]]) ∧
      ObjLine.text fmt (ObjLine.f [⟨1, 1, 1⟩, ⟨2, 2, 2⟩, ⟨3, 3, 3⟩]) =
        "f 1/1/1 2/2/2 3/3/3 \n" ∧
      (ExportOBJ fmtWhole emptyFS [] [unitTriMesh] "a.obj").map
          (fun r => (r.1, r.2.content "a.obj")) = some (E_NOERROR, some unitTriangleText) ∧
      (linesStartingWith unitTriangleText "v ").length = 3 ∧
      (linesStartingWith unitTriangleText "vt ").length = 3 ∧
      (linesStartingWith unitTriangleText "vn ").length = 3 ∧
      linesStartingWith unitTriangleText "f " = ["f 1/1/1 2/2/2 3/3/3 ".data] := by
  refine ⟨by decide, ?_, ?_, by decide, by decide, by decide, by decide, by decide⟩
  rotate_left
  · show "f " ++ String.join (List.map FaceCorner.text
      [⟨1, 1, 1⟩, ⟨2, 2, 2⟩, ⟨3, 3, 3⟩]) ++ "\n" = _
    decide
  rw [objLines_eq Materials [unitTriMesh] pFilename (by decide) (by decide) (by decide)]
  congr 1

/-! ### Return values of `ExportOBJ` -/

/-- C8. Called with an empty list of triangle meshes, `ExportOBJ` returns
`E_NO_MESH` and leaves the files as they were, for every material table and every
path: no file is opened, created or written. -/
theorem C8_no_mesh_writes_nothing {α : Type} (fmt : Option α → String) (fs : FileSystem)
    (Materials : MaterialMap α) (pFilename : String) :
    ExportOBJ fmt fs Materials [] pFilename = some (E_NO_MESH, fs) := rfl

theorem ExportOBJ_geometry_open_failure {α : Type} (fmt : Option α → String) (fs : FileSystem)
    (Materials : MaterialMap α) (ms : List (TriMesh α)) (pFilename : String) (hne : ms ≠ [])
    (hw : fs.writable pFilename = false) :
    ExportOBJ fmt fs Materials ms pFilename = some (E_FAILOPENFILE, fs) := by
  have hlen : ¬ ms.length = 0 := fun h => hne (List.length_eq_zero.mp h)
  unfold ExportOBJ
  rw [if_neg hlen, if_pos hw]

set_option maxRecDepth 1000000 in
/-- C9, the code at the failing input: one mesh, one material, the geometry file
`a.obj` can be opened and the material file `a.mtl` cannot.  `WriteMaterials`
returns -1, `ExportOBJ` drops this value and returns `E_NOERROR`; the geometry file
is written and no material file exists. -/
theorem C9_material_open_failure_returns_success :
    noMtlFS.writable "a.obj" = true ∧ noMtlFS.writable (shortFilename "a.obj" ++ ".mtl") = false ∧
      (WriteMaterials fmtWhole noMtlFS [("m", someMaterial)] (shortFilename "a.obj")).1 = -1 ∧
      (ExportOBJ fmtWhole noMtlFS [("m", someMaterial)] [unitTriMesh] "a.obj").map
          (fun r => (r.1, r.2.content "a.mtl", r.2.opened)) =
        some (E_NOERROR, none, ["a.obj"]) ∧
      E_NOERROR ≠ E_FAILOPENFILE := by
  refine ⟨by decide, by decide, by decide, by decide, by decide⟩

/-! ### The material table -/

theorem find_assign {α : Type} (T : MaterialMap α) (k : String) (v : Material α) (q : String) :
    (T.assign k v).find q = if q = k then some v else T.find q := by
  induction T with
  | nil => simp [MaterialMap.assign, MaterialMap.find]
  | cons e T ih =>
    obtain ⟨k', v'⟩ := e
    unfold MaterialMap.assign
    by_cases h1 : k < k'
    · rw [if_pos h1]
      simp [MaterialMap.find]
    · rw [if_neg h1]
      by_cases h2 : k = k'
      · rw [if_pos h2]
        subst h2
        by_cases hq : q = k <;> simp [MaterialMap.find, hq]
      · rw [if_neg h2]
        by_cases hq : q = k'
        · have : ¬ q = k := fun e => h2 (e ▸ hq)
          simp [MaterialMap.find, hq, this, Ne.symm h2]
        · simp [MaterialMap.find, hq, ih]

theorem find_extractOne {α : Type} (ops : ScalarOps α) (T : MaterialMap α) (i : Nat)
    (r : FbxSurfaceMaterial α) (q : String) :
    (extractOne ops T i r).find q =
      match T.find q with
      | some m => some m
      | none => if r.name = q then buildMaterial ops i r else none := by
  unfold extractOne
  cases hT : T.find r.name with
  | some x =>
    simp only []
    cases hq : T.find q with
    | some m => rfl
    | none =>
      simp only []
      by_cases e : r.name = q
      · rw [e, hq] at hT; exact Option.noConfusion hT
      · rw [if_neg e]
  | none =>
    simp only []
    cases hb : buildMaterial ops i r with
    | some p =>
      simp only []
      rw [find_assign]
      by_cases e : q = r.name
      · rw [if_pos e, e, hT]
        simp
      · rw [if_neg e]
        cases hq : T.find q with
        | some m => rfl
        | none => simp [Ne.symm e]
    | none =>
      simp only []
      cases hq : T.find q with
      | some m => rfl
      | none => by_cases e : r.name = q <;> simp [e]

theorem buildMaterial_eq_none {α : Type} (ops : ScalarOps α) (i : Nat)
    (r : FbxSurfaceMaterial α) : buildMaterial ops i r = none ↔ r.classId = ShadingClass.other := by
  unfold buildMaterial
  cases r.classId <;> simp

theorem find_extractFrom {α : Type} (ops : ScalarOps α) (mats : List (FbxSurfaceMaterial α))
    (start : Nat) (T : MaterialMap α) (q : String) :
    (extractFrom ops mats start T).find q =
      match T.find q with
      | some m => some m
      | none =>
        ((mats.enumFrom start).find? fun p =>
          p.2.name = q ∧ p.2.classId ≠ ShadingClass.other).bind
            fun p => buildMaterial ops p.1 p.2 := by
  induction mats generalizing start T with
  | nil =>
    simp only [extractFrom, List.enumFrom_nil, List.find?_nil, Option.none_bind]
    cases T.find q <;> rfl
  | cons r rest ih =>
    unfold extractFrom
    rw [ih, find_extractOne]
    cases hq : T.find q with
    | some m => rfl
    | none =>
      simp only [List.enumFrom_cons, List.find?_cons]
      by_cases e : r.name = q
      · rw [if_pos e]
        cases hb : buildMaterial ops start r with
        | some p =>
          have hc : r.classId ≠ ShadingClass.other := fun h =>
            Option.noConfusion (((buildMaterial_eq_none ops start r).mpr h) ▸ hb)
          simp [e, hc, hb]
        | none =>
          have hc : r.classId = ShadingClass.other := (buildMaterial_eq_none ops start r).mp hb
          simp [e, hc]
      · rw [if_neg e]
        simp [e]

/-- C10, the claim as stated fails: in the sequence `unsupportedA`, `bluePhong` the
first material named `A` has an unsupported shading model and builds nothing, and
the table ends with an entry `A` built from the second material (position 1, its
diffuse colour): the later material of the same name is inserted, not ignored. -/
theorem C10_first_occurrence_counterexample :
    firstNamed [unsupportedA, bluePhong] "A" = some (0, unsupportedA) ∧
      buildMaterial wholeOps 0 unsupportedA = none ∧
      (ExtractMaterial wholeOps [unsupportedA, bluePhong] []).find "A" =
        buildMaterial wholeOps 1 bluePhong ∧
      ((ExtractMaterial wholeOps [unsupportedA, bluePhong] []).find "A").map
        (fun m => (m.index, m.Kd)) = some (1, bluePhong.Diffuse) := by
  refine ⟨by decide, by decide, by decide, by decide⟩

/-- C10, amended. After `ExtractMaterial` the entry of a name is the one the table
already had, if any; otherwise it is the material built from the first material
of the sequence that has this name and a supported shading model (Phong or
Lambert), with its position as `index`, and there is no entry when the sequence has
no such material.  Later materials of the same name change nothing.  For two Phong
materials named `A` with different diffuse colours the table keeps the diffuse
colour of the first. -/
theorem C10_first_supported_occurrence_wins {α : Type} (ops : ScalarOps α)
    (nodeMaterials : List (FbxSurfaceMaterial α)) (Materials : MaterialMap α) (name : String) :
    ((ExtractMaterial ops nodeMaterials Materials).find name =
      match Materials.find name with
      | some m => some m
      | none => (firstSupported nodeMaterials name).bind fun p => buildMaterial ops p.1 p.2) ∧
    (∀ later : List (FbxSurfaceMaterial α),
      (firstSupported nodeMaterials name).isSome = true →
      (ExtractMaterial ops (nodeMaterials ++ later) Materials).find name =
        (ExtractMaterial ops nodeMaterials Materials).find name) ∧
    ((ExtractMaterial wholeOps [redPhong, bluePhong] []).find "A").map
      (fun m => (m.index, m.Kd)) = some (0, redPhong.Diffuse) := by
  have key : ∀ mats : List (FbxSurfaceMaterial α),
      (ExtractMaterial ops mats Materials).find name =
        match Materials.find name with
        | some m => some m
        | none => (firstSupported mats name).bind fun p => buildMaterial ops p.1 p.2 :=
    fun mats => find_extractFrom ops mats 0 Materials name
  refine ⟨key _, ?_, by decide⟩
  intro later hs
  rw [key, key]
  cases Materials.find name with
  | some m => rfl
  | none =>
    simp only []
    obtain ⟨p, hp⟩ := Option.isSome_iff_exists.mp hs
    have : firstSupported (nodeMaterials ++ later) name = some p := by
      unfold firstSupported at hp ⊢
      rw [List.enum, List.enumFrom_append, List.find?_append]
      rw [List.enum] at hp
      rw [hp]
      rfl
    rw [this, hp]

/-- Witness of C10: `redPhong` followed by `unsupportedA` and `bluePhong`. -/
theorem C10_first_supported_occurrence_wins_witness :
    (firstSupported [redPhong] "A").isSome = true ∧
      (ExtractMaterial wholeOps ([redPhong] ++ [unsupportedA, bluePhong]) []).find "A" =
        (ExtractMaterial wholeOps [redPhong] []).find "A" :=
  ⟨by decide, (C10_first_supported_occurrence_wins wholeOps [redPhong] [] "A").2.1
    [unsupportedA, bluePhong] (by decide)⟩

/-! ### Unsupported shading models -/

theorem extractOne_unsupported {α : Type} (ops : ScalarOps α) (T : MaterialMap α) (i : Nat)
    (r : FbxSurfaceMaterial α) (hr : r.classId = ShadingClass.other) :
    extractOne ops T i r = T := by
  have hb : buildMaterial ops i r = none := (buildMaterial_eq_none ops i r).mpr hr
  unfold extractOne
  rw [hb]
  cases T.find r.name <;> rfl

theorem find_extractFrom_none {α : Type} (ops : ScalarOps α) (name : String)
    (mats : List (FbxSurfaceMaterial α)) (start : Nat) (T : MaterialMap α)
    (hT : T.find name = none)
    (hall : ∀ m ∈ mats, m.name = name → m.classId = ShadingClass.other) :
    (extractFrom ops mats start T).find name = none := by
  induction mats generalizing start T with
  | nil => exact hT
  | cons r rest ih =>
    unfold extractFrom
    apply ih
    · rw [find_extractOne, hT]
      by_cases e : r.name = name
      · have hc := hall r (by simp) e
        simp [e, (buildMaterial_eq_none ops start r).mpr hc]
      · simp [e]
    · exact fun m hm => hall m (by simp [hm])

/-- C11. A material whose shading model is neither Phong nor Lambert leaves the
table as it is, whatever the table and the position; the loop goes on with the
materials after it; and after `ExtractMaterial` a name that was not in the table and
that occurs in the sequence only with unsupported shading models is not in the
table. -/
theorem C11_unsupported_material_skipped {α : Type} (ops : ScalarOps α)
    (r : FbxSurfaceMaterial α) (hr : r.classId = ShadingClass.other) :
    (∀ (T : MaterialMap α) (lCount : Nat), extractOne ops T lCount r = T) ∧
    (∀ (rest : List (FbxSurfaceMaterial α)) (lCount : Nat) (T : MaterialMap α),
      extractFrom ops (r :: rest) lCount T = extractFrom ops rest (lCount + 1) T) ∧
    (∀ (nodeMaterials : List (FbxSurfaceMaterial α)) (T : MaterialMap α) (name : String),
      T.find name = none →
      (∀ m ∈ nodeMaterials, m.name = name → m.classId = ShadingClass.other) →
      (ExtractMaterial ops nodeMaterials T).find name = none) := by
  refine ⟨fun T i => extractOne_unsupported ops T i r hr, ?_, ?_⟩
  · intro rest i T
    show extractFrom ops rest (i + 1) (extractOne ops T i r) = _
    rw [extractOne_unsupported ops T i r hr]
  · intro mats T name hT hall
    exact find_extractFrom_none ops name mats 0 T hT hall

/-- Witness of C11: `unsupportedA` before `redPhong`; the table gets `A` from
`redPhong` at position 1, and a sequence with `unsupportedA` alone leaves the table
empty. -/
theorem C11_unsupported_material_skipped_witness :
    unsupportedA.classId = ShadingClass.other ∧
      extractFrom wholeOps [unsupportedA, redPhong] 0 [] = extractFrom wholeOps [redPhong] 1 [] ∧
      (ExtractMaterial wholeOps [unsupportedA] []).find "A" = none := by
  have h := C11_unsupported_material_skipped wholeOps unsupportedA rfl
  exact ⟨rfl, h.2.1 [redPhong] 0 [], h.2.2 [unsupportedA] [] "A" rfl (by decide)⟩

/-! ### Faces of fewer than 3 corners -/

theorem countedTris_succ (fs : List Nat) (i : Nat) (h : i < fs.length) :
    countedTris fs (i + 1) = (countedTris fs i + sub2Wrapped fs[i]) % U32 := by
  unfold countedTris
  rw [List.take_succ, List.map_append, List.sum_append]
  rw [List.getElem?_eq_getElem h]
  simp only [Option.toList, List.map_cons, List.map_nil, List.sum_singleton]
  exact (Nat.mod_add_mod _ _ _).symm

theorem countFace_loop_wrapped {α : Type} (pm : PolyMesh α)
    (hn : pm.FaceIndices.length = pm.nFaces)
    (hvl : pm.VertsIndices.length = pm.FaceIndices.sum)
    (hul : pm.UVIndices.length = pm.FaceIndices.sum)
    (h32 : pm.FaceIndices.sum < U32) (i : Nat) (hi : i ≤ pm.nFaces) :
    forLoop i (countFace pm) { numTris := 0, k := 0, maxVertIndex := 0, maxUVIndex := 0 } =
      some { numTris := countedTris pm.FaceIndices i, k := faceStart pm.FaceIndices i,
             maxVertIndex := maxUpTo pm.VertsIndices (faceStart pm.FaceIndices i),
             maxUVIndex := maxUpTo pm.UVIndices (faceStart pm.FaceIndices i) } := by
  induction i with
  | zero => simp [forLoop, countedTris, faceStart, maxUpTo]
  | succ i ih =>
    have hlt : i < pm.FaceIndices.length := by omega
    have hfs := faceStart_succ pm.FaceIndices i hlt
    have hts := countedTris_succ pm.FaceIndices i hlt
    have hle := faceStart_le pm.FaceIndices (i + 1)
    rw [forLoop_succ, ih (by omega)]
    simp only [Option.bind, countFace, bind, List.getElem?_eq_getElem hlt]
    rw [countCorner_loop pm _ _ (by simp only []; omega) (by omega)
      (by omega) rfl rfl]
    simp only [Option.some.injEq, CountState.mk.injEq]
    refine ⟨?_, ?_, ?_, ?_⟩
    · rw [hts]; unfold sub2Wrapped; rfl
    · rw [hfs]; exact mod_U32_of_lt (by omega)
    · rw [hfs]
    · rw [hfs]

theorem countFace_loop_segments {α : Type} (pm : PolyMesh α) (hs : pm.SegmentsAllowed)
    (i : Nat) (hi : i ≤ pm.nFaces) :
    forLoop i (countFace pm) { numTris := 0, k := 0, maxVertIndex := 0, maxUVIndex := 0 } =
      some { numTris := triStart pm.FaceIndices i, k := faceStart pm.FaceIndices i,
             maxVertIndex := maxUpTo pm.VertsIndices (faceStart pm.FaceIndices i),
             maxUVIndex := maxUpTo pm.UVIndices (faceStart pm.FaceIndices i) } := by
  obtain ⟨hn, hf2, hvl, hul, -, -, -, -, h32, hsum, -, -⟩ := hs
  induction i with
  | zero => simp [forLoop, triStart, faceStart, maxUpTo]
  | succ i ih =>
    have hlt : i < pm.FaceIndices.length := by omega
    have hfi : 2 ≤ pm.FaceIndices[i] := hf2 _ (List.getElem_mem hlt)
    have hfs := faceStart_succ pm.FaceIndices i hlt
    have hts := triStart_succ pm.FaceIndices i hlt
    have hle := faceStart_le pm.FaceIndices (i + 1)
    have htl := triStart_le pm.FaceIndices (i + 1)
    rw [forLoop_succ, ih (by omega)]
    simp only [Option.bind, countFace, bind, List.getElem?_eq_getElem hlt]
    rw [countCorner_loop pm _ _ (by simp only []; omega) (by omega)
      (by simp only [U32] at *; omega) rfl rfl]
    simp only [Option.some.injEq, CountState.mk.injEq]
    refine ⟨?_, ?_, ?_, ?_⟩
    · simp only [U32] at *; omega
    · simp only [U32] at *; omega
    · rw [hfs]
    · rw [hfs]

theorem emitFace_loop_segments {α : Type} (pm : PolyMesh α) (hs : pm.SegmentsAllowed)
    (n3 nV nU : Nat)
    (hn3 : 3 * (pm.FaceIndices.map (fun f => f - 2)).sum ≤ n3) (hn32 : n3 < U32)
    (hv : ∀ v ∈ pm.VertsIndices, v < nV) (hu : ∀ u ∈ pm.UVIndices, u < nU)
    (i : Nat) (hi : i ≤ pm.nFaces) :
    forLoop i (emitFace pm) (emitStateAt pm n3 nV nU [] 0) =
      some (emitStateAt pm n3 nV nU (emitted pm.FaceIndices i) (faceStart pm.FaceIndices i)) := by
  obtain ⟨hn, hf2, hvl, hul, hnl, htl, -, -, h32, hsum, -, -⟩ := hs
  induction i with
  | zero => simp [forLoop, emitted, faceStart]
  | succ i ih =>
    have hlt : i < pm.FaceIndices.length := by omega
    have hfi : 2 ≤ pm.FaceIndices[i] := hf2 _ (List.getElem_mem hlt)
    have hfs := faceStart_succ pm.FaceIndices i hlt
    have hts := triStart_succ pm.FaceIndices i hlt
    have hle := faceStart_le pm.FaceIndices (i + 1)
    have htl := triStart_le pm.FaceIndices (i + 1)
    have hel := emitted_length pm.FaceIndices i (by omega)
    have hm : (pm.FaceIndices[i] + U32 - 2) % U32 = pm.FaceIndices[i] - 2 := by
      simp only [U32] at *; omega
    have hk : (faceStart pm.FaceIndices i + pm.FaceIndices[i]) % U32 =
        faceStart pm.FaceIndices i + pm.FaceIndices[i] :=
      mod_U32_of_lt (by simp only [U32] at *; omega)
    rw [forLoop_succ, ih (by omega), Option.some_bind,
      emitFace_eq pm i _ _ (List.getElem?_eq_getElem hlt), hm,
      emitTriangle_loop pm n3 nV nU _ _ _ (by omega) (by omega) (by omega) (by omega)
        (by simp only [U32] at *; omega) (by omega) hn32 hv hu,
      Option.some_bind, emitted_succ _ _ hlt, hfs]
    show some (EmitState.mk _ _ _ _ _ _ _ _) = _
    rw [show (emitStateAt pm n3 nV nU (emitted pm.FaceIndices i ++
        fanCorners (faceStart pm.FaceIndices i) (pm.FaceIndices[i] - 2))
        (faceStart pm.FaceIndices i)).k = faceStart pm.FaceIndices i from rfl, hk]
    rfl

theorem allocateAndEmit_closedForm_segments {α : Type} (pm : PolyMesh α)
    (hs : pm.SegmentsAllowed) :
    TriMesh.allocateAndEmit pm ((pm.FaceIndices.map (fun f => f - 2)).sum)
      (maxUpTo pm.VertsIndices pm.VertsIndices.length + 1)
      (maxUpTo pm.UVIndices pm.UVIndices.length + 1) = some (TriMesh.closedForm pm) := by
  have hs2 := hs
  obtain ⟨hn, hf2, hvl, hul, hnl, htl, ⟨hV0, hVl⟩, hvV, h32, hsum, hV32, hu32⟩ := hs2
  have hmV := maxUpTo_lt pm.VertsIndices pm.VertsIndices.length _ hV0 hvV
  have hvV2 : ∀ v ∈ pm.VertsIndices, v < maxUpTo pm.VertsIndices pm.VertsIndices.length + 1 :=
    fun v hv => Nat.lt_succ_of_le (le_maxUpTo _ _ v (by simpa using hv))
  have huU2 : ∀ u ∈ pm.UVIndices, u < maxUpTo pm.UVIndices pm.UVIndices.length + 1 :=
    fun u hu => Nat.lt_succ_of_le (le_maxUpTo _ _ u (by simpa using hu))
  have hm3 : ((pm.FaceIndices.map (fun f => f - 2)).sum * 3) % U32 =
      3 * (pm.FaceIndices.map (fun f => f - 2)).sum := by
    rw [Nat.mul_comm]; exact mod_U32_of_lt h32
  have hinit : TriMesh.emitInit α ((pm.FaceIndices.map (fun f => f - 2)).sum)
        (maxUpTo pm.VertsIndices pm.VertsIndices.length + 1)
        (maxUpTo pm.UVIndices pm.UVIndices.length + 1) =
      emitStateAt pm (3 * (pm.FaceIndices.map (fun f => f - 2)).sum)
        (maxUpTo pm.VertsIndices pm.VertsIndices.length + 1)
        (maxUpTo pm.UVIndices pm.UVIndices.length + 1) [] 0 := by
    unfold TriMesh.emitInit
    rw [hm3]
    simp [emitStateAt, filled, scattered]
  unfold TriMesh.allocateAndEmit
  rw [copyVert_loop pm _ _ (Nat.le_refl _) (by omega), Option.some_bind, hinit,
    emitFace_loop_segments pm hs _ _ _ (Nat.le_refl _) h32 hvV2 huU2 pm.nFaces (Nat.le_refl _),
    Option.some_bind]
  simp [TriMesh.closedForm, emitStateAt]

theorem ofPolyMesh_closedForm_segments {α : Type} (pm : PolyMesh α)
    (hs : pm.SegmentsAllowed) : TriMesh.ofPolyMesh pm = some (TriMesh.closedForm pm) := by
  have hs2 := hs
  obtain ⟨hn, hf2, hvl, hul, hnl, htl, ⟨hV0, hVl⟩, hvV, h32, hsum, hV32, hu32⟩ := hs2
  have hfsN : faceStart pm.FaceIndices pm.nFaces = pm.FaceIndices.sum := by
    rw [← hn]; exact faceStart_length _
  have htsN : triStart pm.FaceIndices pm.nFaces = (pm.FaceIndices.map (fun f => f - 2)).sum := by
    rw [← hn]; exact triStart_length _
  have hmV := maxUpTo_lt pm.VertsIndices pm.VertsIndices.length _ hV0 hvV
  have hmU := maxUpTo_lt pm.UVIndices pm.UVIndices.length (U32 - 1) (by decide)
    (fun u hu => by have := hu32 u hu; omega)
  unfold TriMesh.ofPolyMesh
  rw [countFace_loop_segments pm hs pm.nFaces (Nat.le_refl _), Option.some_bind]
  show TriMesh.allocateAndEmit pm (triStart pm.FaceIndices pm.nFaces)
    ((maxUpTo pm.VertsIndices (faceStart pm.FaceIndices pm.nFaces) + 1) % U32)
    ((maxUpTo pm.UVIndices (faceStart pm.FaceIndices pm.nFaces) + 1) % U32) = _
  have a1 : maxUpTo pm.VertsIndices (faceStart pm.FaceIndices pm.nFaces) =
      maxUpTo pm.VertsIndices pm.VertsIndices.length := by rw [hfsN, hvl]
  have a2 : maxUpTo pm.UVIndices (faceStart pm.FaceIndices pm.nFaces) =
      maxUpTo pm.UVIndices pm.UVIndices.length := by rw [hfsN, hul]
  rw [htsN, a1, a2, mod_U32_of_lt (by omega), mod_U32_of_lt (by omega)]
  exact allocateAndEmit_closedForm_segments pm hs

theorem emitted_triangle_of_length {α : Type} (pm : PolyMesh α)
    (hn : pm.FaceIndices.length = pm.nFaces) (i n j : Nat)
    (hi : pm.FaceIndices[i]? = some n) (hj : j + 2 < n) :
    (emitted pm.FaceIndices pm.nFaces)[3 * (triStart pm.FaceIndices i + j)]? =
        some (faceStart pm.FaceIndices i) ∧
      (emitted pm.FaceIndices pm.nFaces)[3 * (triStart pm.FaceIndices i + j) + 1]? =
        some (faceStart pm.FaceIndices i + j + 1) ∧
      (emitted pm.FaceIndices pm.nFaces)[3 * (triStart pm.FaceIndices i + j) + 2]? =
        some (faceStart pm.FaceIndices i + j + 2) ∧
      faceStart pm.FaceIndices i + j + 2 < pm.FaceIndices.sum := by
  have hlt : i < pm.FaceIndices.length := by
    by_contra hc
    rw [List.getElem?_eq_none (by omega)] at hi
    exact Option.noConfusion hi
  have hn2 : pm.FaceIndices[i] = n := by
    rw [List.getElem?_eq_getElem hlt] at hi
    exact Option.some.inj hi
  have hfs := faceStart_succ pm.FaceIndices i hlt
  have hle := faceStart_le pm.FaceIndices (i + 1)
  obtain ⟨f0, f1, f2⟩ := fanCorners_getElem? (faceStart pm.FaceIndices i) (n - 2) j (by omega)
  have g := fun p hp => emitted_getElem? pm.FaceIndices i hlt pm.nFaces (by omega) (by omega) p hp
  rw [hn2] at g
  refine ⟨?_, ?_, ?_, by omega⟩
  · rw [← f0, ← g (3 * j) (by omega)]; congr 1; omega
  · rw [← f1, ← g (3 * j + 1) (by omega)]; congr 1; omega
  · rw [← f2, ← g (3 * j + 2) (by omega)]; congr 1; omega

/-- C12, the claim as stated fails: `segmentThenTriangle` contains a face of 2
corners and the constructor returns a triangle mesh for it, the mesh of the
triangle that follows; there is no error result. -/
theorem C12_malformed_face_counterexample :
    2 ∈ segmentThenTriangle.FaceIndices ∧
      ∃ t, TriMesh.ofPolyMesh segmentThenTriangle = some t ∧ t.numTris = 1 ∧
        t.triIndex = [some 0, some 1, some 2] :=
  ⟨by decide, _, rfl, by decide, by decide⟩

/-- C12, amended. Whatever the sizes of the faces, on a record with `nFaces` faces
whose corner index arrays have `sum(faceSizes) < 2^32` entries the counting loop
completes and leaves in `numTris` the sum of the `faceSizes[i] - 2` with unsigned
wraparound: a face of 2 corners adds 0, a face of 1 corner adds `2^32 - 1`, a face
without corners `2^32 - 2`; a face of 1 corner followed by a triangle is counted
as 0 triangles.  On every such record whose faces have at least 2 corners and that
is otherwise in bounds (`SegmentsAllowed`) the constructor returns a triangle mesh
with `sum(faceSizes[i] - 2)` triangles, whose `triIndex`, `UVIndices`, `N` and `T`
are filled from the corners `emitted`: a face of 2 corners has an empty range of
triangles and adds no corner to `emitted`, and every other face is triangulated as
a fan, triangle `j` of face `i` taking the flat corners `k`, `k + j + 1`,
`k + j + 2`. -/
theorem C12_triangle_count_wraps {α : Type} (pm : PolyMesh α)
    (hn : pm.FaceIndices.length = pm.nFaces)
    (hvl : pm.VertsIndices.length = pm.FaceIndices.sum)
    (hul : pm.UVIndices.length = pm.FaceIndices.sum)
    (h32 : pm.FaceIndices.sum < U32) :
    (∃ c, forLoop pm.nFaces (countFace pm)
        { numTris := 0, k := 0, maxVertIndex := 0, maxUVIndex := 0 } = some c ∧
      c.numTris = (pm.FaceIndices.map sub2Wrapped).sum % U32) ∧
    sub2Wrapped 2 = 0 ∧ sub2Wrapped 1 = 4294967295 ∧ sub2Wrapped 0 = 4294967294 ∧
    (forLoop pointThenTriangle.nFaces (countFace pointThenTriangle)
        { numTris := 0, k := 0, maxVertIndex := 0, maxUVIndex := 0 }).map CountState.numTris =
      some 0 ∧
    (TriMesh.ofPolyMesh segmentThenTriangle).map TriMesh.numTris = some 1 ∧
    (pm.SegmentsAllowed →
      ∃ t, TriMesh.ofPolyMesh pm = some t ∧
        t.numTris = (pm.FaceIndices.map (fun f => f - 2)).sum ∧
        t.triIndex = filled pm.VertsIndices (3 * t.numTris) (emitted pm.FaceIndices pm.nFaces) ∧
        t.UVIndices = filled pm.UVIndices (3 * t.numTris) (emitted pm.FaceIndices pm.nFaces) ∧
        t.N = filled pm.Normals (3 * t.numTris) (emitted pm.FaceIndices pm.nFaces) ∧
        t.T = filled pm.UVs (3 * t.numTris) (emitted pm.FaceIndices pm.nFaces) ∧
        (∀ i, pm.FaceIndices[i]? = some 2 →
          triStart pm.FaceIndices (i + 1) = triStart pm.FaceIndices i ∧
          emitted pm.FaceIndices (i + 1) = emitted pm.FaceIndices i) ∧
        ∀ i n j, pm.FaceIndices[i]? = some n → j + 2 < n →
          triStart pm.FaceIndices (i + 1) = triStart pm.FaceIndices i + (n - 2) ∧
          TriangleFrom t.triIndex pm.VertsIndices (3 * (triStart pm.FaceIndices i + j))
            (faceStart pm.FaceIndices i) (faceStart pm.FaceIndices i + j + 1)
            (faceStart pm.FaceIndices i + j + 2) ∧
          TriangleFrom t.UVIndices pm.UVIndices (3 * (triStart pm.FaceIndices i + j))
            (faceStart pm.FaceIndices i) (faceStart pm.FaceIndices i + j + 1)
            (faceStart pm.FaceIndices i + j + 2) ∧
          TriangleFrom t.N pm.Normals (3 * (triStart pm.FaceIndices i + j))
            (faceStart pm.FaceIndices i) (faceStart pm.FaceIndices i + j + 1)
            (faceStart pm.FaceIndices i + j + 2) ∧
          TriangleFrom t.T pm.UVs (3 * (triStart pm.FaceIndices i + j))
            (faceStart pm.FaceIndices i) (faceStart pm.FaceIndices i + j + 1)
            (faceStart pm.FaceIndices i + j + 2)) := by
  refine ⟨⟨_, countFace_loop_wrapped pm hn hvl hul h32 pm.nFaces (Nat.le_refl _), ?_⟩,
    by decide, by decide, by decide, by decide, by decide, ?_⟩
  · show countedTris pm.FaceIndices pm.nFaces = _
    unfold countedTris
    rw [← hn, List.take_length]
  · intro hs
    refine ⟨TriMesh.closedForm pm, ofPolyMesh_closedForm_segments pm hs, rfl, rfl, rfl, rfl, rfl,
      ?_, ?_⟩
    · intro i hi
      have hlt : i < pm.FaceIndices.length := by
        by_contra hc
        rw [List.getElem?_eq_none (by omega)] at hi
        exact Option.noConfusion hi
      have h2 : pm.FaceIndices[i] = 2 := by
        rw [List.getElem?_eq_getElem hlt] at hi
        exact Option.some.inj hi
      refine ⟨by rw [triStart_succ _ _ hlt, h2]; rfl, ?_⟩
      rw [emitted_succ _ _ hlt, h2]
      simp [fanCorners]
    · intro i n j hi hj
      obtain ⟨e0, e1, e2, hb⟩ := emitted_triangle_of_length pm hn i n j hi hj
      obtain ⟨-, -, -, -, hnl, htl, -⟩ := hs
      have hlt : i < pm.FaceIndices.length := by
        by_contra hc
        rw [List.getElem?_eq_none (by omega)] at hi
        exact Option.noConfusion hi
      have hn2 : pm.FaceIndices[i] = n := by
        rw [List.getElem?_eq_getElem hlt] at hi
        exact Option.some.inj hi
      refine ⟨by rw [triStart_succ _ _ hlt, hn2], ?_, ?_, ?_, ?_⟩
      · exact triangleFrom_filled _ _ _ _ _ _ _ e0 e1 e2 (by omega) (by omega) (by omega)
      · exact triangleFrom_filled _ _ _ _ _ _ _ e0 e1 e2 (by omega) (by omega) (by omega)
      · exact triangleFrom_filled _ _ _ _ _ _ _ e0 e1 e2 (by omega) (by omega) (by omega)
      · exact triangleFrom_filled _ _ _ _ _ _ _ e0 e1 e2 (by omega) (by omega) (by omega)

/-- Witness of C12 on `segmentThenTriangle`, a face of 2 corners followed by a
triangle: the counting loop ends with `numTris = 0 + 1`, the face of 2 corners has
no triangle, and the one triangle of the mesh takes the flat corners 2, 3, 4 of
the face that follows. -/
theorem C12_triangle_count_wraps_witness :
    segmentThenTriangle.FaceIndices.length = segmentThenTriangle.nFaces ∧
      segmentThenTriangle.VertsIndices.length = segmentThenTriangle.FaceIndices.sum ∧
      segmentThenTriangle.UVIndices.length = segmentThenTriangle.FaceIndices.sum ∧
      segmentThenTriangle.FaceIndices.sum < U32 ∧
      segmentThenTriangle.SegmentsAllowed ∧
      segmentThenTriangle.FaceIndices = [2, 3] ∧
      (∃ c, forLoop segmentThenTriangle.nFaces (countFace segmentThenTriangle)
          { numTris := 0, k := 0, maxVertIndex := 0, maxUVIndex := 0 } = some c ∧
        c.numTris = (0 + 1) % U32) ∧
      ∃ t, TriMesh.ofPolyMesh segmentThenTriangle = some t ∧ t.numTris = 1 ∧
        triStart segmentThenTriangle.FaceIndices 1 = triStart segmentThenTriangle.FaceIndices 0 ∧
        TriangleFrom t.triIndex segmentThenTriangle.VertsIndices 0 2 3 4 := by
  have h := C12_triangle_count_wraps segmentThenTriangle (by decide) (by decide)
    (by decide) (by decide)
  obtain ⟨c, hc, hn⟩ := h.1
  obtain ⟨t, ht, hnum, -, -, -, -, hseg, htri⟩ := h.2.2.2.2.2.2 (by decide)
  exact ⟨by decide, by decide, by decide, by decide, by decide, rfl,
    ⟨c, hc, by rw [hn]; decide⟩, t, ht, by rw [hnum]; decide, (hseg 0 rfl).1,
    (htri 1 3 0 rfl (by decide)).2.1⟩

/-! ### Positions of unreferenced vertices -/

/-- C13, the claim as stated fails: vertex 1 of `sparseMesh` is referenced by no
corner, its index is below `numVert = 10`, and its slot of `P` holds the source
position `(1, 0, 0)`: it is written, and not zero. -/
theorem C13_unreferenced_position_counterexample :
    1 ∉ sparseMesh.VertsIndices ∧ sparseMesh.Verts[1]? = some ⟨1, 0, 0⟩ ∧
      ∃ t, TriMesh.ofPolyMesh sparseMesh = some t ∧ 1 < t.numVert ∧
        t.P[1]? = some (some ⟨1, 0, 0⟩) :=
  ⟨by decide, by decide, TriMesh.closedForm sparseMesh, ofPolyMesh_closedForm _ (by decide),
    by decide, by decide⟩

/-- C13, amended. On a well-formed polygon mesh every slot of `P` below
`numVert = 1 + max(VertsIndices)` holds the source position `Verts[i]`, whether a
corner references the vertex or not; what stays unwritten for a vertex that no
corner references is its slot of the vertex normals `PN`. -/
theorem C13_positions_all_copied {α : Type} (pm : PolyMesh α) (hwf : pm.WellFormed) :
    ∃ t, TriMesh.ofPolyMesh pm = some t ∧
      (∀ i, i < t.numVert → ∃ p, pm.Verts[i]? = some p ∧ t.P[i]? = some (some p)) ∧
      (∀ v, v < t.numVert → v ∉ pm.VertsIndices → t.PN[v]? = some none) := by
  have hwf2 := hwf
  obtain ⟨hn, hf3, hvl, hul, hnl, htl, ⟨hV0, hVl⟩, hvV, h32, hV32, hu32⟩ := hwf2
  have hmV := maxUpTo_lt pm.VertsIndices pm.VertsIndices.length _ hV0 hvV
  refine ⟨TriMesh.closedForm pm, ofPolyMesh_closedForm pm hwf, ?_, ?_⟩
  · intro i hi
    have hi2 : i < maxUpTo pm.VertsIndices pm.VertsIndices.length + 1 := hi
    obtain ⟨p, hp, -⟩ := exists_getElem? pm.Verts i (by omega)
    refine ⟨p, hp, ?_⟩
    show ((pm.Verts.take _).map some)[i]? = _
    rw [List.getElem?_map, List.getElem?_take_of_lt hi2, hp]
    rfl
  · intro v hv hnot
    have hv2 : v < maxUpTo pm.VertsIndices pm.VertsIndices.length + 1 := hv
    show (scattered pm.VertsIndices pm.Normals _ (emitted pm.FaceIndices pm.nFaces))[v]? = _
    unfold scattered
    rw [foldl_scatter_getElem? pm.VertsIndices pm.Normals _ v
      (fun c _ h => hnot (List.mem_iff_getElem?.mpr ⟨c, h⟩))]
    rw [List.getElem?_replicate_of_lt hv2]

/-- Witness of C13 on `sparseMesh`: the position of vertex 5 is copied and the
normal slot of the unreferenced vertex 1 is not written. -/
theorem C13_positions_all_copied_witness :
    sparseMesh.WellFormed ∧ ∃ t, TriMesh.ofPolyMesh sparseMesh = some t ∧
      t.PN[1]? = some none ∧ ∃ p, sparseMesh.Verts[5]? = some p ∧ t.P[5]? = some (some p) := by
  obtain ⟨t, ht, hP, hPN⟩ := C13_positions_all_copied sparseMesh (by decide)
  have hnv : t.numVert = 10 := by
    have e := ofPolyMesh_closedForm sparseMesh (by decide)
    rw [ht] at e
    rw [Option.some.inj e]
    decide
  exact ⟨by decide, t, ht, hPN 1 (by omega) (by decide), hP 5 (by omega)⟩

/-! ### Bounds of the constructor -/

theorem load_of_getElem? {β : Type} (a : List (Option β)) (p : Nat) (x : β)
    (h : a[p]? = some (some x)) : load a p = some x := by
  unfold load
  rw [h]

theorem slotBelow_filled (src : List Nat) (n : Nat) (E : List Nat) (p bound : Nat)
    (hp : p < E.length) (hE : ∀ c ∈ E, c < src.length) (hb : ∀ x ∈ src, x < bound) :
    slotBelow (filled src n E) p bound := by
  obtain ⟨c, hc, hmem⟩ := exists_getElem? E p hp
  obtain ⟨x, hx, hxm⟩ := exists_getElem? src c (hE c hmem)
  have h : (filled src n E)[p]? = some (some x) := by
    rw [filled_getElem? src n E p c hc, hx]
  unfold slotBelow
  rw [load_of_getElem? _ _ _ h]
  exact hb x hxm

theorem closedForm_exportable {α : Type} (pm : PolyMesh α) (hwf : pm.WellFormed) :
    (TriMesh.closedForm pm).Exportable ∧ (TriMesh.closedForm pm).numVert ≤ pm.nVertices := by
  obtain ⟨hn, hf3, hvl, hul, hnl, htl, ⟨hV0, hVl⟩, hvV, h32, hV32, hu32⟩ := hwf
  have hmV := maxUpTo_lt pm.VertsIndices pm.VertsIndices.length _ hV0 hvV
  have htsN : triStart pm.FaceIndices pm.nFaces = (pm.FaceIndices.map (fun f => f - 2)).sum := by
    rw [← hn]; exact triStart_length _
  have hlen : (emitted pm.FaceIndices pm.nFaces).length =
      3 * (pm.FaceIndices.map (fun f => f - 2)).sum := by
    rw [emitted_length _ _ (by omega), htsN]
  have hE : ∀ c ∈ emitted pm.FaceIndices pm.nFaces, c < pm.FaceIndices.sum := by
    intro c hc
    have h1 := emitted_lt pm.FaceIndices hf3 pm.nFaces (by omega) c hc
    have h2 := faceStart_le pm.FaceIndices pm.nFaces
    omega
  have hvV2 : ∀ v ∈ pm.VertsIndices, v < maxUpTo pm.VertsIndices pm.VertsIndices.length + 1 :=
    fun v hv => Nat.lt_succ_of_le (le_maxUpTo _ _ v (by simpa using hv))
  have huU2 : ∀ u ∈ pm.UVIndices, u < maxUpTo pm.UVIndices pm.UVIndices.length + 1 :=
    fun u hu => Nat.lt_succ_of_le (le_maxUpTo _ _ u (by simpa using hu))
  refine ⟨⟨?_, ?_, ?_, h32, ?_, ?_⟩, ?_⟩
  · show maxUpTo pm.VertsIndices pm.VertsIndices.length + 1 ≤
      ((pm.Verts.take (maxUpTo pm.VertsIndices pm.VertsIndices.length + 1)).map some).length
    rw [List.length_map, List.length_take]
    exact Nat.le_of_eq (Nat.min_eq_left (by omega)).symm
  · exact Nat.le_of_eq (scattered_length _ _ _ _).symm
  · exact Nat.le_of_eq (scattered_length _ _ _ _).symm
  · intro p hp
    exact slotBelow_filled _ _ _ p _ (by rw [hlen]; exact hp)
      (fun c hc => by have := hE c hc; omega) hvV2
  · intro p hp
    exact slotBelow_filled _ _ _ p _ (by rw [hlen]; exact hp)
      (fun c hc => by have := hE c hc; omega) huU2
  · show maxUpTo pm.VertsIndices pm.VertsIndices.length + 1 ≤ pm.nVertices
    omega

set_option maxRecDepth 1000000 in
/-- C18, the claim as stated fails: the record without faces and vertices satisfies
the record invariant and the constructor reads `Verts[0]` out of bounds
(`maxVertIndex` is 1 after the increment); the triangle `noUVTriangle` satisfies it
too and the constructor writes `UV[2^32 - 1]` into an array of
`(2^32 - 1 + 1) mod 2^32 = 0` slots. -/
theorem C18_bounds_counterexample :
    emptyMesh.RecordInvariant ∧ TriMesh.ofPolyMesh emptyMesh = none ∧
      noUVTriangle.RecordInvariant ∧ TriMesh.ofPolyMesh noUVTriangle = none :=
  ⟨by decide, by decide, by decide, by decide⟩

/-- C18, amended. On a polygon mesh that satisfies the record invariant, has every
face size at least 3 and every corner vertex index below `nVertices`, and that
moreover has a vertex position, texture-coordinate slots below `2^32 - 1` and
`3 * numTris < 2^32`, no read or write of the constructor is out of bounds (it
returns a mesh), `numVert <= nVertices`, every entry of `triIndex` is written and
below `numVert`, every entry of `UVIndices` is written and below `numUV`, and `P`,
`PN`, `UV` have `numVert`, `numVert`, `numUV` slots: the mesh is one that
`ExportOBJ` can print. -/
theorem C18_constructor_in_bounds {α : Type} (pm : PolyMesh α) (hwf : pm.WellFormed) :
    pm.RecordInvariant ∧
    ∃ t, TriMesh.ofPolyMesh pm = some t ∧ t.numVert ≤ pm.nVertices ∧
      (∀ p, p < 3 * t.numTris →
        (∃ a, t.triIndex[p]? = some (some a) ∧ a < t.numVert) ∧
        (∃ u, t.UVIndices[p]? = some (some u) ∧ u < t.numUV)) ∧
      t.numVert ≤ t.P.length ∧ t.numVert ≤ t.PN.length ∧ t.numUV ≤ t.UV.length ∧
      t.Exportable := by
  obtain ⟨hex, hnv⟩ := closedForm_exportable pm hwf
  have hex2 := hex
  obtain ⟨hP, hPN, hUV, -, htri, huv⟩ := hex2
  obtain ⟨hn, hf3, hvl, hul, hnl, htl, ⟨hV0, hVl⟩, hvV, h32, hV32, hu32⟩ := hwf
  refine ⟨⟨hn, hVl, hvl, hul, hnl, htl, hf3, hvV⟩, TriMesh.closedForm pm,
    ofPolyMesh_closedForm pm ⟨hn, hf3, hvl, hul, hnl, htl, ⟨hV0, hVl⟩, hvV, h32, hV32, hu32⟩,
    hnv, ?_, hP, hPN, hUV, hex⟩
  intro p hp
  obtain ⟨e1, b1⟩ := slotBelow_load _ _ _ (htri p hp)
  obtain ⟨e2, b2⟩ := slotBelow_load _ _ _ (huv p hp)
  exact ⟨⟨_, load_eq_some _ _ _ e1, b1⟩, ⟨_, load_eq_some _ _ _ e2, b2⟩⟩

/-- Witness of C18 on `quadMesh`. -/
theorem C18_constructor_in_bounds_witness :
    quadMesh.WellFormed ∧ ∃ t, TriMesh.ofPolyMesh quadMesh = some t ∧
      t.numVert ≤ quadMesh.nVertices ∧ t.Exportable := by
  obtain ⟨-, t, ht, hnv, -, -, -, -, hex⟩ := C18_constructor_in_bounds quadMesh (by decide)
  exact ⟨by decide, t, ht, hnv, hex⟩

/-! ### The base name of the geometry file -/

theorem stripDirectory_snoc (l : List Char) (c : Char) :
    stripDirectory (l ++ [c]) = if c = '/' then [] else stripDirectory l ++ [c] := by
  unfold stripDirectory
  rw [List.reverse_append, List.reverse_singleton, List.singleton_append, List.takeWhile_cons]
  by_cases h : c = '/'
  · simp [h]
  · simp [h]

theorem afterLastSlash_spec (s : List Char) (n : Nat) (hn : n ≤ s.length) :
    afterLastSlash s n ≤ n ∧
      (s.take n).drop (afterLastSlash s n) = stripDirectory (s.take n) := by
  induction n with
  | zero => simp [afterLastSlash, stripDirectory]
  | succ n ih =>
    have hlt : n < s.length := by omega
    obtain ⟨h1, h2⟩ := ih (by omega)
    have htake : s.take (n + 1) = s.take n ++ [s[n]] := by
      rw [List.take_succ, List.getElem?_eq_getElem hlt]
      rfl
    have hlen : (s.take n).length = n := by
      rw [List.length_take]; exact Nat.min_eq_left (by omega)
    unfold afterLastSlash
    rw [htake, stripDirectory_snoc, List.getElem?_eq_getElem hlt]
    by_cases h : s[n] = '/'
    · rw [if_pos (by rw [h]), if_pos h]
      refine ⟨Nat.le_refl _, ?_⟩
      rw [List.drop_of_length_le (by simp [hlen])]
    · rw [if_neg (fun e => h (Option.some.inj e)), if_neg h]
      refine ⟨by omega, ?_⟩
      rw [List.drop_append_of_le_length (by omega), h2]

theorem shortFilename_eq (pFilename : String) :
    shortFilename pFilename = baseNameSpec pFilename := by
  have h := (afterLastSlash_spec pFilename.data pFilename.data.length (Nat.le_refl _)).2
  rw [List.take_length] at h
  unfold shortFilename baseNameSpec
  simp only [h]

theorem utf8Size_of_lt (c : Char) (h : c.toNat < 128) : c.utf8Size = 1 := by
  unfold Char.utf8Size
  have h1 : c.val ≤ 127 := by
    show c.val.toNat ≤ 127
    have : c.toNat = c.val.toNat := rfl
    omega
  simp [h1]

theorem utf8ByteSize_go (l : List Char) (h : ∀ c ∈ l, c.toNat < 128) :
    String.utf8ByteSize.go l = l.length := by
  induction l with
  | nil => rfl
  | cons a t ih =>
    unfold String.utf8ByteSize.go
    rw [ih (fun c hc => h c (List.mem_cons_of_mem _ hc)),
      utf8Size_of_lt a (h a (List.mem_cons_self _ _))]
    rfl

theorem utf8ByteSize_of_singleByte (s : String) (h : SingleByte s) :
    s.utf8ByteSize = s.length := by
  cases s with
  | mk l => exact utf8ByteSize_go l h

theorem mem_of_mem_stripDirectory (s : List Char) (c : Char) (h : c ∈ stripDirectory s) :
    c ∈ s := by
  unfold stripDirectory at h
  rw [List.mem_reverse] at h
  exact List.mem_reverse.mp ((List.takeWhile_sublist _).subset h)

theorem baseNameSpec_singleByte (pFilename : String) (h : SingleByte pFilename) :
    SingleByte (baseNameSpec pFilename) := by
  intro c hc
  apply h c
  apply mem_of_mem_stripDirectory
  unfold baseNameSpec at hc
  split at hc
  · exact List.mem_of_mem_take hc
  · exact hc

theorem baseNameSpec_bytes (pFilename : String) (h : SingleByte pFilename)
    (h4 : 4 ≤ (stripDirectory pFilename.data).length) :
    (baseNameSpec pFilename).utf8ByteSize + 4 =
      (String.mk (stripDirectory pFilename.data)).utf8ByteSize := by
  have h2 : (String.mk (stripDirectory pFilename.data)).utf8ByteSize =
      (stripDirectory pFilename.data).length :=
    utf8ByteSize_go _ (fun c hc => h c (mem_of_mem_stripDirectory pFilename.data c hc))
  rw [utf8ByteSize_of_singleByte _ (baseNameSpec_singleByte pFilename h), h2]
  unfold baseNameSpec
  rw [if_pos h4]
  show ((stripDirectory pFilename.data).take _).length + 4 = (stripDirectory pFilename.data).length
  rw [List.length_take]
  omega

theorem takeWhile_length_lt {β : Type} (p : β → Bool) (l : List β)
    (h : ∃ x ∈ l, p x = false) : (l.takeWhile p).length < l.length := by
  induction l with
  | nil => obtain ⟨x, hx, -⟩ := h; simp at hx
  | cons a l ih =>
    rw [List.takeWhile_cons]
    by_cases ha : p a = true
    · rw [if_pos ha]
      obtain ⟨x, hx, hpx⟩ := h
      rcases List.mem_cons.mp hx with e | e
      · rw [e, ha] at hpx; exact absurd hpx (by simp)
      · have := ih ⟨x, e, hpx⟩
        simp only [List.length_cons]
        omega
    · rw [if_neg ha]
      simp

theorem stripDirectory_no_slash (s : List Char) : '/' ∉ stripDirectory s := by
  unfold stripDirectory
  intro h
  have h2 := List.mem_takeWhile_imp (List.mem_reverse.mp h)
  simp at h2

theorem stripDirectory_of_no_slash (s : List Char) (h : '/' ∉ s) : stripDirectory s = s := by
  unfold stripDirectory
  have e : (s.reverse.takeWhile fun c => decide (c ≠ '/')) = s.reverse := by
    rw [List.takeWhile_eq_self_iff]
    intro c hc
    have hcs : c ∈ s := List.mem_reverse.mp hc
    have : c ≠ '/' := fun e => h (e ▸ hcs)
    simpa using this
  rw [e, List.reverse_reverse]

theorem stripDirectory_length_lt (s : List Char) (h : '/' ∈ s) :
    (stripDirectory s).length < s.length := by
  unfold stripDirectory
  rw [List.length_reverse]
  have := takeWhile_length_lt (fun c => decide (c ≠ '/')) s.reverse
    ⟨'/', List.mem_reverse.mpr h, by simp⟩
  rwa [List.length_reverse] at this

theorem baseNameSpec_no_slash (pFilename : String) : '/' ∉ (baseNameSpec pFilename).data := by
  unfold baseNameSpec
  intro h
  have hs := stripDirectory_no_slash pFilename.data
  by_cases h4 : 4 ≤ (stripDirectory pFilename.data).length
  · rw [if_pos h4] at h
    exact hs (List.mem_of_mem_take h)
  · rw [if_neg h4] at h
    exact hs h

theorem append_mtl_inj (a b : String) : a ++ ".mtl" = b ++ ".mtl" ↔ a = b := by
  constructor
  · intro h
    have h2 := congrArg String.data h
    rw [String.data_append, String.data_append] at h2
    exact String.ext (List.append_cancel_right h2)
  · intro h; rw [h]

theorem writeFile_eq (fs : FileSystem) (path text : String) (h : fs.writable path = true) :
    fs.writeFile path text =
      some { writable := fs.writable,
             content := fun p => if p = path then some text else fs.content p,
             opened := fs.opened ++ [path] } := by
  unfold FileSystem.writeFile
  rw [if_pos h]

theorem WriteMaterials_eq {α : Type} (fmt : Option α → String) (fs : FileSystem)
    (materials : MaterialMap α) (filename : String) (hM : materials ≠ [])
    (h : fs.writable (filename ++ ".mtl") = true) :
    WriteMaterials fmt fs materials filename =
      (0, { writable := fs.writable,
            content := fun p => if p = filename ++ ".mtl"
              then some (materialFileText fmt materials) else fs.content p,
            opened := fs.opened ++ [filename ++ ".mtl"] }) := by
  have hpos : materials.length > 0 := List.length_pos.mpr hM
  unfold WriteMaterials
  simp only [if_pos hpos]
  rw [writeFile_eq fs _ _ h]
  rfl

theorem baseName_eq_iff (pFilename : String) (h4 : 4 ≤ (stripDirectory pFilename.data).length) :
    baseNameSpec pFilename ++ ".mtl" = extensionReplaced pFilename ↔ '/' ∉ pFilename.data := by
  unfold extensionReplaced
  rw [append_mtl_inj]
  unfold baseNameSpec
  rw [if_pos h4]
  constructor
  · intro h hs
    have hlt := stripDirectory_length_lt pFilename.data hs
    have hl := congrArg (fun s : String => s.data.length) h
    simp only [List.length_take] at hl
    omega
  · intro hs
    rw [stripDirectory_of_no_slash _ hs]

set_option maxRecDepth 1000000 in
/-- C19. For a geometry path of single-byte characters (the characters are the bytes
of the path), with a non-empty material table, a non-empty list of printable meshes
and both files writable, `ExportOBJ` opens the geometry file and then the material
file `B.mtl`, where `B` is the geometry path without everything up to its last `/`
and without its last 4 characters, and writes the materials there.  `B.mtl` contains no
`/`; when the name left after the last `/` has at least 4 characters, `B.mtl` is
the geometry path with its last 4 characters replaced by `.mtl` exactly when the
geometry path contains no `/`; for `out/a.obj` the material file is `a.mtl`, not
`out/a.mtl`. -/
theorem C19_material_file_path {α : Type} (fmt : Option α → String) (fs : FileSystem)
    (Materials : MaterialMap α) (ms : List (TriMesh α)) (pFilename : String)
    (hb : SingleByte pFilename)
    (hne : ms ≠ []) (hall : ∀ m ∈ ms, m.Exportable)
    (hv : vertexBase ms ms.length ≤ 2147483648) (hu : uvBase ms ms.length ≤ 2147483648)
    (hM : Materials ≠ []) (hw : fs.writable pFilename = true)
    (hwm : fs.writable (baseNameSpec pFilename ++ ".mtl") = true) :
    (∃ fs2, ExportOBJ fmt fs Materials ms pFilename = some (E_NOERROR, fs2) ∧
      fs2.opened = fs.opened ++ [pFilename, baseNameSpec pFilename ++ ".mtl"] ∧
      fs2.content (baseNameSpec pFilename ++ ".mtl") = some (materialFileText fmt Materials)) ∧
    '/' ∉ (baseNameSpec pFilename ++ ".mtl").data ∧
    (4 ≤ (stripDirectory pFilename.data).length →
      (baseNameSpec pFilename ++ ".mtl" = extensionReplaced pFilename ↔
        '/' ∉ pFilename.data)) ∧
    baseNameSpec "out/a.obj" ++ ".mtl" = "a.mtl" ∧
    extensionReplaced "out/a.obj" = "out/a.mtl" ∧
    pFilename.utf8ByteSize = pFilename.length ∧
    (4 ≤ (stripDirectory pFilename.data).length →
      (baseNameSpec pFilename).utf8ByteSize + 4 =
        (String.mk (stripDirectory pFilename.data)).utf8ByteSize) := by
  refine ⟨?_, ?_, baseName_eq_iff pFilename, by decide, by decide,
    utf8ByteSize_of_singleByte pFilename hb, baseNameSpec_bytes pFilename hb⟩
  · have hl := objLines_eq Materials ms pFilename hall hv hu
    obtain ⟨fs1, h1, h2⟩ := ExportOBJ_eq fmt fs Materials ms pFilename _ hne hw hl
    rw [writeFile_eq fs _ _ hw] at h1
    have hfs1 := Option.some.inj h1
    rw [shortFilename_eq] at h2
    have hwm1 : fs1.writable (baseNameSpec pFilename ++ ".mtl") = true := by
      rw [← hfs1]; exact hwm
    rw [WriteMaterials_eq fmt fs1 Materials _ hM hwm1] at h2
    refine ⟨_, h2, ?_, ?_⟩
    · show fs1.opened ++ [baseNameSpec pFilename ++ ".mtl"] = _
      rw [← hfs1]
      simp
    · show (if baseNameSpec pFilename ++ ".mtl" = baseNameSpec pFilename ++ ".mtl" then
        some (materialFileText fmt Materials)
        else fs1.content (baseNameSpec pFilename ++ ".mtl")) = _
      rw [if_pos rfl]
  · intro h
    rw [String.data_append, List.mem_append] at h
    rcases h with h | h
    · exact baseNameSpec_no_slash pFilename h
    · revert h; decide

set_option maxRecDepth 1000000 in
/-- Witness of C19: `unitTriMesh` and one material printed to `out/a.obj`; the files
opened are `out/a.obj` and `a.mtl`. -/
theorem C19_material_file_path_witness :
    SingleByte "out/a.obj" ∧
      [unitTriMesh] ≠ [] ∧ (∀ m ∈ [unitTriMesh], m.Exportable) ∧ materialTable ≠ [] ∧
      emptyFS.writable "out/a.obj" = true ∧
      emptyFS.writable (baseNameSpec "out/a.obj" ++ ".mtl") = true ∧
      4 ≤ (stripDirectory "out/a.obj".data).length ∧
      (∃ fs2, ExportOBJ fmtWhole emptyFS materialTable [unitTriMesh] "out/a.obj" =
          some (E_NOERROR, fs2) ∧
        fs2.opened = emptyFS.opened ++ ["out/a.obj", baseNameSpec "out/a.obj" ++ ".mtl"]) ∧
      baseNameSpec "out/a.obj" ++ ".mtl" ≠ extensionReplaced "out/a.obj" := by
  have h := C19_material_file_path fmtWhole emptyFS materialTable [unitTriMesh] "out/a.obj"
    (by decide) (by decide) (by decide) (by decide) (by decide) (by decide) rfl rfl
  obtain ⟨⟨fs2, h1, h2, -⟩, -, h3, -, -⟩ := h
  refine ⟨by decide, by decide, by decide, by decide, rfl, rfl, by decide, ⟨fs2, h1, h2⟩, ?_⟩
  intro e
  exact absurd ((h3 (by decide)).mp e) (by decide)

/-! ### Material of a mesh whose materials are assigned per face -/

theorem assignName_eq (names : List String) (id : Int) (s : String)
    (h : 0 ≤ id → id.toNat < names.length) :
    assignName names id s = some (nameStep names s id) := by
  unfold assignName nameStep
  by_cases h0 : 0 ≤ id
  · rw [if_pos h0, if_pos h0, List.getElem?_eq_getElem (h h0)]
    simp [List.getD, List.getElem?_eq_getElem (h h0)]
  · rw [if_neg h0, if_neg h0]

theorem overElements_byPolygon (names : List String) (i : Nat)
    (els : List FbxGeometryElementMaterial)
    (hlen : ∀ e ∈ els, i < e.indexArray.length)
    (hvalid : ∀ e ∈ els, ∀ id ∈ e.indexArray, 0 ≤ id → id.toNat < names.length) (s : String) :
    overElements (byPolygonStep names i) els s =
      some ((els.filterMap fun e => e.indexArray[i]?).foldl (nameStep names) s) := by
  induction els generalizing s with
  | nil => rfl
  | cons e rest ih =>
    obtain ⟨id, hid, hmem⟩ := exists_getElem? e.indexArray i (hlen e (by simp))
    have hstep : byPolygonStep names i e s = some (nameStep names s id) := by
      unfold byPolygonStep
      rw [hid, Option.some_bind, assignName_eq names id s (hvalid e (by simp) id hmem)]
    show (byPolygonStep names i e s).bind (overElements (byPolygonStep names i) rest) = _
    rw [hstep, Option.some_bind, ih (fun e he => hlen e (by simp [he]))
        (fun e he => hvalid e (by simp [he]))]
    simp [List.filterMap_cons, hid]

theorem byPolygon_loop (names : List String) (els : List FbxGeometryElementMaterial)
    (n : Nat) (hlen : ∀ e ∈ els, n ≤ e.indexArray.length)
    (hvalid : ∀ e ∈ els, ∀ id ∈ e.indexArray, 0 ≤ id → id.toNat < names.length) (s : String) :
    forLoop n (fun i s => overElements (byPolygonStep names i) els s) s =
      some ((assignedIds els n).foldl (nameStep names) s) := by
  induction n with
  | zero => rfl
  | succ n ih =>
    rw [forLoop_succ, ih (fun e he => by have := hlen e he; omega), Option.some_bind,
      overElements_byPolygon names n els (fun e he => by have := hlen e he; omega) hvalid]
    rw [show assignedIds els (n + 1) =
      assignedIds els n ++ els.filterMap (fun e => e.indexArray[n]?) from rfl, List.foldl_append]

theorem foldl_nameStep (names : List String) (s : String) (ids : List Int) :
    ids.foldl (nameStep names) s = lastAssigned names s ids := by
  induction ids using List.reverseRecOn with
  | nil => rfl
  | append_singleton l x ih =>
    rw [List.foldl_append, List.foldl_cons, List.foldl_nil, ih]
    unfold lastAssigned nameStep
    rw [List.filter_append]
    by_cases h : 0 ≤ x
    · simp [h]
    · simp [h]

theorem ExtractMaterialConnections_byPolygon (n : Nat) (els : List FbxGeometryElementMaterial)
    (names : List String) (matname : String)
    (hby : ∃ e ∈ els, e.mappingMode = MappingMode.eByPolygon)
    (hlen : ∀ e ∈ els, n ≤ e.indexArray.length)
    (hvalid : ∀ e ∈ els, ∀ id ∈ e.indexArray, 0 ≤ id → id.toNat < names.length) :
    ExtractMaterialConnections n els names matname =
      some (lastAssigned names matname (assignedIds els n)) := by
  have hc : ¬ (els.all (fun e => decide (e.mappingMode ≠ MappingMode.eByPolygon)) = true) := by
    intro h
    rw [List.all_eq_true] at h
    obtain ⟨e, he, hm⟩ := hby
    have := h e he
    simp [hm] at this
  unfold ExtractMaterialConnections
  rw [if_neg hc, byPolygon_loop names els n hlen hvalid, foldl_nameStep]

/-- C14, the claim as stated fails: two polygons, one material element mapped by
polygon with the indices `0, -1`.  The last face has no material (index -1, skipped
by the test `lMatId >= 0`) and the mesh is left with the name of the material of
face 0. -/
theorem C14_last_face_counterexample :
    lastFaceUnassigned.mappingMode = MappingMode.eByPolygon ∧
      lastFaceUnassigned.indexArray[1]? = some (-1) ∧
      lastFaceUnassigned.indexArray[0]? = some 0 ∧
      ExtractMaterialConnections 2 [lastFaceUnassigned] ["red", "blue"] "" = some "red" := by
  refine ⟨rfl, by decide, by decide, by decide⟩

/-- C14, amended. For a mesh with a material element mapped by polygon, index arrays
covering the polygons and non-negative indices addressing the materials of the
node, `ExtractMaterialConnections` leaves one name in `matname`: the name of the
material of the last non-negative index read, in the order of the loops (polygons
ascending, elements in order for each polygon), and the former name when every index
is negative.  With one element whose index for the last polygon is not negative it
is the name of the material of the last polygon. -/
theorem C14_last_assigned_face_wins (n : Nat) (els : List FbxGeometryElementMaterial)
    (names : List String) (matname : String)
    (hby : ∃ e ∈ els, e.mappingMode = MappingMode.eByPolygon)
    (hlen : ∀ e ∈ els, n ≤ e.indexArray.length)
    (hvalid : ∀ e ∈ els, ∀ id ∈ e.indexArray, 0 ≤ id → id.toNat < names.length) :
    ExtractMaterialConnections n els names matname =
        some (lastAssigned names matname (assignedIds els n)) ∧
      ∀ e k id name, els = [e] → n = k + 1 → e.indexArray[k]? = some id → 0 ≤ id →
        names[id.toNat]? = some name →
        ExtractMaterialConnections n els names matname = some name := by
  have h := ExtractMaterialConnections_byPolygon n els names matname hby hlen hvalid
  refine ⟨h, ?_⟩
  intro e k id name he hn hid h0 hname
  rw [h, he, hn]
  have e1 : assignedIds [e] (k + 1) = assignedIds [e] k ++ [id] := by
    show assignedIds [e] k ++ [e].filterMap (fun e => e.indexArray[k]?) = _
    simp [List.filterMap_cons, hid]
  rw [e1]
  unfold lastAssigned
  rw [List.filter_append]
  simp [h0, List.getD, hname]

/-- Witness of C14: two polygons with the materials 0 and 1; the mesh gets the name
of the material of the last polygon. -/
theorem C14_last_assigned_face_wins_witness :
    (∃ e ∈ [twoFaceMaterials], e.mappingMode = MappingMode.eByPolygon) ∧
      (∀ e ∈ [twoFaceMaterials], 2 ≤ e.indexArray.length) ∧
      (∀ e ∈ [twoFaceMaterials], ∀ id ∈ e.indexArray, 0 ≤ id →
        id.toNat < ["red", "blue"].length) ∧
      ExtractMaterialConnections 2 [twoFaceMaterials] ["red", "blue"] "" = some "blue" := by
  have hby : ∃ e ∈ [twoFaceMaterials], e.mappingMode = MappingMode.eByPolygon :=
    ⟨twoFaceMaterials, by simp, rfl⟩
  have hlen : ∀ e ∈ [twoFaceMaterials], 2 ≤ e.indexArray.length := by decide
  have hvalid : ∀ e ∈ [twoFaceMaterials], ∀ id ∈ e.indexArray, 0 ≤ id →
      id.toNat < ["red", "blue"].length := by decide
  exact ⟨hby, hlen, hvalid,
    (C14_last_assigned_face_wins 2 [twoFaceMaterials] ["red", "blue"] "" hby hlen hvalid).2
      twoFaceMaterials 1 1 "blue" rfl rfl (by decide) (by decide) (by decide)⟩

/-! ### Exit code of `main` -/

theorem main_missing_input (argv : List String) (env : Environment)
    (h : env.findfirst (if 2 ≤ argv.length then argv.getD 1 "" else "../data/Teeths.fbx") =
      false) : main argv env = (-1, none) := by
  unfold main
  simp only [h, if_true]

theorem main_exit_zero_of_found (argv : List String) (env : Environment)
    (h : env.findfirst (if 2 ≤ argv.length then argv.getD 1 "" else "../data/Teeths.fbx") =
      true) : (main argv env).1 = 0 := by
  unfold main
  simp only [h]
  generalize (if 2 ≤ argv.length then argv.getD 1 "" else "../data/Teeths.fbx") = strFile
  by_cases hx : extensionOf strFile = "fbx"
  · by_cases hl : env.LoadScene strFile = true
    · simp [hx, hl]
    · simp [hx, hl]
  · simp [hx]

set_option maxRecDepth 1000000 in
/-- C16, the code at the failing input: the file `bad.fbx` exists and `LoadScene`
fails on it.  `main` exports nothing and returns 0, not a negative code.  The other
parts hold: a missing input gives -1, a loaded scene is exported to `scene.obj`
with exit code 0, and an input with another extension gives exit code 0 without
export. -/
theorem C16_unreadable_input_exit_zero :
    main ["FBXConverter", "bad.fbx"] unreadableEnv = (0, none) ∧
      main ["FBXConverter", "bad.fbx"] missingEnv = (-1, none) ∧
      main ["FBXConverter", "scene.FBX"] readableEnv = (0, some "scene.obj") ∧
      main ["FBXConverter", "scene.txt"] readableEnv = (0, none) := by
  refine ⟨by decide, by decide, by decide, by decide⟩

/-! ### The mesh extraction -/

theorem slots_length {β : Type} (total : Nat) (xs : List (Option β)) (h : xs.length ≤ total) :
    (slots total xs).length = total := by
  unfold slots
  simp
  omega

theorem store_slots {β : Type} (total : Nat) (xs : List (Option β)) (v : β)
    (h : xs.length < total) :
    store (slots total xs) xs.length v = some (slots total (xs ++ [some v])) := by
  unfold slots
  have e : total - xs.length = (total - (xs ++ [some v]).length) + 1 := by
    simp
    omega
  rw [e, store_slot]

theorem slots_snoc_none {β : Type} (total : Nat) (xs : List (Option β))
    (h : xs.length < total) : slots total (xs ++ [none]) = slots total xs := by
  unfold slots
  have e : total - xs.length = (total - (xs ++ [(none : Option β)]).length) + 1 := by
    simp
    omega
  rw [e, List.replicate_succ]
  simp

theorem store_slots_last {β : Type} (total : Nat) (xs : List (Option β)) (a : Option β) (v : β) :
    store (slots total (xs ++ [a])) xs.length v = some (slots total (xs ++ [some v])) := by
  unfold slots store
  rw [if_pos (by simp)]
  simp [List.set_append]

theorem extractNormal_eq {α : Type} (index : Int) (e : FbxLayerElement (Vector3d α))
    (total vid : Nat) (F V UI : List (Option Nat)) (U : List (Option (Vector2d α)))
    (xs : List (Option (Vector3d α))) (acc : Option (Vector3d α))
    (hx : xs.length = vid) (ht : vid < total)
    (he : e.mappingMode = MappingMode.eByPolygonVertex ∨
      e.mappingMode = MappingMode.eByControlPoint) :
    extractNormal index e (ExtractState.mk vid F V U (slots total (xs ++ [acc])) UI) =
      some (ExtractState.mk vid F V U
        (slots total (xs ++ [(normalWritten index vid e).orElse fun _ => acc])) UI) := by
  subst hx
  unfold extractNormal normalWritten selectedNormal storeNormal
  rcases he with he | he <;> cases hr : e.referenceMode <;>
    simp [he, hr, store_slots_last, ht]

theorem extractNormals_eq {α : Type} (index : Int) (els : List (FbxLayerElement (Vector3d α)))
    (total vid : Nat) (F V UI : List (Option Nat)) (U : List (Option (Vector2d α)))
    (xs : List (Option (Vector3d α))) (hx : xs.length = vid) (ht : vid < total)
    (hs : ∀ e ∈ els, e.mappingMode = MappingMode.eByPolygonVertex ∨
      e.mappingMode = MappingMode.eByControlPoint) (acc : Option (Vector3d α)) :
    extractNormals index els (ExtractState.mk vid F V U (slots total (xs ++ [acc])) UI) =
      some (ExtractState.mk vid F V U
        (slots total (xs ++ [normalOf els index vid acc])) UI) := by
  induction els generalizing acc with
  | nil => rfl
  | cons e rest ih =>
    unfold extractNormals
    rw [extractNormal_eq index e total vid F V UI U xs acc hx ht (hs e (List.mem_cons_self _ _)),
      Option.some_bind, ih (fun x hx => hs x (List.mem_cons_of_mem _ hx))]
    rfl

theorem extractUV_eq {α : Type} (pMesh : FbxMesh α) (i j : Nat) (total vid : Nat)
    (F V : List (Option Nat)) (N : List (Option (Vector3d α)))
    (xs : List (Option (Vector2d α))) (ys : List (Option Nat))
    (hx : xs.length = vid) (hy : ys.length = vid) (ht : vid < total) :
    extractUV pMesh i j (pMesh.GetPolygonVertex i j)
        (ExtractState.mk vid F V (slots total xs) N (slots total ys)) =
      some (ExtractState.mk vid F V (slots total (xs ++ [uvOf pMesh (i, j)])) N
        (slots total (ys ++ [uvIndexOf pMesh (i, j)]))) := by
  subst hx
  have hn1 := slots_snoc_none total xs ht
  have hn2 := slots_snoc_none total ys (hy ▸ ht)
  have hs1 : ∀ v, store (slots total xs) xs.length v = some (slots total (xs ++ [some v])) :=
    fun v => store_slots total xs v ht
  have hs2 : ∀ v, store (slots total ys) xs.length v = some (slots total (ys ++ [some v])) :=
    fun v => hy ▸ store_slots total ys v (hy ▸ ht)
  unfold extractUV uvOf uvIndexOf storeUV
  cases he : pMesh.elementUV with
  | nil => simp [hn1, hn2]
  | cons leUV rest =>
    cases hm : leUV.mappingMode <;> cases hr : leUV.referenceMode <;>
      simp [hm, hr, hn1, hn2, hs1, hs2]

theorem normalsOf_length {α : Type} (pMesh : FbxMesh α) (start : Nat) (cs : List (Nat × Nat)) :
    (normalsOf pMesh start cs).length = cs.length := by
  unfold normalsOf
  simp

theorem normalsOf_snoc {α : Type} (pMesh : FbxMesh α) (cs : List (Nat × Nat)) (c : Nat × Nat) :
    normalsOf pMesh 0 (cs ++ [c]) = normalsOf pMesh 0 cs ++
      [normalOf pMesh.elementNormal (pMesh.GetPolygonVertex c.1 c.2) cs.length none] := by
  unfold normalsOf
  rw [List.enumFrom_append, List.map_append]
  simp

theorem extractCorner_dropped {α : Type} (pMesh : FbxMesh α) (i j : Nat) (s : ExtractState α)
    (h : pMesh.GetPolygonVertex i j < 0) : extractCorner pMesh i j s = some s := by
  unfold extractCorner
  rw [if_pos h]

theorem extractCorner_kept {α : Type} (pMesh : FbxMesh α) (hs : pMesh.NormalsSupported)
    (f i j : Nat) (cs : List (Nat × Nat)) (h : 0 ≤ pMesh.GetPolygonVertex i j)
    (ht : cs.length < cornerCount pMesh) :
    extractCorner pMesh i j (extractedAt pMesh f cs) =
      some (extractedAt pMesh f (cs ++ [(i, j)])) := by
  have h1 := store_slots (cornerCount pMesh)
    (cs.map fun c => some (toUInt32 (pMesh.GetPolygonVertex c.1 c.2)))
    (toUInt32 (pMesh.GetPolygonVertex i j)) (by rw [List.length_map]; exact ht)
  rw [List.length_map] at h1
  unfold extractCorner
  rw [if_neg (not_lt.mpr h)]
  simp only [extractedAt]
  rw [h1, Option.some_bind,
    extractUV_eq pMesh i j (cornerCount pMesh) cs.length _ _ _ _ _ (List.length_map _ _)
      (List.length_map _ _) ht,
    Option.some_bind,
    ← slots_snoc_none (cornerCount pMesh) (normalsOf pMesh 0 cs)
      (by rw [normalsOf_length]; exact ht),
    extractNormals_eq (pMesh.GetPolygonVertex i j) pMesh.elementNormal (cornerCount pMesh)
      cs.length _ _ _ _ _ (normalsOf_length pMesh 0 cs) ht hs none,
    Option.some_bind]
  simp [normalsOf_snoc]

theorem keptIn_succ {α : Type} (pMesh : FbxMesh α) (i j : Nat) :
    keptIn pMesh i (j + 1) =
      keptIn pMesh i j ++ (if 0 ≤ pMesh.GetPolygonVertex i j then [(i, j)] else []) := by
  unfold keptIn
  rw [List.range_succ, List.filter_append, List.map_append]
  by_cases h : 0 ≤ pMesh.GetPolygonVertex i j
  · simp [h]
  · simp [h]

theorem keptIn_length_le {α : Type} (pMesh : FbxMesh α) (i j : Nat) :
    (keptIn pMesh i j).length ≤ j := by
  unfold keptIn
  rw [List.length_map]
  exact le_trans (List.length_filter_le _ _) (by simp)

theorem keptBefore_succ {α : Type} (pMesh : FbxMesh α) (i : Nat) :
    keptBefore pMesh (i + 1) =
      keptBefore pMesh i ++ keptIn pMesh i (pMesh.GetPolygonSize i) := by
  unfold keptBefore
  rw [List.range_succ, List.flatMap_append]
  simp

theorem corner_loop {α : Type} (pMesh : FbxMesh α) (hs : pMesh.NormalsSupported)
    (f i : Nat) (cs : List (Nat × Nat)) (j : Nat) (hb : cs.length + j ≤ cornerCount pMesh) :
    forLoop j (extractCorner pMesh i) (extractedAt pMesh f cs) =
      some (extractedAt pMesh f (cs ++ keptIn pMesh i j)) := by
  induction j with
  | zero => simp [forLoop, keptIn]
  | succ j ih =>
    rw [forLoop_succ, ih (by omega), Option.some_bind, keptIn_succ]
    by_cases h : 0 ≤ pMesh.GetPolygonVertex i j
    · rw [if_pos h, extractCorner_kept pMesh hs f i j _ h, List.append_assoc]
      have := keptIn_length_le pMesh i j
      rw [List.length_append]
      omega
    · rw [if_neg h, extractCorner_dropped pMesh i j _ (not_le.mp h), List.append_nil]

theorem foldl_add_eq_sum (g : Nat → Nat) (l : List Nat) (a : Nat) :
    l.foldl (fun n i => n + g i) a = a + (l.map g).sum := by
  induction l generalizing a with
  | nil => simp
  | cons x rest ih => simp [ih, Nat.add_assoc]

theorem map_getD_length_range (l : List (List Int)) :
    (List.range l.length).map (fun i => (l.getD i []).length) = l.map List.length := by
  apply List.ext_getElem
  · simp
  · intro n h1 h2
    simp at h1
    simp [List.getD_eq_getElem?_getD, h1]

theorem vertsIndexCount_eq {α : Type} (pMesh : FbxMesh α) :
    vertsIndexCount pMesh = cornerCount pMesh := by
  unfold vertsIndexCount cornerCount
  rw [foldl_add_eq_sum, Nat.zero_add]
  unfold FbxMesh.GetPolygonSize
  rw [map_getD_length_range]

theorem sizes_range_succ {α : Type} (pMesh : FbxMesh α) (i : Nat) :
    ((List.range (i + 1)).map pMesh.GetPolygonSize).sum =
      ((List.range i).map pMesh.GetPolygonSize).sum + pMesh.GetPolygonSize i := by
  rw [List.range_succ, List.map_append, List.sum_append]
  simp

theorem sizes_range_mono {α : Type} (pMesh : FbxMesh α) (i n : Nat) (h : i ≤ n) :
    ((List.range i).map pMesh.GetPolygonSize).sum ≤
      ((List.range n).map pMesh.GetPolygonSize).sum := by
  induction n with
  | zero =>
    have : i = 0 := by omega
    rw [this]
  | succ n ih =>
    by_cases hi : i = n + 1
    · rw [hi]
    · have := ih (by omega)
      rw [sizes_range_succ]
      omega

theorem sizes_range_all {α : Type} (pMesh : FbxMesh α) :
    ((List.range pMesh.polygons.length).map pMesh.GetPolygonSize).sum = cornerCount pMesh := by
  unfold cornerCount
  rw [← map_getD_length_range]
  rfl

theorem keptBefore_length_le {α : Type} (pMesh : FbxMesh α) (i : Nat) :
    (keptBefore pMesh i).length ≤ ((List.range i).map pMesh.GetPolygonSize).sum := by
  induction i with
  | zero => simp [keptBefore]
  | succ i ih =>
    rw [keptBefore_succ, sizes_range_succ, List.length_append]
    have := keptIn_length_le pMesh i (pMesh.GetPolygonSize i)
    omega

theorem extractPolygon_eq {α : Type} (pMesh : FbxMesh α) (hs : pMesh.NormalsSupported)
    (i : Nat) (hi : i < pMesh.polygons.length) :
    extractPolygon pMesh i (extractedAt pMesh i (keptBefore pMesh i)) =
      some (extractedAt pMesh (i + 1) (keptBefore pMesh (i + 1))) := by
  have h1 : store (slots pMesh.polygons.length
        ((List.range i).map fun k => some (pMesh.GetPolygonSize k))) i (pMesh.GetPolygonSize i) =
      some (slots pMesh.polygons.length
        ((List.range (i + 1)).map fun k => some (pMesh.GetPolygonSize k))) := by
    have h0 := store_slots pMesh.polygons.length
      ((List.range i).map fun k => some (pMesh.GetPolygonSize k)) (pMesh.GetPolygonSize i)
      (by rw [List.length_map, List.length_range]; exact hi)
    rw [List.length_map, List.length_range] at h0
    rw [h0, List.range_succ, List.map_append]
    rfl
  have hb : (keptBefore pMesh i).length + pMesh.GetPolygonSize i ≤ cornerCount pMesh := by
    have a := keptBefore_length_le pMesh i
    have b := sizes_range_succ pMesh i
    have c := sizes_range_mono pMesh (i + 1) pMesh.polygons.length (by omega)
    rw [sizes_range_all] at c
    omega
  unfold extractPolygon
  simp only [extractedAt]
  rw [h1, Option.some_bind, keptBefore_succ]
  exact corner_loop pMesh hs (i + 1) i (keptBefore pMesh i) (pMesh.GetPolygonSize i) hb

theorem init_eq {α : Type} (pMesh : FbxMesh α) :
    ExtractState.init pMesh = extractedAt pMesh 0 (keptBefore pMesh 0) := by
  unfold ExtractState.init extractedAt keptBefore
  rw [vertsIndexCount_eq]
  simp [slots, normalsOf]

theorem polygon_loop {α : Type} (pMesh : FbxMesh α) (hs : pMesh.NormalsSupported)
    (i : Nat) (hi : i ≤ pMesh.polygons.length) :
    forLoop i (extractPolygon pMesh) (ExtractState.init pMesh) =
      some (extractedAt pMesh i (keptBefore pMesh i)) := by
  induction i with
  | zero => rw [init_eq]; rfl
  | succ i ih =>
    rw [forLoop_succ, ih (by omega), Option.some_bind, extractPolygon_eq pMesh hs i (by omega)]

theorem slots_full {β : Type} (total : Nat) (xs : List (Option β)) (h : xs.length = total) :
    slots total xs = xs := by
  unfold slots
  rw [h]
  simp

theorem ExtractMesh_eq {α : Type} (pMesh : FbxMesh α) (hs : pMesh.NormalsSupported) :
    ExtractMesh pMesh = some
      { name := pMesh.name
        nVertices := pMesh.controlPoints.length
        nFaces := pMesh.polygons.length
        Verts := pMesh.controlPoints.map some
        FaceIndices := pMesh.polygons.map fun p => some p.length
        VertsIndices := slots (cornerCount pMesh)
          ((keptCorners pMesh).map fun c => some (toUInt32 (pMesh.GetPolygonVertex c.1 c.2)))
        UVs := slots (cornerCount pMesh) ((keptCorners pMesh).map (uvOf pMesh))
        Normals := slots (cornerCount pMesh) (normalsOf pMesh 0 (keptCorners pMesh))
        UVIndices := slots (cornerCount pMesh) ((keptCorners pMesh).map (uvIndexOf pMesh)) } := by
  unfold ExtractMesh
  rw [polygon_loop pMesh hs _ (Nat.le_refl _), Option.some_bind]
  simp only [extractedAt, keptCorners]
  rw [slots_full _ _ (by simp)]
  congr 2
  have h := map_getD_length_range pMesh.polygons
  have h2 := congrArg (List.map some) h
  simpa [FbxMesh.GetPolygonSize, Function.comp] using h2

theorem map_getD_range {β : Type} (l : List β) (d : β) :
    (List.range l.length).map (fun i => l.getD i d) = l := by
  apply List.ext_getElem
  · simp
  · intro n h1 h2
    simp at h1
    simp [List.getD_eq_getElem?_getD, h1]

theorem kept_of_polygon (q : List Int) :
    ((List.range q.length).filter fun c => decide (0 ≤ q.getD c (-1))).map
      (fun c => q.getD c (-1)) = q.filter fun x => decide (0 ≤ x) := by
  have h : List.filter (fun x => decide (0 ≤ x)) (List.map (fun c => q.getD c (-1))
        (List.range q.length)) =
      List.map (fun c => q.getD c (-1))
        (List.filter ((fun x => decide (0 ≤ x)) ∘ fun c => q.getD c (-1))
          (List.range q.length)) := List.filter_map _ _
  rw [map_getD_range] at h
  rw [h]
  rfl

theorem flatMap_getD_range {β γ : Type} (l : List β) (d : β) (g : β → List γ) :
    (List.range l.length).flatMap (fun i => g (l.getD i d)) = l.flatMap g := by
  have h := List.flatMap_map (fun i => l.getD i d) g (List.range l.length)
  rw [map_getD_range] at h
  rw [h]

theorem keptCorners_indices {α : Type} (pMesh : FbxMesh α) :
    (keptCorners pMesh).map (fun c => pMesh.GetPolygonVertex c.1 c.2) =
      pMesh.polygons.flatten.filter fun x => decide (0 ≤ x) := by
  unfold keptCorners keptBefore keptIn FbxMesh.GetPolygonSize FbxMesh.GetPolygonVertex
  rw [List.map_flatMap, List.filter_flatten, ← List.flatMap_def,
    ← flatMap_getD_range pMesh.polygons [] (List.filter fun x => decide (0 ≤ x))]
  congr 1
  funext i
  rw [List.map_map, ← kept_of_polygon]
  rfl

/-- C17, counterexample: the only polygon of `outOfRangeMesh`, a mesh of three
control points, has a corner with control point index 7, which is not below the
number of control points.  `ExtractMesh` does not drop the corner: it stores the
index 7 in `VertsIndices`, between the two other corners. -/
theorem C17_out_of_range_counterexample :
    outOfRangeMesh.controlPoints.length = 3 ∧
      outOfRangeMesh.GetPolygonVertex 0 1 = 7 ∧
      (ExtractMesh outOfRangeMesh).map (fun m => m.VertsIndices) =
        some [some 0, some 7, some 2] := by
  refine ⟨by decide, by decide, by decide⟩

/-- C17 (amended): for every mesh whose normal elements are mapped by polygon vertex
or by control point, `ExtractMesh` returns a mesh, in which `FaceIndices` holds the
declared size of every polygon, and in which the four corner arrays `VertsIndices`,
`UVs`, `Normals`, `UVIndices` hold, from slot 0 on and without gap, what belongs to
the corners whose control point index is not negative, in order, the remaining
slots being unwritten: a corner with a negative index is dropped from the four
arrays and the following corners take its place, and a corner with an index that
is not negative is kept, whether the index is below the number of control points
or not. -/
theorem C17_negative_corner_dropped {α : Type} (pMesh : FbxMesh α)
    (hs : pMesh.NormalsSupported) :
    ExtractMesh pMesh = some
      { name := pMesh.name
        nVertices := pMesh.controlPoints.length
        nFaces := pMesh.polygons.length
        Verts := pMesh.controlPoints.map some
        FaceIndices := pMesh.polygons.map fun p => some p.length
        VertsIndices := slots (cornerCount pMesh)
          ((keptCorners pMesh).map fun c => some (toUInt32 (pMesh.GetPolygonVertex c.1 c.2)))
        UVs := slots (cornerCount pMesh) ((keptCorners pMesh).map (uvOf pMesh))
        Normals := slots (cornerCount pMesh) (normalsOf pMesh 0 (keptCorners pMesh))
        UVIndices := slots (cornerCount pMesh) ((keptCorners pMesh).map (uvIndexOf pMesh)) } ∧
      (keptCorners pMesh).map (fun c => pMesh.GetPolygonVertex c.1 c.2) =
        pMesh.polygons.flatten.filter fun x => decide (0 ≤ x) :=
  ⟨ExtractMesh_eq pMesh hs, keptCorners_indices pMesh⟩

/-- C17, witness: the mesh `negativeIndexMesh`, whose first triangle has a corner
with control point index -1; the five other corners fill the slots 0 to 4 of the
four corner arrays and slot 5 is unwritten, and `FaceIndices` is `[3, 3]`. -/
theorem C17_negative_corner_dropped_witness :
    negativeIndexMesh.NormalsSupported ∧
      (ExtractMesh negativeIndexMesh = some
        { name := negativeIndexMesh.name
          nVertices := negativeIndexMesh.controlPoints.length
          nFaces := negativeIndexMesh.polygons.length
          Verts := negativeIndexMesh.controlPoints.map some
          FaceIndices := negativeIndexMesh.polygons.map fun p => some p.length
          VertsIndices := slots (cornerCount negativeIndexMesh)
            ((keptCorners negativeIndexMesh).map fun c =>
              some (toUInt32 (negativeIndexMesh.GetPolygonVertex c.1 c.2)))
          UVs := slots (cornerCount negativeIndexMesh)
            ((keptCorners negativeIndexMesh).map (uvOf negativeIndexMesh))
          Normals := slots (cornerCount negativeIndexMesh)
            (normalsOf negativeIndexMesh 0 (keptCorners negativeIndexMesh))
          UVIndices := slots (cornerCount negativeIndexMesh)
            ((keptCorners negativeIndexMesh).map (uvIndexOf negativeIndexMesh)) } ∧
        (keptCorners negativeIndexMesh).map
            (fun c => negativeIndexMesh.GetPolygonVertex c.1 c.2) =
          negativeIndexMesh.polygons.flatten.filter fun x => decide (0 ≤ x)) ∧
      (ExtractMesh negativeIndexMesh).map (fun m => (m.FaceIndices, m.VertsIndices)) =
        some ([some 3, some 3], [some 0, some 2, some 2, some 1, some 0, none]) ∧
      (ExtractMesh negativeIndexMesh).map (fun m => m.UVIndices) =
        some [some 0, some 2, some 3, some 4, some 5, none] ∧
      (ExtractMesh negativeIndexMesh).map (fun m => m.Normals) =
        some [some (Vector3d.mk 0 0 1), some (Vector3d.mk 2 0 1), some (Vector3d.mk 2 0 1),
          some (Vector3d.mk 1 0 1), some (Vector3d.mk 0 0 1), none] :=
  ⟨by decide, C17_negative_corner_dropped negativeIndexMesh (by decide), by decide, by decide,
    by decide⟩

/-- C20, the code at the failing input: for a triangle whose normal element is
mapped by polygon vertex with direct reference and selects the source normal
`(0, 0, 1)` for every corner, `ExtractMesh` stores `(0, 0, 0)` for every corner:
the z component stored is the x component of the source normal.  The same element
mapped by control point is stored unchanged, as `(0, 0, 1)`. -/
theorem C20_polygon_vertex_normal_z_is_x :
    selectedNormal 0 0 (upNormals MappingMode.eByPolygonVertex) = some (Vector3d.mk 0 0 1) ∧
      (ExtractMesh (upTriangle MappingMode.eByPolygonVertex)).map (fun m => m.Normals) =
        some [some (Vector3d.mk 0 0 0), some (Vector3d.mk 0 0 0), some (Vector3d.mk 0 0 0)] ∧
      (ExtractMesh (upTriangle MappingMode.eByControlPoint)).map (fun m => m.Normals) =
        some [some (Vector3d.mk 0 0 1), some (Vector3d.mk 0 0 1), some (Vector3d.mk 0 0 1)] := by
  refine ⟨by decide, by decide, by decide⟩

end FBXConverter
